import Mathlib

/-!
# Session control core of the xvc decoder (`src/xvc_dec_lib/decoder.cc`)

A shallow embedding of `xvc::Decoder`: the dispatcher `DecodeNal`, the segment
transition `DecodeSegmentHeaderNal`, the decode step `DecodeOneBufferedNal`,
the flush path, the output selector `GetDecodedPicture` and the pool manager
`GetNewPictureDecoder`, followed by theorems about them.

Conventions of the embedding.

* The decoder object is a record `Decoder`; every member function becomes a
  pure function from the old record to the new one (plus its return value).
* The collaborators whose code lives in other translation units (bit reader
  primitives, segment header reader, picture header decode, reference list
  sorter, payload decode, the constants of absent enumerations) are the fields
  of a record `Env`; the general theorems are stated for an arbitrary `Env`,
  and `sampleEnv` is one instance on which the model is run (`sampleEnvWide`
  is the same with POCs of 64 bits carried by the units).
* Pictures are held by `std::shared_ptr` in the source; here a picture handed
  out by the pool is identified by its slot index, and a write through the
  pointer is a write to that slot.
* The in-flight counter `num_pics_in_buffer_` is a `uint32_t` (the casts in
  `DecodeSegmentHeaderNal` and `FlushBufferedTailPics` show its width): its
  increment, its decrement and the two subtractions wrap modulo `2 ^ 32`.
  Arithmetic that mixes it with `nal_buffer_.size()` is `size_t` arithmetic,
  modulo `2 ^ 64`.  The counters `doc_`, `soc_` and `num_corrupted_pics_`,
  whose types are declared in the absent `decoder.h`, are naturals.
  `num_tail_pics_` and the temporal ids are signed (`Int`).
* `decode_log` is a ghost field: the list of units handed to
  `DecodeOneBufferedNal`, oldest first.  No function reads it.
* What `GetDecodedPicture` writes to its output argument is a record
  `xvc_decoded_picture`: the statistics that `SetOutputStats` fills in (POC, DOC
  and SOC cut to their 32 least significant bits) and, standing for the
  converted samples, the reconstructed picture they are copied from.
* The member initialisers of `Decoder` are in the absent `decoder.h`; statements
  about reachable states start from any state satisfying `isInitial`.
* Two properties of absent collaborators are named and used as hypotheses
  where a statement needs them: `headerOutcomesGate` (a header parse yields a
  header outcome) and `docIsHanded` (a decoded picture's DOC is the counter
  value handed to its header decode).
-/

namespace xvc

/-- Modelled from the spec: the enumeration `State` is declared in the absent
`decoder.h`; the spec (data model, "Decoder session state") lists these six
outcomes, named here as `decoder.cc` names them. -/
inductive State where
  | kNoSegmentHeader
  | kSegmentHeaderDecoded
  | kPicDecoded
  | kDecoderVersionTooLow
  | kBitstreamBitdepthTooHigh
  | kChecksumMismatch
  deriving DecidableEq

/-- Modelled from the spec: `OutputStatus` is declared in an absent header; the
spec gives a pool slot the two output states "not output" and "output". -/
inductive OutputStatus where
  | kHasNotBeenOutput
  | kHasBeenOutput
  deriving DecidableEq

/-- A raw NAL unit: its bytes (`std::vector<uint8_t>`). -/
abbrev Nal := List Nat

/-- The fields of `SegmentHeader` that `decoder.cc` reads.  Enumerated fields
(`chroma_format`, `color_matrix`) are kept as their numeric codes. -/
structure SegmentHeader where
  pic_width : Int
  pic_height : Int
  chroma_format : Nat
  color_matrix : Nat
  internal_bitdepth : Int
  bitstream_ticks : Int
  max_sub_gop_length : Nat
  num_ref_pics : Nat
  open_gop : Bool
  deblock : Int
  beta_offset : Int
  tc_offset : Int
  adaptive_qp : Int
  deriving DecidableEq

/-- The part of `PictureData` that `decoder.cc` reads or writes through
`GetPicData()`. -/
structure PicData where
  output_status : OutputStatus
  poc : Nat
  doc : Nat
  soc : Nat
  tid : Int
  width : Int
  height : Int
  chroma_format : Nat
  bitdepth : Int
  adaptive_qp : Bool
  deblock : Bool
  beta_offset : Int
  tc_offset : Int
  deriving DecidableEq

/-- One pool slot.  `rec_pic` stands for everything else a `PictureDecoder`
owns (reconstructed samples, reference lists, QP, NAL type); the session code
never inspects it. -/
structure PictureDecoder where
  pic_data : PicData
  rec_pic : Nat
  deriving DecidableEq

/-- Modelled from the spec: `BitReader` is an external leaf, "a sequential
bit-level cursor over a byte buffer with a rewind-by-N-bits operation".  The
cursor is the bit offset `pos`; how bits are packed in a byte is left to
`Env.bits`. -/
structure BitReader where
  data : List Nat
  pos : Nat
  deriving DecidableEq

/-- The data members of `xvc::Decoder`, plus the ghost field `decode_log`. -/
structure Decoder where
  state_ : State
  curr_segment_header_ : SegmentHeader
  prev_segment_header_ : SegmentHeader
  sub_gop_end_poc_ : Nat
  sub_gop_start_poc_ : Nat
  sub_gop_length_ : Nat
  doc_ : Nat
  soc_ : Nat
  num_tail_pics_ : Int
  sliding_window_length_ : Nat
  pic_buffering_num_ : Nat
  output_width_ : Int
  output_height_ : Int
  output_chroma_format_ : Nat
  output_color_matrix_ : Nat
  output_bitdepth_ : Int
  max_tid_ : Int
  decoder_ticks_ : Int
  enforce_sliding_window_ : Bool
  pic_decoders_ : List PictureDecoder
  nal_buffer_ : List Nal
  num_pics_in_buffer_ : Nat
  num_corrupted_pics_ : Nat
  decode_log : List Nal
  deriving DecidableEq

/-- The fields of the statistics record `xvc_dec_pic_stats` that
`SetOutputStats` fills in from data of this embedding.  (The two framerates, the
NAL type, the QP and the reference POC lists are computed from parts of a
picture that `rec_pic` stands for.) -/
structure xvc_dec_pic_stats where
  width : Int
  height : Int
  bitdepth : Int
  chroma_format : Nat
  color_matrix : Nat
  bitstream_bitdepth : Int
  poc : Nat
  doc : Nat
  soc : Nat
  tid : Int
  deriving DecidableEq

/-- The output argument of `GetDecodedPicture`: the statistics, and `rec_pic`
for the samples that `CopyTo` converts into `bytes`. -/
structure xvc_decoded_picture where
  stats : xvc_dec_pic_stats
  rec_pic : Nat
  deriving DecidableEq

/-- What `PictureDecoder::DecodeHeader` hands back: the picture it wrote, the
advanced cursor and the three counters it receives by pointer. -/
structure DecodeHeaderResult where
  pic : PictureDecoder
  bit_reader : BitReader
  sub_gop_end_poc : Nat
  sub_gop_start_poc : Nat
  sub_gop_length : Nat

/-- The collaborators and constants that `decoder.cc` uses but that are
declared or defined elsewhere in the repository.  Each is a parameter.

* `kSegmentHeader`, `kIntraPicture`, `kReservedPictureType10`: values of
  `NalUnitType`; `kUndefinedChromaFormat`, `kUndefinedColorMatrix`: the
  "undefined" codes of the two enumerations;
* `PicNum_max`: `std::numeric_limits<PicNum>::max()`;
* `bits data pos n`: the value of the `n` bits at bit offset `pos`;
* `GetFramerateMaxTid`: `SegmentHeader::GetFramerateMaxTid`;
* `Read`: `SegmentHeaderReader::Read`, returning the state and the header it
  filled in;
* `NewPictureDecoder`: the `PictureDecoder` constructor;
* `DecodeHeader`, `PrepareRefPicLists`, `Decode`: the three steps run on the
  picture obtained from the pool; they may read the whole pool and write only
  the picture they are given;
* `HasPictureReadyForOutput`: the member function of that name, defined in
  the absent `decoder.h`. -/
structure Env where
  kSegmentHeader : Nat
  kIntraPicture : Nat
  kReservedPictureType10 : Nat
  kUndefinedChromaFormat : Nat
  kUndefinedColorMatrix : Nat
  PicNum_max : Nat
  bits : List Nat → Nat → Nat → Nat
  GetFramerateMaxTid : Int → Int → Nat → Int
  Read : BitReader → Nat → State × SegmentHeader
  NewPictureDecoder : Nat → Int → Int → Int → PictureDecoder
  DecodeHeader : PictureDecoder → BitReader → Nat → Nat → Nat → Nat → Nat →
    Nat → Nat → Int → DecodeHeaderResult
  PrepareRefPicLists : Bool → Nat → List PictureDecoder → PictureDecoder →
    PictureDecoder
  Decode : List PictureDecoder → PictureDecoder → SegmentHeader → BitReader →
    Bool × PictureDecoder
  HasPictureReadyForOutput : Decoder → Bool

/-! ## Machine arithmetic -/

/-- Subtraction of `uint32_t` values: `a - b` modulo `2 ^ 32`. -/
def sub32 (a b : Nat) : Nat := (a + 2 ^ 32 - b % 2 ^ 32) % 2 ^ 32

/-- The increment `a++` of a `uint32_t` value: `a + 1` modulo `2 ^ 32`. -/
def inc32 (a : Nat) : Nat := (a + 1) % 2 ^ 32

/-- The conversion `static_cast<uint32_t>(a)` of an unsigned value. -/
def toUint32 (a : Nat) : Nat := a % 2 ^ 32

/-- Subtraction of `size_t` values: `a - b` modulo `2 ^ 64`. -/
def subSize (a b : Nat) : Nat := (a + 2 ^ 64 - b % 2 ^ 64) % 2 ^ 64

/-- Addition of `size_t` values: `a + b` modulo `2 ^ 64`. -/
def addSize (a b : Nat) : Nat := (a + b) % 2 ^ 64

/-- The conversion `static_cast<size_t>(i)` of a signed value. -/
def toSizeT (i : Int) : Nat := (i % 2 ^ 64).toNat

/-! ## Bit reader -/

/-- Model of `BitReader::ReadBits(n)` (and of `ReadByte`, `ReadBit` for `n = 8`,
`1`): the value read and the advanced cursor. -/
def ReadBits (env : Env) (br : BitReader) (n : Nat) : Nat × BitReader :=
  (env.bits br.data br.pos n % 2 ^ n, { br with pos := br.pos + n })

/-- Model of `BitReader::Rewind(n)`. -/
def Rewind (br : BitReader) (n : Nat) : BitReader :=
  { br with pos := br.pos - n }

/-- The 8-bit unit header, as `DecodeNal` reads it with `ReadByte`. -/
def nalHeader (env : Env) (nal : Nal) : Nat :=
  (ReadBits env ⟨nal, 0⟩ 8).1

/-- The reserved field, `nal_rfe = (header >> 6) & 3`. -/
def nalRfe (env : Env) (nal : Nal) : Nat :=
  (nalHeader env nal >>> 6) &&& 3

/-- The unit type, `nal_unit_type = (header >> 1) & 31`. -/
def nalUnitType (env : Env) (nal : Nal) : Nat :=
  (nalHeader env nal >>> 1) &&& 31

/-- The buffer flag: the bit read right after the header byte. -/
def nalBufferFlag (env : Env) (nal : Nal) : Nat :=
  (ReadBits env (ReadBits env ⟨nal, 0⟩ 8).2 1).1

/-- The temporal id: the three bits read after the buffer flag. -/
def nalTid (env : Env) (nal : Nal) : Int :=
  ((ReadBits env (ReadBits env (ReadBits env ⟨nal, 0⟩ 8).2 1).2 3).1 : Nat)

/-! ## Picture pool manager -/

/-- The victim scan of `GetNewPictureDecoder` (the `for` loop over
`pic_decoders_`): `i` is the position of the iterator `it`, `lowest_poc` and
`pic_it` are the loop variables of the same names.  The result is the final
position of `pic_it`. -/
def findVictim : List PictureDecoder → Nat → Nat → Nat → Nat
  | [], _, _, pic_it => pic_it
  | pic :: rest, i, lowest_poc, pic_it =>
    if pic.pic_data.output_status = OutputStatus.kHasBeenOutput ∧
        pic.pic_data.tid > 0 then
      i
    else if pic.pic_data.poc < lowest_poc then
      findVictim rest (i + 1) pic.pic_data.poc i
    else
      findVictim rest (i + 1) lowest_poc pic_it

/-- Model of `Decoder::GetNewPictureDecoder`, on the pool and its target size:
the new pool and the index of the slot returned.  Below the target a slot is appended;
otherwise the victim is scanned for, and replaced when its format differs from
the request.  (With an empty pool and target `0` the source dereferences
`end()`; the model then leaves the pool as it is.) -/
def GetNewPictureDecoder (env : Env) (pic_decoders : List PictureDecoder)
    (pic_buffering_num : Nat) (chroma_format : Nat) (width height bitdepth : Int) :
    List PictureDecoder × Nat :=
  if pic_decoders.length < pic_buffering_num then
    (pic_decoders ++ [env.NewPictureDecoder chroma_format width height bitdepth],
      pic_decoders.length)
  else
    let pic_it := findVictim pic_decoders 0 env.PicNum_max 0
    let pic_data :=
      (pic_decoders.getD pic_it
        (env.NewPictureDecoder chroma_format width height bitdepth)).pic_data
    if width ≠ pic_data.width ∨ height ≠ pic_data.height ∨
        chroma_format ≠ pic_data.chroma_format ∨ bitdepth ≠ pic_data.bitdepth then
      (pic_decoders.set pic_it
        (env.NewPictureDecoder chroma_format width height bitdepth), pic_it)
    else
      (pic_decoders, pic_it)

/-! ## Decode step -/

/-- The segment header that governs a buffered unit: the previous one for a
unit whose buffer flag is set, the current one otherwise. -/
def governingHeader (env : Env) (d : Decoder) (nal : Nal) : SegmentHeader :=
  if nalBufferFlag env nal ≠ 0 then d.prev_segment_header_ else d.curr_segment_header_

/-- The slot index and pool that `DecodeOneBufferedNal` obtains from
`GetNewPictureDecoder` for the unit `nal`. -/
def slotFor (env : Env) (d : Decoder) (nal : Nal) : List PictureDecoder × Nat :=
  GetNewPictureDecoder env d.pic_decoders_ d.pic_buffering_num_
    (governingHeader env d nal).chroma_format (governingHeader env d nal).pic_width
    (governingHeader env d nal).pic_height (governingHeader env d nal).internal_bitdepth

/-- The value of `num_tail_pics_` after the tail-picture handling at the top of
`DecodeOneBufferedNal`. -/
def tailAfter (env : Env) (d : Decoder) (nal : Nal) : Int :=
  if nalBufferFlag env nal ≠ 0 then d.num_tail_pics_ - 1 else d.num_tail_pics_

/-- The call `pic_dec->DecodeHeader(...)` of `DecodeOneBufferedNal`.  The
cursor it receives was advanced by 9 bits and rewound by 9. -/
def headerStep (env : Env) (d : Decoder) (nal : Nal) : DecodeHeaderResult :=
  env.DecodeHeader
    ((slotFor env d nal).1.getD (slotFor env d nal).2
      (env.NewPictureDecoder (governingHeader env d nal).chroma_format
        (governingHeader env d nal).pic_width (governingHeader env d nal).pic_height
        (governingHeader env d nal).internal_bitdepth))
    (Rewind (ReadBits env (ReadBits env ⟨nal, 0⟩ 8).2 1).2 9)
    d.sub_gop_end_poc_ d.sub_gop_start_poc_ d.sub_gop_length_
    (governingHeader env d nal).max_sub_gop_length
    d.prev_segment_header_.max_sub_gop_length d.doc_ d.soc_ (tailAfter env d nal)

/-- The picture after the four `pic_data->Set...` calls. -/
def configuredPic (env : Env) (d : Decoder) (nal : Nal) : PictureDecoder :=
  { (headerStep env d nal).pic with
    pic_data :=
      { (headerStep env d nal).pic.pic_data with
        adaptive_qp := decide ((governingHeader env d nal).adaptive_qp > 0)
        deblock := decide ((governingHeader env d nal).deblock > 0)
        beta_offset := (governingHeader env d nal).beta_offset
        tc_offset := (governingHeader env d nal).tc_offset } }

/-- The picture after `ref_list_sorter.PrepareRefPicLists`. -/
def sortedPic (env : Env) (d : Decoder) (nal : Nal) : PictureDecoder :=
  env.PrepareRefPicLists d.prev_segment_header_.open_gop
    (governingHeader env d nal).num_ref_pics
    ((slotFor env d nal).1.set (slotFor env d nal).2 (configuredPic env d nal))
    (configuredPic env d nal)

/-- The call `pic_dec->Decode(*segment_header, &pic_bit_reader)`: its boolean
result and the decoded picture. -/
def payloadStep (env : Env) (d : Decoder) (nal : Nal) : Bool × PictureDecoder :=
  env.Decode ((slotFor env d nal).1.set (slotFor env d nal).2 (sortedPic env d nal))
    (sortedPic env d nal) (governingHeader env d nal) (headerStep env d nal).bit_reader

/-- Model of `Decoder::DecodeOneBufferedNal`. -/
def DecodeOneBufferedNal (env : Env) (d : Decoder) (nal : Nal) : Decoder :=
  { d with
    num_tail_pics_ := tailAfter env d nal
    pic_decoders_ := (slotFor env d nal).1.set (slotFor env d nal).2 (payloadStep env d nal).2
    sub_gop_end_poc_ := (headerStep env d nal).sub_gop_end_poc
    sub_gop_start_poc_ := (headerStep env d nal).sub_gop_start_poc
    sub_gop_length_ := (headerStep env d nal).sub_gop_length
    state_ :=
      if (payloadStep env d nal).1 then
        (if d.state_ ≠ State.kChecksumMismatch then State.kPicDecoded else d.state_)
      else State.kChecksumMismatch
    num_corrupted_pics_ :=
      if (payloadStep env d nal).1 then d.num_corrupted_pics_
      else d.num_corrupted_pics_ + 1
    doc_ := (payloadStep env d nal).2.pic_data.doc + 1
    decode_log := d.decode_log ++ [nal] }

/-- Model of `Decoder::DecodeAllBufferedNals`: every buffered unit is decoded, front
first, then the buffer is cleared. -/
def DecodeAllBufferedNals (env : Env) (d : Decoder) : Decoder :=
  { d.nal_buffer_.foldl (DecodeOneBufferedNal env) d with nal_buffer_ := [] }

/-! ## Dispatcher -/

/-- The condition of the `while` loop of `DecodeNal`:
`nal_buffer_.size() > 0 && num_pics_in_buffer_ - nal_buffer_.size() + 1 <
pic_buffering_num_`, in `size_t` arithmetic. -/
def drainCond (d : Decoder) : Prop :=
  d.nal_buffer_.length > 0 ∧
    addSize (subSize d.num_pics_in_buffer_ d.nal_buffer_.length) 1 < d.pic_buffering_num_

instance (d : Decoder) : Decidable (drainCond d) := by
  unfold drainCond; exact inferInstance

/-- One iteration of the `while` loop of `DecodeNal`: decode the front unit,
then `pop_front`. -/
def drainStep (env : Env) (d : Decoder) : Decoder :=
  match d.nal_buffer_ with
  | [] => d
  | nal :: _ =>
    { DecodeOneBufferedNal env d nal with
      nal_buffer_ := (DecodeOneBufferedNal env d nal).nal_buffer_.tail }

/-- The `while` loop of `DecodeNal`, run for at most `fuel` iterations. -/
def drainLoop (env : Env) : Nat → Decoder → Decoder
  | 0, d => d
  | fuel + 1, d => if drainCond d then drainLoop env fuel (drainStep env d) else d

/-- Model of `Decoder::DecodeSegmentHeaderNal`.  `bit_reader` is the cursor after the
header byte. -/
def DecodeSegmentHeaderNal (env : Env) (d : Decoder) (bit_reader : BitReader) :
    Bool × Decoder :=
  let d1 : Decoder :=
    if d.nal_buffer_.length > toSizeT d.num_tail_pics_ then
      { d with
        num_pics_in_buffer_ := sub32 d.num_pics_in_buffer_ d.nal_buffer_.length
        nal_buffer_ := []
        num_tail_pics_ := 0 }
    else d
  let d2 : Decoder :=
    { d1 with
      prev_segment_header_ := d1.curr_segment_header_
      curr_segment_header_ := (env.Read bit_reader (d1.soc_ + 1)).2
      soc_ := d1.soc_ + 1
      state_ := (env.Read bit_reader (d1.soc_ + 1)).1 }
  if d2.state_ ≠ State.kSegmentHeaderDecoded then
    (false, d2)
  else
    let sub_gop_length := d2.curr_segment_header_.max_sub_gop_length
    let sliding_window_length :=
      if sub_gop_length + 1 > d2.sliding_window_length_ then sub_gop_length + 1
      else d2.sliding_window_length_
    (true,
      { d2 with
        sub_gop_length_ := sub_gop_length
        sliding_window_length_ := sliding_window_length
        pic_buffering_num_ := sliding_window_length + d2.curr_segment_header_.num_ref_pics
        output_width_ :=
          if d2.output_width_ = 0 then d2.curr_segment_header_.pic_width
          else d2.output_width_
        output_height_ :=
          if d2.output_height_ = 0 then d2.curr_segment_header_.pic_height
          else d2.output_height_
        output_chroma_format_ :=
          if d2.output_chroma_format_ = env.kUndefinedChromaFormat then
            d2.curr_segment_header_.chroma_format
          else d2.output_chroma_format_
        output_color_matrix_ :=
          if d2.output_color_matrix_ = env.kUndefinedColorMatrix then
            d2.curr_segment_header_.color_matrix
          else d2.output_color_matrix_
        output_bitdepth_ :=
          if d2.output_bitdepth_ = 0 then d2.curr_segment_header_.internal_bitdepth
          else d2.output_bitdepth_
        max_tid_ :=
          env.GetFramerateMaxTid d2.decoder_ticks_ d2.curr_segment_header_.bitstream_ticks
            sub_gop_length })

/-- The value `new_desired_max_tid` computed by `DecodeNal`. -/
def desiredMaxTid (env : Env) (d : Decoder) : Int :=
  env.GetFramerateMaxTid d.decoder_ticks_ d.curr_segment_header_.bitstream_ticks
    d.curr_segment_header_.max_sub_gop_length

/-- The temporal-layer ceiling after the update in `DecodeNal`
(`if (new_desired_max_tid < max_tid_ || tid == 0)`). -/
def gatedMaxTid (env : Env) (d : Decoder) (nal : Nal) : Int :=
  if desiredMaxTid env d < d.max_tid_ ∨ nalTid env nal = 0 then desiredMaxTid env d
  else d.max_tid_

/-- The state of `DecodeNal` after an accepted picture unit was counted and
inserted in `nal_buffer_`, before the buffer flag is acted on. -/
def insertNal (env : Env) (d : Decoder) (nal : Nal) : Decoder :=
  { d with
    max_tid_ := gatedMaxTid env d nal
    num_pics_in_buffer_ := inc32 d.num_pics_in_buffer_
    nal_buffer_ :=
      if nalBufferFlag env nal = 0 ∧ d.num_tail_pics_ > 0 then nal :: d.nal_buffer_
      else d.nal_buffer_ ++ [nal] }

/-- Model of `Decoder::DecodeNal`.  The `while` loop is run with as many iterations of
fuel as the buffer holds units after the insertion (`drainLoop_fuel` shows
that more fuel changes nothing). -/
def DecodeNal (env : Env) (d : Decoder) (nal : Nal) : Bool × Decoder :=
  if nalRfe env nal > 0 then
    (false, d)
  else if nalUnitType env nal = env.kSegmentHeader then
    DecodeSegmentHeaderNal env d (ReadBits env ⟨nal, 0⟩ 8).2
  else if d.state_ = State.kNoSegmentHeader ∨ d.state_ = State.kDecoderVersionTooLow ∨
      d.state_ = State.kBitstreamBitdepthTooHigh then
    (false, d)
  else if nalUnitType env nal ≥ env.kIntraPicture ∧
      nalUnitType env nal ≤ env.kReservedPictureType10 then
    if nalTid env nal > gatedMaxTid env d nal then
      (true, { d with max_tid_ := gatedMaxTid env d nal })
    else if nalBufferFlag env nal ≠ 0 then
      (true,
        { insertNal env d nal with
          num_tail_pics_ := (insertNal env d nal).num_tail_pics_ + 1 })
    else
      (true, drainLoop env (insertNal env d nal).nal_buffer_.length (insertNal env d nal))
  else
    (false, d)

/-! ## Flush -/

/-- Model of `Decoder::FlushBufferedTailPics`. -/
def FlushBufferedTailPics (env : Env) (d : Decoder) : Decoder :=
  if d.nal_buffer_.length > toSizeT d.num_tail_pics_ then
    d
  else
    let d1 : Decoder :=
      { d with
        enforce_sliding_window_ := false
        soc_ := d.soc_ + 1
        prev_segment_header_ := d.curr_segment_header_ }
    if d1.nal_buffer_.length > 0 then
      if d1.curr_segment_header_.open_gop then
        { d1 with
          num_pics_in_buffer_ := sub32 d1.num_pics_in_buffer_ d1.nal_buffer_.length
          nal_buffer_ := [] }
      else
        DecodeAllBufferedNals env
          { d1 with
            doc_ := d1.doc_ + 1
            sub_gop_start_poc_ := d1.sub_gop_end_poc_
            sub_gop_end_poc_ := d1.sub_gop_end_poc_ + d1.sub_gop_length_ }
    else d1

/-! ## Output selector -/

/-- The scan of `GetDecodedPicture` for the picture to output (the `for` loop
over `pic_decoders_`): `i` is the position of the current slot, `lowest_poc`
and `pic_dec` are the loop variables of the same names (`pic_dec` as a slot
index, `none` for the null pointer). -/
def findLowestPoc : List PictureDecoder → Nat → Nat → Option Nat → Option Nat
  | [], _, _, pic_dec => pic_dec
  | pic :: rest, i, lowest_poc, pic_dec =>
    if pic.pic_data.output_status = OutputStatus.kHasNotBeenOutput ∧
        pic.pic_data.poc < lowest_poc then
      findLowestPoc rest (i + 1) pic.pic_data.poc (some i)
    else
      findLowestPoc rest (i + 1) lowest_poc pic_dec

/-- The picture `pic` with `SetOutputStatus(OutputStatus::kHasBeenOutput)`
applied. -/
def markOutput (pic : PictureDecoder) : PictureDecoder :=
  { pic with pic_data := { pic.pic_data with output_status := OutputStatus.kHasBeenOutput } }

/-- The state of `GetDecodedPicture` once slot `i` was selected: the slot is
marked as output and the in-flight counter decremented. -/
def outputSlot (d : Decoder) (i : Nat) (pic : PictureDecoder) : Decoder :=
  { d with
    pic_decoders_ := d.pic_decoders_.set i (markOutput pic)
    num_pics_in_buffer_ := sub32 d.num_pics_in_buffer_ 1 }

/-- The condition under which `GetDecodedPicture` decodes one more unit:
`nal_buffer_.size() > static_cast<size_t>(num_tail_pics_) &&
num_pics_in_buffer_ - nal_buffer_.size() < pic_buffering_num_`. -/
def refillCond (d : Decoder) : Prop :=
  d.nal_buffer_.length > toSizeT d.num_tail_pics_ ∧
    subSize d.num_pics_in_buffer_ d.nal_buffer_.length < d.pic_buffering_num_

instance (d : Decoder) : Decidable (refillCond d) := by
  unfold refillCond; exact inferInstance

/-- Model of `Decoder::SetOutputStats`: the statistics written for the picture
`pic_dec`.  POC, DOC and SOC are exposed by their 32 least significant bits. -/
def SetOutputStats (d : Decoder) (pic_dec : PictureDecoder) : xvc_dec_pic_stats :=
  { width := d.output_width_
    height := d.output_height_
    bitdepth := d.output_bitdepth_
    chroma_format := d.output_chroma_format_
    color_matrix := d.output_color_matrix_
    bitstream_bitdepth := pic_dec.pic_data.bitdepth
    poc := toUint32 pic_dec.pic_data.poc
    doc := toUint32 pic_dec.pic_data.doc
    soc := toUint32 pic_dec.pic_data.soc
    tid := pic_dec.pic_data.tid }

/-- What `GetDecodedPicture` writes to `output_pic` for the selected picture
`pic_dec`. -/
def outputPicture (d : Decoder) (pic_dec : PictureDecoder) : xvc_decoded_picture :=
  { stats := SetOutputStats d pic_dec, rec_pic := pic_dec.rec_pic }

/-- Model of `Decoder::GetDecodedPicture`.  The result is `none` for `return false`, and
for `return true` what was written to `output_pic`. -/
def GetDecodedPicture (env : Env) (d : Decoder) : Option xvc_decoded_picture × Decoder :=
  if d.enforce_sliding_window_ = true ∧ env.HasPictureReadyForOutput d = false then
    (none, d)
  else
    match findLowestPoc d.pic_decoders_ 0 env.PicNum_max none with
    | none => (none, d)
    | some i =>
      match d.pic_decoders_[i]? with
      | none => (none, d)
      | some pic =>
        (some (outputPicture d (markOutput pic)),
          if refillCond (outputSlot d i pic) then drainStep env (outputSlot d i pic)
          else outputSlot d i pic)

/-! ## Vocabulary of the statements -/

/-- The session state lets non-header units through: it is none of
`kNoSegmentHeader`, `kDecoderVersionTooLow`, `kBitstreamBitdepthTooHigh`. -/
def acceptsPictures (d : Decoder) : Prop :=
  d.state_ ≠ State.kNoSegmentHeader ∧ d.state_ ≠ State.kDecoderVersionTooLow ∧
    d.state_ ≠ State.kBitstreamBitdepthTooHigh

instance (d : Decoder) : Decidable (acceptsPictures d) := by
  unfold acceptsPictures; exact inferInstance

/-- The unit is dispatched as a picture by `DecodeNal`: its reserved bits are
zero, it is not a segment header, and its type lies in the picture range. -/
def isPictureNal (env : Env) (nal : Nal) : Prop :=
  nalRfe env nal = 0 ∧ nalUnitType env nal ≠ env.kSegmentHeader ∧
    env.kIntraPicture ≤ nalUnitType env nal ∧
    nalUnitType env nal ≤ env.kReservedPictureType10

instance (env : Env) (nal : Nal) : Decidable (isPictureNal env nal) := by
  unfold isPictureNal; exact inferInstance

/-- The unit is dispatched to `DecodeSegmentHeaderNal` by `DecodeNal`. -/
def isHeaderNal (env : Env) (nal : Nal) : Prop :=
  nalRfe env nal = 0 ∧ nalUnitType env nal = env.kSegmentHeader

instance (env : Env) (nal : Nal) : Decidable (isHeaderNal env nal) := by
  unfold isHeaderNal; exact inferInstance

/-- A picture unit passes the temporal-layer gate of `DecodeNal` in state `d`. -/
def accepted (env : Env) (d : Decoder) (nal : Nal) : Prop :=
  ¬ nalTid env nal > gatedMaxTid env d nal

instance (env : Env) (d : Decoder) (nal : Nal) : Decidable (accepted env d nal) := by
  unfold accepted; exact inferInstance

/-- The session after feeding the units `nals` to `DecodeNal`, one by one. -/
def feed (env : Env) (d : Decoder) (nals : List Nal) : Decoder :=
  nals.foldl (fun s nal => (DecodeNal env s nal).2) d

/-! ## A sample environment

Used to run the model on concrete inputs.  Bits are taken most significant
first; a header unit carries, after its header byte, a status code (`0` for a
successful parse, `1` version too low, `2` bit depth too high), the sub-GOP
length, the reference picture count and the open-GOP flag; a picture unit
carries its POC in its third byte. -/

/-- The bit at offset `p` of `data`, most significant bit of a byte first. -/
def sampleBit (data : List Nat) (p : Nat) : Nat :=
  (data.getD (p / 8) 0 >>> (7 - p % 8)) % 2

/-- The value of the `n` bits at offset `pos`, most significant first. -/
def sampleBits (data : List Nat) (pos n : Nat) : Nat :=
  (List.range n).foldl (fun acc k => 2 * acc + sampleBit data (pos + k)) 0

/-- The header a sample header unit describes. -/
def sampleHeader (data : List Nat) : SegmentHeader :=
  { pic_width := 16, pic_height := 16, chroma_format := 1, color_matrix := 1,
    internal_bitdepth := 8, bitstream_ticks := 1,
    max_sub_gop_length := data.getD 2 0, num_ref_pics := data.getD 3 0,
    open_gop := decide (data.getD 4 0 ≠ 0),
    deblock := 1, beta_offset := 0, tc_offset := 0, adaptive_qp := 0 }

/-- The parse result a sample header unit describes. -/
def sampleParse (data : List Nat) : State :=
  if data.getD 1 0 = 0 then State.kSegmentHeaderDecoded
  else if data.getD 1 0 = 1 then State.kDecoderVersionTooLow
  else State.kBitstreamBitdepthTooHigh

/-- A freshly constructed sample picture. -/
def samplePic (chroma_format : Nat) (width height bitdepth : Int) : PictureDecoder :=
  { pic_data :=
      { output_status := OutputStatus.kHasNotBeenOutput, poc := 0, doc := 0, soc := 0,
        tid := 0, width := width, height := height, chroma_format := chroma_format,
        bitdepth := bitdepth, adaptive_qp := false, deblock := false,
        beta_offset := 0, tc_offset := 0 },
    rec_pic := 0 }

/-- The sample environment. -/
def sampleEnv : Env :=
  { kSegmentHeader := 16
    kIntraPicture := 0
    kReservedPictureType10 := 10
    kUndefinedChromaFormat := 255
    kUndefinedColorMatrix := 0
    PicNum_max := 2 ^ 64 - 1
    bits := sampleBits
    GetFramerateMaxTid := fun _ _ sub_gop_length => (sub_gop_length : Int)
    Read := fun br _ => (sampleParse br.data, sampleHeader br.data)
    NewPictureDecoder := samplePic
    DecodeHeader := fun pic br e s l _ _ doc soc _ =>
      { pic :=
          { pic with
            pic_data :=
              { pic.pic_data with
                output_status := OutputStatus.kHasNotBeenOutput
                poc := br.data.getD 2 0
                doc := doc
                soc := soc
                tid := (sampleBits br.data 9 3 : Nat) } }
        bit_reader := { br with pos := br.pos + 16 }
        sub_gop_end_poc := e
        sub_gop_start_poc := s
        sub_gop_length := l }
    PrepareRefPicLists := fun _ _ _ pic => pic
    Decode := fun _ pic _ _ => (true, pic)
    HasPictureReadyForOutput := fun d =>
      decide (d.num_pics_in_buffer_ ≥ d.pic_buffering_num_) }

/-- A sample session right after construction: no header decoded, empty pool
and buffer, minimum-buffering enforcement on. -/
def sampleInit : Decoder :=
  { state_ := State.kNoSegmentHeader
    curr_segment_header_ := sampleHeader []
    prev_segment_header_ := sampleHeader []
    sub_gop_end_poc_ := 0, sub_gop_start_poc_ := 0, sub_gop_length_ := 0
    doc_ := 0, soc_ := 0, num_tail_pics_ := 0
    sliding_window_length_ := 0, pic_buffering_num_ := 1
    output_width_ := 0, output_height_ := 0
    output_chroma_format_ := 255, output_color_matrix_ := 0, output_bitdepth_ := 0
    max_tid_ := 0, decoder_ticks_ := 0, enforce_sliding_window_ := true
    pic_decoders_ := [], nal_buffer_ := []
    num_pics_in_buffer_ := 0, num_corrupted_pics_ := 0, decode_log := [] }

/-- A sample header unit (type 16): parse succeeds, sub-GOP length 4, 2
reference pictures, closed GOP. -/
def sampleH1 : Nal := [32, 0, 4, 2, 0]

/-- The sample session after the header unit `sampleH1`. -/
def sampleAfterH1 : Decoder := (DecodeNal sampleEnv sampleInit sampleH1).2

/-! ## Operations of a session -/

/-- One call made by the user of the decoder. -/
inductive Op where
  | decodeNal (nal : Nal)
  | flush
  | getDecodedPicture
  deriving DecidableEq

/-- The session after one call. -/
def step (env : Env) (d : Decoder) : Op → Decoder
  | Op.decodeNal nal => (DecodeNal env d nal).2
  | Op.flush => FlushBufferedTailPics env d
  | Op.getDecodedPicture => (GetDecodedPicture env d).2

/-- The session after a sequence of calls. -/
def run (env : Env) (d : Decoder) (ops : List Op) : Decoder :=
  ops.foldl (step env) d

/-- The call feeds a header unit. -/
def Op.isHeader (env : Env) : Op → Prop
  | Op.decodeNal nal => isHeaderNal env nal
  | Op.flush => False
  | Op.getDecodedPicture => False

instance (env : Env) (op : Op) : Decidable (Op.isHeader env op) := by
  cases op <;> unfold Op.isHeader <;> exact inferInstance

/-- The two quantities that size the pool: `sliding_window_length_` and the
target `pic_buffering_num_`. -/
def poolTarget (d : Decoder) : Nat × Nat :=
  (d.sliding_window_length_, d.pic_buffering_num_)

/-- A sample header unit: parse succeeds, sub-GOP length 4, 5 reference
pictures. -/
def sampleH5 : Nal := [32, 0, 4, 5, 0]

/-- A sample header unit: parse succeeds, sub-GOP length 4, 1 reference
picture. -/
def sampleHr1 : Nal := [32, 0, 4, 1, 0]

/-- The slot is preferred for reuse by `GetNewPictureDecoder`: it has been
output and its temporal id is greater than 0. -/
def recyclable (pic : PictureDecoder) : Prop :=
  pic.pic_data.output_status = OutputStatus.kHasBeenOutput ∧ pic.pic_data.tid > 0

instance (pic : PictureDecoder) : Decidable (recyclable pic) := by
  unfold recyclable; exact inferInstance

/-- A sample pool slot with the given output status, temporal id and POC. -/
def sampleSlot (status : OutputStatus) (tid : Int) (poc : Nat) : PictureDecoder :=
  { pic_data :=
      { output_status := status, poc := poc, doc := 0, soc := 0, tid := tid,
        width := 16, height := 16, chroma_format := 1, bitdepth := 8,
        adaptive_qp := false, deblock := false, beta_offset := 0, tc_offset := 0 },
    rec_pic := 0 }

/-- The slot holds a picture that has not been output yet. -/
def notOutput (pic : PictureDecoder) : Prop :=
  pic.pic_data.output_status = OutputStatus.kHasNotBeenOutput

instance (pic : PictureDecoder) : Decidable (notOutput pic) := by
  unfold notOutput; exact inferInstance

/-- The call of `GetDecodedPicture` gets past its enforcement test: not
(`enforce_sliding_window_` and no picture ready for output). -/
def notRefused (env : Env) (d : Decoder) : Prop :=
  ¬ (d.enforce_sliding_window_ = true ∧ env.HasPictureReadyForOutput d = false)

instance (env : Env) (d : Decoder) : Decidable (notRefused env d) := by
  unfold notRefused; exact inferInstance

/-- The sample environment, except that the picture header decode takes the POC
of a picture from the eight bytes that follow the second byte of its unit, most
significant byte first, so that a unit can carry any `PicNum` value. -/
def sampleEnvWide : Env :=
  { sampleEnv with
    DecodeHeader := fun pic br e s l _ _ doc soc _ =>
      { pic :=
          { pic with
            pic_data :=
              { pic.pic_data with
                output_status := OutputStatus.kHasNotBeenOutput
                poc := sampleBits br.data 16 64
                doc := doc
                soc := soc
                tid := (sampleBits br.data 9 3 : Nat) } }
        bit_reader := { br with pos := br.pos + 80 }
        sub_gop_end_poc := e
        sub_gop_start_poc := s
        sub_gop_length := l } }

/-- A sample picture unit for `sampleEnvWide` (type 0, buffer flag clear,
temporal id 0) whose POC is `numeric_limits<PicNum>::max()`, that is
`2 ^ 64 - 1`. -/
def sampleUnitMaxPoc : Nal := [0, 0, 255, 255, 255, 255, 255, 255, 255, 255]

/-- A sample session of one picture: the header `sampleH1`, the unit
`sampleUnitMaxPoc` (decoded on arrival), then a flush, which switches the
minimum-buffering enforcement off. -/
def sampleMaxPoc : Decoder :=
  run sampleEnvWide sampleInit
    [Op.decodeNal sampleH1, Op.decodeNal sampleUnitMaxPoc, Op.flush]

/-- A sample session with enforcement off: three pictures in the pool, two of
them not output, and one unit waiting in the reorder buffer. -/
def samplePending : Decoder :=
  { sampleAfterH1 with
    enforce_sliding_window_ := false
    pic_decoders_ :=
      [sampleSlot OutputStatus.kHasNotBeenOutput 0 8,
        sampleSlot OutputStatus.kHasBeenOutput 0 0,
        sampleSlot OutputStatus.kHasNotBeenOutput 1 4]
    nal_buffer_ := [[0, 32, 6]]
    num_pics_in_buffer_ := 3 }

/-- A sample header unit: parse succeeds, sub-GOP length 1, 1 reference
picture (target pool size 3). -/
def sampleHg1 : Nal := [32, 0, 1, 1, 0]

/-- A sample session after `sampleH1` with two units waiting in the reorder
buffer, the first of them a tail picture, and two pictures in flight. -/
def sampleTail : Decoder :=
  { sampleAfterH1 with
    nal_buffer_ := [[0, 128, 3], [0, 0, 5]]
    num_tail_pics_ := 1
    num_pics_in_buffer_ := 2 }

/-- A sample session after `sampleH1` with three units waiting in the reorder
buffer, none of them a tail picture. -/
def sampleStale : Decoder :=
  { sampleAfterH1 with
    nal_buffer_ := [[0, 0, 3], [0, 0, 5], [0, 0, 7]]
    num_tail_pics_ := 0
    num_pics_in_buffer_ := 5 }

/-- A sample header unit: parse succeeds, sub-GOP length 4, 2 reference
pictures, open GOP. -/
def sampleHopen : Nal := [32, 0, 4, 2, 1]

/-- The sample session after the open-GOP header unit `sampleHopen`. -/
def sampleAfterHopen : Decoder := (DecodeNal sampleEnv sampleInit sampleHopen).2

/-- The five output defaults: width, height, bit depth, chroma format, colour
matrix. -/
def outputDefaults (d : Decoder) : Int × Int × Int × Nat × Nat :=
  (d.output_width_, d.output_height_, d.output_bitdepth_, d.output_chroma_format_,
    d.output_color_matrix_)

/-- All five output defaults are set: the three numbers are not 0 and the two
enumerated values are not the "undefined" code. -/
def defaultsSet (env : Env) (d : Decoder) : Prop :=
  d.output_width_ ≠ 0 ∧ d.output_height_ ≠ 0 ∧ d.output_bitdepth_ ≠ 0 ∧
    d.output_chroma_format_ ≠ env.kUndefinedChromaFormat ∧
    d.output_color_matrix_ ≠ env.kUndefinedColorMatrix

instance (env : Env) (d : Decoder) : Decidable (defaultsSet env d) := by
  unfold defaultsSet; exact inferInstance

/-- A sample session in an open-GOP segment with two tail units waiting. -/
def sampleOpenTails : Decoder :=
  feed sampleEnv sampleAfterHopen [[0, 128, 3], [0, 128, 5]]

/-- A sample session in a closed-GOP segment with two tail units waiting. -/
def sampleClosedTails : Decoder :=
  feed sampleEnv sampleAfterH1 [[0, 128, 3], [0, 128, 5]]

/-- Modelled from the spec: `SegmentHeaderReader::Read` is not among the sources.
The spec says of its result that "anything other than successfully decoded
aborts the transition (the decoder remains in that failure state and subsequent
picture units are rejected)": a parse yields a header outcome, that is
`kSegmentHeaderDecoded` or one of the three states in which `DecodeNal` rejects
non-header units. -/
def headerOutcomesGate (env : Env) : Prop :=
  ∀ (br : BitReader) (soc : Nat),
    (env.Read br soc).1 = State.kSegmentHeaderDecoded ∨
      (env.Read br soc).1 = State.kNoSegmentHeader ∨
      (env.Read br soc).1 = State.kDecoderVersionTooLow ∨
      (env.Read br soc).1 = State.kBitstreamBitdepthTooHigh

/-- Along the calls `ops` made from state `d`, no header unit parses
successfully: each header unit makes `DecodeNal` return `false`. -/
def headersFail (env : Env) : Decoder → List Op → Prop
  | _, [] => True
  | d, Op.decodeNal nal :: rest =>
    (isHeaderNal env nal → (DecodeNal env d nal).1 = false) ∧
      headersFail env (DecodeNal env d nal).2 rest
  | d, Op.flush :: rest => headersFail env (FlushBufferedTailPics env d) rest
  | d, Op.getDecodedPicture :: rest => headersFail env (GetDecodedPicture env d).2 rest

/-- Along the calls `ops` made from state `d`, every unit that is not a header
unit is rejected: `DecodeNal` returns `false` and leaves the session as it
is. -/
def unitsRejected (env : Env) : Decoder → List Op → Prop
  | _, [] => True
  | d, Op.decodeNal nal :: rest =>
    (¬ isHeaderNal env nal → DecodeNal env d nal = (false, d)) ∧
      unitsRejected env (DecodeNal env d nal).2 rest
  | d, Op.flush :: rest => unitsRejected env (FlushBufferedTailPics env d) rest
  | d, Op.getDecodedPicture :: rest => unitsRejected env (GetDecodedPicture env d).2 rest

/-- The session rejects non-header units and its reorder buffer holds no more
units than `num_tail_pics_`. -/
def gated (d : Decoder) : Prop :=
  (d.state_ = State.kNoSegmentHeader ∨ d.state_ = State.kDecoderVersionTooLow ∨
      d.state_ = State.kBitstreamBitdepthTooHigh) ∧
    ¬ d.nal_buffer_.length > toSizeT d.num_tail_pics_

/-- A sample header unit whose parse reports `kDecoderVersionTooLow`. -/
def sampleHlow : Nal := [32, 1, 4, 2, 0]

/-- Modelled from the spec: the picture header decode is not among the sources.
This is the reading of "DOC" fixed for the decode-order statements: the decode
order value a decoded picture ends up with is the value of `doc_` that
`DecodeOneBufferedNal` handed to `DecodeHeader`. -/
def docIsHanded (env : Env) : Prop :=
  ∀ (d : Decoder) (nal : Nal), (payloadStep env d nal).2.pic_data.doc = d.doc_

/-- Every unit of `nals`, fed in this order from state `d`, is a picture unit
that passes the temporal-layer gate when it is fed. -/
def acceptedRun (env : Env) : Decoder → List Nal → Prop
  | _, [] => True
  | d, nal :: rest =>
    isPictureNal env nal ∧ accepted env d nal ∧ acceptedRun env (DecodeNal env d nal).2 rest

/-- Decision procedure for `acceptedRun`. -/
def acceptedRunDec (env : Env) :
    (d : Decoder) → (nals : List Nal) → Decidable (acceptedRun env d nals)
  | _, [] => isTrue trivial
  | d, nal :: rest =>
    have : Decidable (acceptedRun env (DecodeNal env d nal).2 rest) :=
      acceptedRunDec env (DecodeNal env d nal).2 rest
    (inferInstance :
      Decidable (isPictureNal env nal ∧ accepted env d nal ∧
        acceptedRun env (DecodeNal env d nal).2 rest))

instance (env : Env) (d : Decoder) (nals : List Nal) : Decidable (acceptedRun env d nals) :=
  acceptedRunDec env d nals

/-- Modelled from the spec: the member initialisers of `Decoder` are in the
absent `decoder.h`.  A session starts with no header decoded, an empty reorder
buffer, an empty pool, and its in-flight and tail counters at zero; the other
members are left open. -/
def isInitial (d : Decoder) : Prop :=
  d.state_ = State.kNoSegmentHeader ∧ d.nal_buffer_ = [] ∧ d.pic_decoders_ = [] ∧
    d.num_pics_in_buffer_ = 0 ∧ d.num_tail_pics_ = 0

instance (d : Decoder) : Decidable (isInitial d) := by
  unfold isInitial; exact inferInstance

/-- The number of pool slots with output status `kHasNotBeenOutput`. -/
def pendingCount (pool : List PictureDecoder) : Nat :=
  pool.countP (fun pic => decide (notOutput pic))

/-- The in-flight counter covers the buffered units and the pending pictures:
pending slots plus buffer length is at most `num_pics_in_buffer_`. -/
def inFlightInv (d : Decoder) : Prop :=
  pendingCount d.pic_decoders_ + d.nal_buffer_.length ≤ d.num_pics_in_buffer_

instance (d : Decoder) : Decidable (inFlightInv d) := by
  unfold inFlightInv; exact inferInstance

/-- The number of `DecodeNal` calls among `ops`. -/
def fedCount : List Op → Nat
  | [] => 0
  | Op.decodeNal _ :: rest => fedCount rest + 1
  | Op.flush :: rest => fedCount rest
  | Op.getDecodedPicture :: rest => fedCount rest

/-- The number of buffered units whose buffer flag is set. -/
def flaggedCount (env : Env) (buffer : List Nal) : Nat :=
  buffer.countP (fun nal => decide (nalBufferFlag env nal ≠ 0))

/-- The tail counter agrees with the buffer: `num_tail_pics_` is the number of
buffered units whose buffer flag is set. -/
def tailInv (env : Env) (d : Decoder) : Prop :=
  d.num_tail_pics_ = (flaggedCount env d.nal_buffer_ : Nat)

/-- Along the calls `ops` made from state `d`, no `FlushBufferedTailPics` call
takes its open-GOP branch (flush not deferred, buffer non-empty, current
segment open-GOP). -/
def noOpenGopDiscard (env : Env) : Decoder → List Op → Prop
  | _, [] => True
  | d, Op.flush :: rest =>
    ¬ (¬ d.nal_buffer_.length > toSizeT d.num_tail_pics_ ∧ d.nal_buffer_ ≠ [] ∧
        d.curr_segment_header_.open_gop = true) ∧
      noOpenGopDiscard env (FlushBufferedTailPics env d) rest
  | d, Op.decodeNal nal :: rest => noOpenGopDiscard env (DecodeNal env d nal).2 rest
  | d, Op.getDecodedPicture :: rest => noOpenGopDiscard env (GetDecodedPicture env d).2 rest

/-- Along the calls `ops` made from state `d`, no `FlushBufferedTailPics` call
decodes buffered units: none takes its closed-GOP branch (flush not deferred,
buffer non-empty, current segment closed-GOP). -/
def noFlushDecode (env : Env) : Decoder → List Op → Prop
  | _, [] => True
  | d, Op.flush :: rest =>
    ¬ (¬ d.nal_buffer_.length > toSizeT d.num_tail_pics_ ∧ d.nal_buffer_ ≠ [] ∧
        d.curr_segment_header_.open_gop = false) ∧
      noFlushDecode env (FlushBufferedTailPics env d) rest
  | d, Op.decodeNal nal :: rest => noFlushDecode env (DecodeNal env d nal).2 rest
  | d, Op.getDecodedPicture :: rest => noFlushDecode env (GetDecodedPicture env d).2 rest

/-- The calls of `n` rounds, each of which feeds the unit `nal` and then
flushes. -/
def tailRounds (nal : Nal) : Nat → List Op
  | 0 => []
  | n + 1 => Op.decodeNal nal :: Op.flush :: tailRounds nal n

/-- A sample sequence of calls on a fresh decoder: the closed-GOP header
`sampleH1`, then `2 ^ 32 - 1` rounds of one tail unit and a flush.  Each flush
decodes the tail unit of its round; no picture is ever asked for, so the
in-flight counter is never lowered. -/
def sampleOverflowRun : List Op :=
  Op.decodeNal sampleH1 :: tailRounds [0, 128, 3] (2 ^ 32 - 1)

/-! ## Frame lemmas for the decode step and the drain loop -/

@[simp] theorem DecodeOneBufferedNal_nal_buffer (env : Env) (d : Decoder) (nal : Nal) :
    (DecodeOneBufferedNal env d nal).nal_buffer_ = d.nal_buffer_ := rfl

@[simp] theorem DecodeOneBufferedNal_num_pics (env : Env) (d : Decoder) (nal : Nal) :
    (DecodeOneBufferedNal env d nal).num_pics_in_buffer_ = d.num_pics_in_buffer_ := rfl

@[simp] theorem DecodeOneBufferedNal_pic_buffering_num (env : Env) (d : Decoder)
    (nal : Nal) :
    (DecodeOneBufferedNal env d nal).pic_buffering_num_ = d.pic_buffering_num_ := rfl

@[simp] theorem DecodeOneBufferedNal_max_tid (env : Env) (d : Decoder) (nal : Nal) :
    (DecodeOneBufferedNal env d nal).max_tid_ = d.max_tid_ := rfl

@[simp] theorem DecodeOneBufferedNal_decode_log (env : Env) (d : Decoder) (nal : Nal) :
    (DecodeOneBufferedNal env d nal).decode_log = d.decode_log ++ [nal] := rfl

@[simp] theorem DecodeOneBufferedNal_num_tail_pics (env : Env) (d : Decoder) (nal : Nal) :
    (DecodeOneBufferedNal env d nal).num_tail_pics_ = tailAfter env d nal := rfl

theorem DecodeOneBufferedNal_acceptsPictures (env : Env) (d : Decoder) (nal : Nal) :
    acceptsPictures (DecodeOneBufferedNal env d nal) := by
  unfold acceptsPictures
  simp only [DecodeOneBufferedNal]
  by_cases h1 : (payloadStep env d nal).1 = true
  · by_cases h2 : d.state_ = State.kChecksumMismatch
    · simp [h1, h2]
    · simp [h1, h2]
  · simp [h1]

theorem drainStep_cons (env : Env) (d : Decoder) (nal : Nal) (rest : List Nal)
    (h : d.nal_buffer_ = nal :: rest) :
    drainStep env d = { DecodeOneBufferedNal env d nal with nal_buffer_ := rest } := by
  simp [drainStep, h]

theorem drainStep_nil (env : Env) (d : Decoder) (h : d.nal_buffer_ = []) :
    drainStep env d = d := by
  simp [drainStep, h]

@[simp] theorem drainStep_max_tid (env : Env) (d : Decoder) :
    (drainStep env d).max_tid_ = d.max_tid_ := by
  cases h : d.nal_buffer_ with
  | nil => rw [drainStep_nil env d h]
  | cons nal rest => rw [drainStep_cons env d nal rest h]; rfl

@[simp] theorem drainStep_num_pics (env : Env) (d : Decoder) :
    (drainStep env d).num_pics_in_buffer_ = d.num_pics_in_buffer_ := by
  cases h : d.nal_buffer_ with
  | nil => rw [drainStep_nil env d h]
  | cons nal rest => rw [drainStep_cons env d nal rest h]; rfl

@[simp] theorem drainStep_pic_buffering_num (env : Env) (d : Decoder) :
    (drainStep env d).pic_buffering_num_ = d.pic_buffering_num_ := by
  cases h : d.nal_buffer_ with
  | nil => rw [drainStep_nil env d h]
  | cons nal rest => rw [drainStep_cons env d nal rest h]; rfl

@[simp] theorem drainStep_nal_buffer (env : Env) (d : Decoder) :
    (drainStep env d).nal_buffer_ = d.nal_buffer_.tail := by
  cases h : d.nal_buffer_ with
  | nil => rw [drainStep_nil env d h, h]; rfl
  | cons nal rest => rw [drainStep_cons env d nal rest h]; rfl

theorem drainStep_decode_log (env : Env) (d : Decoder) :
    (drainStep env d).decode_log = d.decode_log ++ d.nal_buffer_.take 1 := by
  cases h : d.nal_buffer_ with
  | nil => rw [drainStep_nil env d h]; simp
  | cons nal rest => rw [drainStep_cons env d nal rest h]; simp

theorem drainStep_acceptsPictures (env : Env) (d : Decoder) (h : acceptsPictures d) :
    acceptsPictures (drainStep env d) := by
  cases hb : d.nal_buffer_ with
  | nil => rw [drainStep_nil env d hb]; exact h
  | cons nal rest =>
    rw [drainStep_cons env d nal rest hb]
    exact DecodeOneBufferedNal_acceptsPictures env d nal

/-- A property kept by every iteration of the drain loop is kept by the loop. -/
theorem drainLoop_preserves (env : Env) (P : Decoder → Prop)
    (hstep : ∀ d, drainCond d → P d → P (drainStep env d)) :
    ∀ (fuel : Nat) (d : Decoder), P d → P (drainLoop env fuel d) := by
  intro fuel
  induction fuel with
  | zero => intro d hd; exact hd
  | succ n ih =>
    intro d hd
    unfold drainLoop
    by_cases hc : drainCond d
    · rw [if_pos hc]; exact ih _ (hstep d hc hd)
    · rw [if_neg hc]; exact hd

theorem drainLoop_max_tid (env : Env) (fuel : Nat) (d : Decoder) :
    (drainLoop env fuel d).max_tid_ = d.max_tid_ :=
  drainLoop_preserves env (fun x => x.max_tid_ = d.max_tid_)
    (fun x _ hx => by simpa using hx) fuel d rfl

theorem drainLoop_num_pics (env : Env) (fuel : Nat) (d : Decoder) :
    (drainLoop env fuel d).num_pics_in_buffer_ = d.num_pics_in_buffer_ :=
  drainLoop_preserves env (fun x => x.num_pics_in_buffer_ = d.num_pics_in_buffer_)
    (fun x _ hx => by simpa using hx) fuel d rfl

theorem drainLoop_pic_buffering_num (env : Env) (fuel : Nat) (d : Decoder) :
    (drainLoop env fuel d).pic_buffering_num_ = d.pic_buffering_num_ :=
  drainLoop_preserves env (fun x => x.pic_buffering_num_ = d.pic_buffering_num_)
    (fun x _ hx => by simpa using hx) fuel d rfl

theorem drainLoop_acceptsPictures (env : Env) (fuel : Nat) (d : Decoder)
    (h : acceptsPictures d) : acceptsPictures (drainLoop env fuel d) :=
  drainLoop_preserves env acceptsPictures
    (fun x _ hx => drainStep_acceptsPictures env x hx) fuel d h

/-- What `DecodeNal` does with a picture unit in a state that lets pictures
through: the three branches after the temporal-layer gate. -/
theorem DecodeNal_picture (env : Env) (d : Decoder) (nal : Nal)
    (hd : acceptsPictures d) (hpic : isPictureNal env nal) :
    DecodeNal env d nal =
      if nalTid env nal > gatedMaxTid env d nal then
        (true, { d with max_tid_ := gatedMaxTid env d nal })
      else if nalBufferFlag env nal ≠ 0 then
        (true,
          { insertNal env d nal with
            num_tail_pics_ := (insertNal env d nal).num_tail_pics_ + 1 })
      else
        (true,
          drainLoop env (insertNal env d nal).nal_buffer_.length (insertNal env d nal)) := by
  obtain ⟨h1, h2, h3⟩ := hd
  obtain ⟨p1, p2, p3, p4⟩ := hpic
  unfold DecodeNal
  rw [if_neg (by omega), if_neg p2, if_neg (by tauto), if_pos ⟨p3, p4⟩]

theorem gatedMaxTid_le (env : Env) (d : Decoder) (nal : Nal)
    (htid : nalTid env nal ≠ 0) : gatedMaxTid env d nal ≤ d.max_tid_ := by
  unfold gatedMaxTid
  by_cases h : desiredMaxTid env d < d.max_tid_
  · rw [if_pos (Or.inl h)]; exact le_of_lt h
  · rw [if_neg (by tauto)]

theorem DecodeNal_picture_max_tid (env : Env) (d : Decoder) (nal : Nal)
    (hd : acceptsPictures d) (hpic : isPictureNal env nal) :
    (DecodeNal env d nal).2.max_tid_ = gatedMaxTid env d nal := by
  rw [DecodeNal_picture env d nal hd hpic]
  split_ifs
  · rfl
  · rfl
  · exact drainLoop_max_tid env _ _

theorem DecodeNal_picture_acceptsPictures (env : Env) (d : Decoder) (nal : Nal)
    (hd : acceptsPictures d) (hpic : isPictureNal env nal) :
    acceptsPictures (DecodeNal env d nal).2 := by
  rw [DecodeNal_picture env d nal hd hpic]
  split_ifs
  · exact hd
  · exact hd
  · exact drainLoop_acceptsPictures env _ _ hd

theorem feed_append_singleton (env : Env) (d : Decoder) (nals : List Nal) (nal : Nal) :
    feed env d (nals ++ [nal]) = (DecodeNal env (feed env d nals) nal).2 := by
  simp [feed, List.foldl_append]

theorem feed_acceptsPictures (env : Env) (nals : List Nal) :
    ∀ d : Decoder, acceptsPictures d → (∀ n ∈ nals, isPictureNal env n) →
      acceptsPictures (feed env d nals) := by
  induction nals with
  | nil => intro d hd _; exact hd
  | cons n rest ih =>
    intro d hd hall
    have hn : isPictureNal env n := hall n (List.mem_cons_self _ _)
    have hrest : ∀ m ∈ rest, isPictureNal env m :=
      fun m hm => hall m (List.mem_cons_of_mem _ hm)
    exact ih _ (DecodeNal_picture_acceptsPictures env d n hd hn) hrest

/-! ## C1: the temporal-layer ceiling rises only at temporal id 0 -/

/-- C1. After any run of picture units fed to a session that lets pictures
through (no header unit in between), the session still lets pictures through,
and a further picture unit whose temporal id is not 0 leaves `max_tid_` less
than or equal to its value before the call.  With an empty run this is the
single-call statement; in general it says that along a sequence of picture
units the ceiling can rise only on a call whose unit has temporal id 0. -/
theorem DecodeNal_max_tid_rises_only_at_tid_zero (env : Env) (d : Decoder)
    (nals : List Nal) (nal : Nal) (hd : acceptsPictures d)
    (hnals : ∀ n ∈ nals, isPictureNal env n) (hpic : isPictureNal env nal)
    (htid : nalTid env nal ≠ 0) :
    acceptsPictures (feed env d nals) ∧
      (DecodeNal env (feed env d nals) nal).2.max_tid_ ≤ (feed env d nals).max_tid_ ∧
      (feed env d (nals ++ [nal])).max_tid_ ≤ (feed env d nals).max_tid_ := by
  have hacc := feed_acceptsPictures env nals d hd hnals
  have hle : (DecodeNal env (feed env d nals) nal).2.max_tid_ ≤ (feed env d nals).max_tid_ := by
    rw [DecodeNal_picture_max_tid env _ nal hacc hpic]
    exact gatedMaxTid_le env _ nal htid
  refine ⟨hacc, hle, ?_⟩
  rw [feed_append_singleton]
  exact hle

theorem DecodeNal_max_tid_rises_only_at_tid_zero_witness :
    acceptsPictures sampleAfterH1 ∧ (∀ n ∈ [[0, 0, 9], [2, 32, 5]], isPictureNal sampleEnv n) ∧
      isPictureNal sampleEnv [4, 16, 7] ∧ nalTid sampleEnv [4, 16, 7] ≠ 0 ∧
      acceptsPictures (feed sampleEnv sampleAfterH1 [[0, 0, 9], [2, 32, 5]]) ∧
      (DecodeNal sampleEnv (feed sampleEnv sampleAfterH1 [[0, 0, 9], [2, 32, 5]])
          [4, 16, 7]).2.max_tid_ ≤
        (feed sampleEnv sampleAfterH1 [[0, 0, 9], [2, 32, 5]]).max_tid_ ∧
      (feed sampleEnv sampleAfterH1 ([[0, 0, 9], [2, 32, 5]] ++ [[4, 16, 7]])).max_tid_ ≤
        (feed sampleEnv sampleAfterH1 [[0, 0, 9], [2, 32, 5]]).max_tid_ :=
  ⟨by decide, by decide, by decide, by decide,
    DecodeNal_max_tid_rises_only_at_tid_zero sampleEnv sampleAfterH1
      [[0, 0, 9], [2, 32, 5]] [4, 16, 7] (by decide) (by decide) (by decide) (by decide)⟩

/-! ## C2: ignored units leave the session untouched -/

/-- C2. A unit whose reserved field (the top 2 bits of its header byte) is not
zero, or a non-header unit fed while the session state is `kNoSegmentHeader`,
`kDecoderVersionTooLow` or `kBitstreamBitdepthTooHigh`, makes `DecodeNal`
return `false` with the whole session record unchanged: reorder buffer,
counters, temporal ceiling, state, pool, and the log of decode steps. -/
theorem DecodeNal_ignored_unit_unchanged (env : Env) (d : Decoder) (nal : Nal)
    (h : nalRfe env nal ≠ 0 ∨
      (nalUnitType env nal ≠ env.kSegmentHeader ∧
        (d.state_ = State.kNoSegmentHeader ∨ d.state_ = State.kDecoderVersionTooLow ∨
          d.state_ = State.kBitstreamBitdepthTooHigh))) :
    DecodeNal env d nal = (false, d) := by
  unfold DecodeNal
  by_cases hr : nalRfe env nal > 0
  · rw [if_pos hr]
  · rw [if_neg hr]
    rcases h with h | ⟨ht, hs⟩
    · omega
    · rw [if_neg ht, if_pos hs]

theorem DecodeNal_ignored_unit_unchanged_witness :
    (nalRfe sampleEnv [64, 16, 7] ≠ 0 ∨
      (nalUnitType sampleEnv [64, 16, 7] ≠ sampleEnv.kSegmentHeader ∧
        (sampleAfterH1.state_ = State.kNoSegmentHeader ∨
          sampleAfterH1.state_ = State.kDecoderVersionTooLow ∨
          sampleAfterH1.state_ = State.kBitstreamBitdepthTooHigh))) ∧
      DecodeNal sampleEnv sampleAfterH1 [64, 16, 7] = (false, sampleAfterH1) :=
  ⟨Or.inl (by decide),
    DecodeNal_ignored_unit_unchanged sampleEnv sampleAfterH1 [64, 16, 7] (Or.inl (by decide))⟩

/-! ## C3: the pool-size target across segment headers -/

theorem foldl_DecodeOneBufferedNal_poolTarget (env : Env) (nals : List Nal) :
    ∀ d : Decoder,
      poolTarget (nals.foldl (DecodeOneBufferedNal env) d) = poolTarget d := by
  induction nals with
  | nil => intro d; rfl
  | cons n rest ih => intro d; rw [List.foldl_cons, ih]; rfl

theorem DecodeAllBufferedNals_poolTarget (env : Env) (d : Decoder) :
    poolTarget (DecodeAllBufferedNals env d) = poolTarget d :=
  foldl_DecodeOneBufferedNal_poolTarget env d.nal_buffer_ d

theorem drainStep_poolTarget (env : Env) (d : Decoder) :
    poolTarget (drainStep env d) = poolTarget d := by
  cases h : d.nal_buffer_ with
  | nil => rw [drainStep_nil env d h]
  | cons nal rest => rw [drainStep_cons env d nal rest h]; rfl

theorem drainLoop_poolTarget (env : Env) (fuel : Nat) (d : Decoder) :
    poolTarget (drainLoop env fuel d) = poolTarget d :=
  drainLoop_preserves env (fun x => poolTarget x = poolTarget d)
    (fun x _ hx => (drainStep_poolTarget env x).trans hx) fuel d rfl

theorem FlushBufferedTailPics_poolTarget (env : Env) (d : Decoder) :
    poolTarget (FlushBufferedTailPics env d) = poolTarget d := by
  unfold FlushBufferedTailPics
  dsimp only
  split_ifs
  · rfl
  · rfl
  · rw [DecodeAllBufferedNals_poolTarget]; rfl
  · rfl

/-- The enforcement test at the top of `GetDecodedPicture`:
`enforce_sliding_window_ && !HasPictureReadyForOutput()`. -/
theorem GetDecodedPicture_refused (env : Env) (d : Decoder)
    (h : d.enforce_sliding_window_ = true ∧ env.HasPictureReadyForOutput d = false) :
    GetDecodedPicture env d = (none, d) := by
  unfold GetDecodedPicture
  rw [if_pos h]

theorem GetDecodedPicture_not_found (env : Env) (d : Decoder)
    (h : ¬ (d.enforce_sliding_window_ = true ∧ env.HasPictureReadyForOutput d = false))
    (hf : findLowestPoc d.pic_decoders_ 0 env.PicNum_max none = none) :
    GetDecodedPicture env d = (none, d) := by
  unfold GetDecodedPicture
  rw [if_neg h]
  simp only [hf]

theorem GetDecodedPicture_found (env : Env) (d : Decoder) (i : Nat) (pic : PictureDecoder)
    (h : ¬ (d.enforce_sliding_window_ = true ∧ env.HasPictureReadyForOutput d = false))
    (hf : findLowestPoc d.pic_decoders_ 0 env.PicNum_max none = some i)
    (hg : d.pic_decoders_[i]? = some pic) :
    GetDecodedPicture env d =
      (some (outputPicture d (markOutput pic)),
        if refillCond (outputSlot d i pic) then drainStep env (outputSlot d i pic)
        else outputSlot d i pic) := by
  unfold GetDecodedPicture
  rw [if_neg h]
  simp only [hf, hg]

theorem GetDecodedPicture_out_of_range (env : Env) (d : Decoder) (i : Nat)
    (h : ¬ (d.enforce_sliding_window_ = true ∧ env.HasPictureReadyForOutput d = false))
    (hf : findLowestPoc d.pic_decoders_ 0 env.PicNum_max none = some i)
    (hg : d.pic_decoders_[i]? = none) :
    GetDecodedPicture env d = (none, d) := by
  unfold GetDecodedPicture
  rw [if_neg h]
  simp only [hf, hg]

theorem GetDecodedPicture_poolTarget (env : Env) (d : Decoder) :
    poolTarget (GetDecodedPicture env d).2 = poolTarget d := by
  by_cases h : d.enforce_sliding_window_ = true ∧ env.HasPictureReadyForOutput d = false
  · rw [GetDecodedPicture_refused env d h]
  · cases hf : findLowestPoc d.pic_decoders_ 0 env.PicNum_max none with
    | none => rw [GetDecodedPicture_not_found env d h hf]
    | some i =>
      cases hg : d.pic_decoders_[i]? with
      | none => rw [GetDecodedPicture_out_of_range env d i h hf hg]
      | some pic =>
        rw [GetDecodedPicture_found env d i pic h hf hg]
        dsimp only
        split_ifs
        · rw [drainStep_poolTarget]; rfl
        · rfl

/-- The outcome of `DecodeSegmentHeaderNal` is the parse result of
`SegmentHeaderReader::Read` at the incremented segment counter. -/
theorem DecodeSegmentHeaderNal_ok_iff (env : Env) (d : Decoder) (br : BitReader) :
    (DecodeSegmentHeaderNal env d br).1 = true ↔
      (env.Read br (d.soc_ + 1)).1 = State.kSegmentHeaderDecoded := by
  unfold DecodeSegmentHeaderNal
  by_cases hb : d.nal_buffer_.length > toSizeT d.num_tail_pics_ <;>
    by_cases hr : (env.Read br (d.soc_ + 1)).1 = State.kSegmentHeaderDecoded <;>
    simp [hb, hr]

theorem DecodeSegmentHeaderNal_fail_poolTarget (env : Env) (d : Decoder) (br : BitReader)
    (h : (DecodeSegmentHeaderNal env d br).1 = false) :
    poolTarget (DecodeSegmentHeaderNal env d br).2 = poolTarget d := by
  have hne : ¬ (env.Read br (d.soc_ + 1)).1 = State.kSegmentHeaderDecoded := by
    intro hr
    rw [(DecodeSegmentHeaderNal_ok_iff env d br).2 hr] at h
    exact Bool.noConfusion h
  unfold DecodeSegmentHeaderNal
  by_cases hb : d.nal_buffer_.length > toSizeT d.num_tail_pics_ <;>
    simp [hb, hne, poolTarget]

/-- The header stored and the two pool-sizing quantities after a successful
`DecodeSegmentHeaderNal`. -/
theorem DecodeSegmentHeaderNal_ok_poolTarget (env : Env) (d : Decoder) (br : BitReader)
    (h : (DecodeSegmentHeaderNal env d br).1 = true) :
    (DecodeSegmentHeaderNal env d br).2.curr_segment_header_ =
        (env.Read br (d.soc_ + 1)).2 ∧
      (DecodeSegmentHeaderNal env d br).2.sliding_window_length_ =
        max d.sliding_window_length_ ((env.Read br (d.soc_ + 1)).2.max_sub_gop_length + 1) ∧
      (DecodeSegmentHeaderNal env d br).2.pic_buffering_num_ =
        (DecodeSegmentHeaderNal env d br).2.sliding_window_length_ +
          (env.Read br (d.soc_ + 1)).2.num_ref_pics := by
  have hr := (DecodeSegmentHeaderNal_ok_iff env d br).1 h
  unfold DecodeSegmentHeaderNal
  by_cases hb : d.nal_buffer_.length > toSizeT d.num_tail_pics_ <;>
    by_cases hg : (env.Read br (d.soc_ + 1)).2.max_sub_gop_length + 1 >
        d.sliding_window_length_ <;>
    simp [hb, hr, hg] <;> omega

theorem DecodeNal_not_header_poolTarget (env : Env) (d : Decoder) (nal : Nal)
    (h : ¬ isHeaderNal env nal) :
    poolTarget (DecodeNal env d nal).2 = poolTarget d := by
  unfold DecodeNal
  split_ifs with h1 h2
  · rfl
  · exact absurd ⟨by omega, h2⟩ h
  · rfl
  · rfl
  · rfl
  · rw [drainLoop_poolTarget]; rfl
  · rfl

theorem step_not_header_poolTarget (env : Env) (d : Decoder) (op : Op)
    (h : ¬ Op.isHeader env op) : poolTarget (step env d op) = poolTarget d := by
  cases op with
  | decodeNal nal => exact DecodeNal_not_header_poolTarget env d nal h
  | flush => exact FlushBufferedTailPics_poolTarget env d
  | getDecodedPicture => exact GetDecodedPicture_poolTarget env d

theorem run_not_header_poolTarget (env : Env) (ops : List Op) :
    ∀ d : Decoder, (∀ op ∈ ops, ¬ Op.isHeader env op) →
      poolTarget (run env d ops) = poolTarget d := by
  induction ops with
  | nil => intro d _; rfl
  | cons op rest ih =>
    intro d hall
    have h1 := step_not_header_poolTarget env d op (hall op (List.mem_cons_self _ _))
    have h2 := ih (step env d op) (fun o ho => hall o (List.mem_cons_of_mem _ ho))
    unfold run at h2 ⊢
    rw [List.foldl_cons, h2, h1]

/-- C3, counterexample. Two header units that both parse successfully, the
first announcing 5 reference pictures and the second 1 (same sub-GOP length
4): the pool-size target is 10 after the first and 6 after the second. -/
theorem pic_buffering_num_decreases_with_num_ref_pics :
    (DecodeNal sampleEnv sampleInit sampleH5).1 = true ∧
      (DecodeNal sampleEnv (DecodeNal sampleEnv sampleInit sampleH5).2 sampleHr1).1 = true ∧
      (DecodeNal sampleEnv sampleInit sampleH5).2.pic_buffering_num_ = 10 ∧
      (DecodeNal sampleEnv (DecodeNal sampleEnv sampleInit sampleH5).2
        sampleHr1).2.pic_buffering_num_ = 6 ∧
      ¬ ((DecodeNal sampleEnv sampleInit sampleH5).2.pic_buffering_num_ ≤
        (DecodeNal sampleEnv (DecodeNal sampleEnv sampleInit sampleH5).2
          sampleHr1).2.pic_buffering_num_) := by
  decide

/-- C3, amended. After a successful `DecodeSegmentHeaderNal` the target
`pic_buffering_num_` is the new `sliding_window_length_` plus the header's
reference-picture count, and `sliding_window_length_` is not below its old
value.  Hence from one successful header to the next, with any picture units,
flushes and output calls in between, `pic_buffering_num_` does not decrease
provided the later header's reference-picture count is not lower than the
earlier one's. -/
theorem pic_buffering_num_mono_between_headers (env : Env) (d : Decoder)
    (br1 br2 : BitReader) (ops : List Op)
    (h1 : (DecodeSegmentHeaderNal env d br1).1 = true)
    (hops : ∀ op ∈ ops, ¬ Op.isHeader env op)
    (h2 : (DecodeSegmentHeaderNal env
      (run env (DecodeSegmentHeaderNal env d br1).2 ops) br2).1 = true)
    (hr : (DecodeSegmentHeaderNal env d br1).2.curr_segment_header_.num_ref_pics ≤
      (DecodeSegmentHeaderNal env
        (run env (DecodeSegmentHeaderNal env d br1).2 ops) br2).2.curr_segment_header_.num_ref_pics) :
    (DecodeSegmentHeaderNal env d br1).2.pic_buffering_num_ =
        (DecodeSegmentHeaderNal env d br1).2.sliding_window_length_ +
          (DecodeSegmentHeaderNal env d br1).2.curr_segment_header_.num_ref_pics ∧
      (DecodeSegmentHeaderNal env d br1).2.sliding_window_length_ ≤
        (DecodeSegmentHeaderNal env
          (run env (DecodeSegmentHeaderNal env d br1).2 ops) br2).2.sliding_window_length_ ∧
      (DecodeSegmentHeaderNal env d br1).2.pic_buffering_num_ ≤
        (DecodeSegmentHeaderNal env
          (run env (DecodeSegmentHeaderNal env d br1).2 ops) br2).2.pic_buffering_num_ := by
  obtain ⟨a1, a2, a3⟩ := DecodeSegmentHeaderNal_ok_poolTarget env d br1 h1
  obtain ⟨b1, b2, b3⟩ := DecodeSegmentHeaderNal_ok_poolTarget env _ br2 h2
  have hrun := run_not_header_poolTarget env ops (DecodeSegmentHeaderNal env d br1).2 hops
  have hsw : (run env (DecodeSegmentHeaderNal env d br1).2 ops).sliding_window_length_ =
      (DecodeSegmentHeaderNal env d br1).2.sliding_window_length_ :=
    congrArg Prod.fst hrun
  rw [a1] at hr ⊢
  rw [b1] at hr
  rw [hsw] at b2
  have hmono : (DecodeSegmentHeaderNal env d br1).2.sliding_window_length_ ≤
      (DecodeSegmentHeaderNal env
        (run env (DecodeSegmentHeaderNal env d br1).2 ops) br2).2.sliding_window_length_ := by
    rw [b2]; exact le_max_left _ _
  exact ⟨a3, hmono, by omega⟩

theorem pic_buffering_num_mono_between_headers_witness :
    (DecodeSegmentHeaderNal sampleEnv sampleInit ⟨sampleHr1, 8⟩).1 = true ∧
      (∀ op ∈ [Op.decodeNal [0, 0, 9], Op.getDecodedPicture, Op.flush],
        ¬ Op.isHeader sampleEnv op) ∧
      (DecodeSegmentHeaderNal sampleEnv sampleInit ⟨sampleHr1, 8⟩).2.pic_buffering_num_ ≤
        (DecodeSegmentHeaderNal sampleEnv
          (run sampleEnv (DecodeSegmentHeaderNal sampleEnv sampleInit ⟨sampleHr1, 8⟩).2
            [Op.decodeNal [0, 0, 9], Op.getDecodedPicture, Op.flush])
          ⟨sampleH5, 8⟩).2.pic_buffering_num_ :=
  ⟨by decide, by decide,
    (pic_buffering_num_mono_between_headers sampleEnv sampleInit ⟨sampleHr1, 8⟩ ⟨sampleH5, 8⟩
      [Op.decodeNal [0, 0, 9], Op.getDecodedPicture, Op.flush]
      (by decide) (by decide) (by decide) (by decide)).2.2⟩

/-! ## C4: the victim chosen for reuse -/

theorem findVictim_cons_recyclable (a : PictureDecoder) (rest : List PictureDecoder)
    (i lowest_poc pic_it : Nat) (h : recyclable a) :
    findVictim (a :: rest) i lowest_poc pic_it = i := by
  unfold findVictim
  exact if_pos h

theorem findVictim_cons_lt (a : PictureDecoder) (rest : List PictureDecoder)
    (i lowest_poc pic_it : Nat) (h : ¬ recyclable a) (hlt : a.pic_data.poc < lowest_poc) :
    findVictim (a :: rest) i lowest_poc pic_it = findVictim rest (i + 1) a.pic_data.poc i := by
  have h2 : ¬ (a.pic_data.output_status = OutputStatus.kHasBeenOutput ∧
      a.pic_data.tid > 0) := h
  rw [findVictim, if_neg h2, if_pos hlt]

theorem findVictim_cons_ge (a : PictureDecoder) (rest : List PictureDecoder)
    (i lowest_poc pic_it : Nat) (h : ¬ recyclable a) (hge : ¬ a.pic_data.poc < lowest_poc) :
    findVictim (a :: rest) i lowest_poc pic_it = findVictim rest (i + 1) lowest_poc pic_it := by
  have h2 : ¬ (a.pic_data.output_status = OutputStatus.kHasBeenOutput ∧
      a.pic_data.tid > 0) := h
  rw [findVictim, if_neg h2, if_neg hge]

theorem findVictim_of_recyclable (l : List PictureDecoder) :
    ∀ (i lowest_poc pic_it : Nat), (∃ q ∈ l, recyclable q) →
      ∃ k p, l[k]? = some p ∧ findVictim l i lowest_poc pic_it = i + k ∧ recyclable p ∧
        ∀ j q, j < k → l[j]? = some q → ¬ recyclable q := by
  induction l with
  | nil => intro i lo pi h; obtain ⟨q, hq, _⟩ := h; cases hq
  | cons a rest ih =>
    intro i lo pi h
    by_cases ha : recyclable a
    · refine ⟨0, a, by simp, ?_, ha, ?_⟩
      · rw [findVictim_cons_recyclable a rest i lo pi ha]; rfl
      · intro j q hj; omega
    · have hrest : ∃ q ∈ rest, recyclable q := by
        obtain ⟨q, hq, hrq⟩ := h
        rcases List.mem_cons.1 hq with rfl | hq
        · exact absurd hrq ha
        · exact ⟨q, hq, hrq⟩
      have key : ∀ lo2 pi2, ∃ k p, (a :: rest)[k]? = some p ∧
          findVictim rest (i + 1) lo2 pi2 = i + k ∧ recyclable p ∧
          ∀ j q, j < k → (a :: rest)[j]? = some q → ¬ recyclable q := by
        intro lo2 pi2
        obtain ⟨k, p, hk, hv, hp, hfirst⟩ := ih (i + 1) lo2 pi2 hrest
        refine ⟨k + 1, p, by simpa using hk, by omega, hp, ?_⟩
        intro j q hj hjq
        cases j with
        | zero =>
          have : a = q := by simpa using hjq
          rw [← this]; exact ha
        | succ j2 => exact hfirst j2 q (by omega) (by simpa using hjq)
      by_cases hlt : a.pic_data.poc < lo
      · rw [findVictim_cons_lt a rest i lo pi ha hlt]; exact key _ _
      · rw [findVictim_cons_ge a rest i lo pi ha hlt]; exact key _ _

theorem findVictim_of_none_recyclable (l : List PictureDecoder) :
    ∀ (i lowest_poc pic_it : Nat), (∀ q ∈ l, ¬ recyclable q) →
      (findVictim l i lowest_poc pic_it = pic_it ∧
          ∀ q ∈ l, lowest_poc ≤ q.pic_data.poc) ∨
        ∃ k p, l[k]? = some p ∧ findVictim l i lowest_poc pic_it = i + k ∧
          p.pic_data.poc < lowest_poc ∧ (∀ q ∈ l, p.pic_data.poc ≤ q.pic_data.poc) ∧
          ∀ j q, j < k → l[j]? = some q → p.pic_data.poc < q.pic_data.poc := by
  induction l with
  | nil => intro i lo pi _; left; exact ⟨rfl, fun q hq => by cases hq⟩
  | cons a rest ih =>
    intro i lo pi h
    have ha : ¬ recyclable a := h a (List.mem_cons_self _ _)
    have hrest : ∀ q ∈ rest, ¬ recyclable q := fun q hq => h q (List.mem_cons_of_mem _ hq)
    by_cases hlt : a.pic_data.poc < lo
    · rw [findVictim_cons_lt a rest i lo pi ha hlt]
      right
      rcases ih (i + 1) a.pic_data.poc i hrest with ⟨hv, hall⟩ | ⟨k, p, hk, hv, hp, hmin, hfirst⟩
      · refine ⟨0, a, by simp, by omega, hlt, ?_, ?_⟩
        · intro q hq
          rcases List.mem_cons.1 hq with rfl | hq
          · exact le_refl _
          · exact hall q hq
        · intro j q hj; omega
      · refine ⟨k + 1, p, by simpa using hk, by omega, by omega, ?_, ?_⟩
        · intro q hq
          rcases List.mem_cons.1 hq with rfl | hq
          · omega
          · exact hmin q hq
        · intro j q hj hjq
          cases j with
          | zero =>
            have : a = q := by simpa using hjq
            rw [← this]; exact hp
          | succ j2 => exact hfirst j2 q (by omega) (by simpa using hjq)
    · rw [findVictim_cons_ge a rest i lo pi ha hlt]
      rcases ih (i + 1) lo pi hrest with ⟨hv, hall⟩ | ⟨k, p, hk, hv, hp, hmin, hfirst⟩
      · left
        refine ⟨hv, ?_⟩
        intro q hq
        rcases List.mem_cons.1 hq with rfl | hq
        · omega
        · exact hall q hq
      · right
        refine ⟨k + 1, p, by simpa using hk, by omega, hp, ?_, ?_⟩
        · intro q hq
          rcases List.mem_cons.1 hq with rfl | hq
          · omega
          · exact hmin q hq
        · intro j q hj hjq
          cases j with
          | zero =>
            have : a = q := by simpa using hjq
            rw [← this]; omega
          | succ j2 => exact hfirst j2 q (by omega) (by simpa using hjq)

/-- When the pool has reached its target, the slot returned by
`GetNewPictureDecoder` is the one found by the victim scan. -/
theorem GetNewPictureDecoder_full_index (env : Env) (pool : List PictureDecoder)
    (pbn chroma_format : Nat) (width height bitdepth : Int) (hfull : ¬ pool.length < pbn) :
    (GetNewPictureDecoder env pool pbn chroma_format width height bitdepth).2 =
      findVictim pool 0 env.PicNum_max 0 := by
  unfold GetNewPictureDecoder
  rw [if_neg hfull]
  dsimp only
  split_ifs <;> rfl

/-- C4. When the pool is non-empty and has reached its target size, the slot
returned by `GetNewPictureDecoder` (looked up in the pool as it was before the
call) is: the first slot, in pool order, that has been output and has a
temporal id above 0, if there is one; otherwise a slot whose POC is the
minimum over all slots, the first such in pool order.  Consequently, when the
POCs of the slots are pairwise distinct, the victim has been output or its POC
is strictly below that of every other slot.  (POCs are values of `PicNum`, so
at most `PicNum_max`.) -/
theorem GetNewPictureDecoder_victim (env : Env) (pool : List PictureDecoder)
    (pbn chroma_format : Nat) (width height bitdepth : Int)
    (hne : pool ≠ []) (hfull : ¬ pool.length < pbn)
    (hwf : ∀ q ∈ pool, q.pic_data.poc ≤ env.PicNum_max) :
    ∃ pic,
      pool[(GetNewPictureDecoder env pool pbn chroma_format width height bitdepth).2]? =
          some pic ∧
        ((∃ q ∈ pool, recyclable q) →
          recyclable pic ∧
            ∀ j q,
              j < (GetNewPictureDecoder env pool pbn chroma_format width height bitdepth).2 →
              pool[j]? = some q → ¬ recyclable q) ∧
        ((∀ q ∈ pool, ¬ recyclable q) →
          (∀ q ∈ pool, pic.pic_data.poc ≤ q.pic_data.poc) ∧
            ∀ j q,
              j < (GetNewPictureDecoder env pool pbn chroma_format width height bitdepth).2 →
              pool[j]? = some q → pic.pic_data.poc < q.pic_data.poc) ∧
        ((∀ (j k : Nat) (p q : PictureDecoder), j ≠ k → pool[j]? = some p → pool[k]? = some q →
            p.pic_data.poc ≠ q.pic_data.poc) →
          pic.pic_data.output_status = OutputStatus.kHasBeenOutput ∨
            ∀ j q,
              j ≠ (GetNewPictureDecoder env pool pbn chroma_format width height bitdepth).2 →
              pool[j]? = some q → pic.pic_data.poc < q.pic_data.poc) := by
  rw [GetNewPictureDecoder_full_index env pool pbn chroma_format width height bitdepth hfull]
  have distinct_min : ∀ (v : Nat) (pic : PictureDecoder), pool[v]? = some pic →
      (∀ q ∈ pool, pic.pic_data.poc ≤ q.pic_data.poc) →
      (∀ (j k : Nat) (p q : PictureDecoder), j ≠ k → pool[j]? = some p → pool[k]? = some q →
        p.pic_data.poc ≠ q.pic_data.poc) →
      ∀ j q, j ≠ v → pool[j]? = some q → pic.pic_data.poc < q.pic_data.poc := by
    intro v pic hv hmin hdist j q hj hjq
    have h1 := hmin q (List.getElem?_mem hjq)
    have h2 := hdist j v q pic hj hjq hv
    omega
  by_cases hex : ∃ q ∈ pool, recyclable q
  · obtain ⟨k, p, hk, hv, hp, hfirst⟩ := findVictim_of_recyclable pool 0 env.PicNum_max 0 hex
    rw [hv, Nat.zero_add]
    refine ⟨p, hk, fun _ => ⟨hp, hfirst⟩, ?_, fun _ => Or.inl hp.1⟩
    intro hnone
    obtain ⟨q, hq, hrq⟩ := hex
    exact absurd hrq (hnone q hq)
  · have hnone : ∀ q ∈ pool, ¬ recyclable q := fun q hq hrq => hex ⟨q, hq, hrq⟩
    rcases findVictim_of_none_recyclable pool 0 env.PicNum_max 0 hnone with
      ⟨hv, hall⟩ | ⟨k, p, hk, hv, hp, hmin, hfirst⟩
    · rw [hv]
      cases pool with
      | nil => exact absurd rfl hne
      | cons a rest =>
        have ha : (a :: rest)[0]? = some a := by simp
        have hmin : ∀ q ∈ a :: rest, a.pic_data.poc ≤ q.pic_data.poc := by
          intro q hq
          have h1 := hwf a (List.mem_cons_self _ _)
          have h2 := hall q hq
          omega
        refine ⟨a, ha, fun h => absurd h hex, fun _ => ⟨hmin, ?_⟩, fun hd => Or.inr ?_⟩
        · intro j q hj; omega
        · exact distinct_min 0 a ha hmin hd
    · rw [hv, Nat.zero_add]
      refine ⟨p, hk, fun h => absurd h hex, fun _ => ⟨hmin, hfirst⟩, fun hd => Or.inr ?_⟩
      exact distinct_min k p hk hmin hd

theorem GetNewPictureDecoder_victim_witness :
    [sampleSlot OutputStatus.kHasBeenOutput 0 3, sampleSlot OutputStatus.kHasNotBeenOutput 1 2,
        sampleSlot OutputStatus.kHasBeenOutput 2 7,
        sampleSlot OutputStatus.kHasBeenOutput 1 5] ≠ [] ∧
      (GetNewPictureDecoder sampleEnv
        [sampleSlot OutputStatus.kHasBeenOutput 0 3,
          sampleSlot OutputStatus.kHasNotBeenOutput 1 2,
          sampleSlot OutputStatus.kHasBeenOutput 2 7,
          sampleSlot OutputStatus.kHasBeenOutput 1 5] 4 1 16 16 8).2 = 2 ∧
      ∃ pic,
        [sampleSlot OutputStatus.kHasBeenOutput 0 3,
            sampleSlot OutputStatus.kHasNotBeenOutput 1 2,
            sampleSlot OutputStatus.kHasBeenOutput 2 7,
            sampleSlot OutputStatus.kHasBeenOutput 1 5][(GetNewPictureDecoder sampleEnv
              [sampleSlot OutputStatus.kHasBeenOutput 0 3,
                sampleSlot OutputStatus.kHasNotBeenOutput 1 2,
                sampleSlot OutputStatus.kHasBeenOutput 2 7,
                sampleSlot OutputStatus.kHasBeenOutput 1 5] 4 1 16 16 8).2]? = some pic ∧
          (pic.pic_data.output_status = OutputStatus.kHasBeenOutput ∨
            pic.pic_data.poc = 2) := by
  refine ⟨by decide, by decide, ?_⟩
  obtain ⟨pic, hpic, h1, _, _⟩ :=
    GetNewPictureDecoder_victim sampleEnv
      [sampleSlot OutputStatus.kHasBeenOutput 0 3,
        sampleSlot OutputStatus.kHasNotBeenOutput 1 2,
        sampleSlot OutputStatus.kHasBeenOutput 2 7,
        sampleSlot OutputStatus.kHasBeenOutput 1 5] 4 1 16 16 8
      (by decide) (by decide) (by decide)
  exact ⟨pic, hpic, Or.inl (h1 ⟨sampleSlot OutputStatus.kHasBeenOutput 1 5,
    by decide, by decide⟩).1.1⟩

/-! ## C5: the output selector -/

theorem findLowestPoc_cons_take (a : PictureDecoder) (rest : List PictureDecoder)
    (i lowest_poc : Nat) (pic_dec : Option Nat)
    (h : notOutput a ∧ a.pic_data.poc < lowest_poc) :
    findLowestPoc (a :: rest) i lowest_poc pic_dec =
      findLowestPoc rest (i + 1) a.pic_data.poc (some i) := by
  have h2 : a.pic_data.output_status = OutputStatus.kHasNotBeenOutput ∧
      a.pic_data.poc < lowest_poc := h
  rw [findLowestPoc, if_pos h2]

theorem findLowestPoc_cons_skip (a : PictureDecoder) (rest : List PictureDecoder)
    (i lowest_poc : Nat) (pic_dec : Option Nat)
    (h : ¬ (notOutput a ∧ a.pic_data.poc < lowest_poc)) :
    findLowestPoc (a :: rest) i lowest_poc pic_dec =
      findLowestPoc rest (i + 1) lowest_poc pic_dec := by
  have h2 : ¬ (a.pic_data.output_status = OutputStatus.kHasNotBeenOutput ∧
      a.pic_data.poc < lowest_poc) := h
  rw [findLowestPoc, if_neg h2]

/-- The scan of `GetDecodedPicture`: either no pending slot lies below the
running bound and the accumulator is returned, or the result is the first slot
of minimum POC among the pending ones. -/
theorem findLowestPoc_spec (l : List PictureDecoder) :
    ∀ (i lowest_poc : Nat) (pic_dec : Option Nat),
      (findLowestPoc l i lowest_poc pic_dec = pic_dec ∧
          ∀ q ∈ l, notOutput q → lowest_poc ≤ q.pic_data.poc) ∨
        ∃ k p, l[k]? = some p ∧ findLowestPoc l i lowest_poc pic_dec = some (i + k) ∧
          notOutput p ∧ p.pic_data.poc < lowest_poc ∧
          (∀ q ∈ l, notOutput q → p.pic_data.poc ≤ q.pic_data.poc) ∧
          ∀ j q, j < k → l[j]? = some q → notOutput q → p.pic_data.poc < q.pic_data.poc := by
  induction l with
  | nil => intro i lo acc; left; exact ⟨rfl, fun q hq => by cases hq⟩
  | cons a rest ih =>
    intro i lo acc
    by_cases ht : notOutput a ∧ a.pic_data.poc < lo
    · rw [findLowestPoc_cons_take a rest i lo acc ht]
      right
      rcases ih (i + 1) a.pic_data.poc (some i) with
        ⟨hv, hall⟩ | ⟨k, p, hk, hv, hp, hlt, hmin, hfirst⟩
      · refine ⟨0, a, by simp, by rw [hv]; rfl, ht.1, ht.2, ?_, ?_⟩
        · intro q hq hnq
          rcases List.mem_cons.1 hq with rfl | hq
          · exact le_refl _
          · exact hall q hq hnq
        · intro j q hj; omega
      · refine ⟨k + 1, p, by simpa using hk, by rw [hv]; congr 1; omega, hp,
          by have := ht.2; omega, ?_, ?_⟩
        · intro q hq hnq
          rcases List.mem_cons.1 hq with rfl | hq
          · omega
          · exact hmin q hq hnq
        · intro j q hj hjq hnq
          cases j with
          | zero =>
            have : a = q := by simpa using hjq
            rw [← this]; exact hlt
          | succ j2 => exact hfirst j2 q (by omega) (by simpa using hjq) hnq
    · rw [findLowestPoc_cons_skip a rest i lo acc ht]
      rcases ih (i + 1) lo acc with ⟨hv, hall⟩ | ⟨k, p, hk, hv, hp, hlt, hmin, hfirst⟩
      · left
        refine ⟨hv, ?_⟩
        intro q hq hnq
        rcases List.mem_cons.1 hq with rfl | hq
        · by_contra hc; exact ht ⟨hnq, by omega⟩
        · exact hall q hq hnq
      · right
        have ha : notOutput a → lo ≤ a.pic_data.poc := by
          intro hna; by_contra hc; exact ht ⟨hna, by omega⟩
        refine ⟨k + 1, p, by simpa using hk, by rw [hv]; congr 1; omega, hp, hlt, ?_, ?_⟩
        · intro q hq hnq
          rcases List.mem_cons.1 hq with rfl | hq
          · have := ha hnq; omega
          · exact hmin q hq hnq
        · intro j q hj hjq hnq
          cases j with
          | zero =>
            have : a = q := by simpa using hjq
            have hq2 := ha (this ▸ hnq)
            rw [← this]; omega
          | succ j2 => exact hfirst j2 q (by omega) (by simpa using hjq) hnq

theorem sub32_one_add (a : Nat) (h0 : 0 < a) (h : a < 2 ^ 32) : sub32 a 1 + 1 = a := by
  unfold sub32; omega

theorem sub32_add_of_le (a b : Nat) (hb : b ≤ a) (h : a < 2 ^ 32) : sub32 a b + b = a := by
  unfold sub32; omega

set_option maxRecDepth 8000 in
/-- C5, the code at the failing input. The session `sampleMaxPoc` is reached by
three calls: a header, one picture unit whose POC is
`numeric_limits<PicNum>::max()`, and a flush.  Enforcement does not refuse and
the pool holds that picture with status `kHasNotBeenOutput`, yet
`GetDecodedPicture` returns `false` and leaves the session as it is: the scan
starts from `lowest_poc = numeric_limits<PicNum>::max()` and compares with a
strict `<`, so it never selects the picture. -/
theorem GetDecodedPicture_misses_max_poc :
    notRefused sampleEnvWide sampleMaxPoc ∧
      (∃ q ∈ sampleMaxPoc.pic_decoders_,
        notOutput q ∧ q.pic_data.poc = sampleEnvWide.PicNum_max) ∧
      sampleMaxPoc.decode_log = [sampleUnitMaxPoc] ∧
      GetDecodedPicture sampleEnvWide sampleMaxPoc = (none, sampleMaxPoc) := by
  decide

/-- The output selector on every other state.  When minimum-buffering
enforcement does not refuse:

* if no slot with status `kHasNotBeenOutput` has a POC below `PicNum_max`
  (in particular if no slot has that status), `GetDecodedPicture` returns
  `false` and the session record is unchanged;
* otherwise it returns `true`; the slot `i` it reports has status
  `kHasNotBeenOutput` and the lowest POC among all slots with that status
  (the first such); what it writes to `output_pic` is `outputPicture` of that
  slot; in the state `mid` reached before the refill test exactly
  slot `i` has changed, to status `kHasBeenOutput`, and the in-flight counter
  is one lower (as a `uint32_t`; one lower as a number when it was positive);
  the counter keeps that value to the end; and the call then decodes the front
  unit of the buffer and pops it exactly when, in `mid`, the buffer is longer
  than `num_tail_pics_` and in-flight minus buffer length is below
  `pic_buffering_num_`, and otherwise returns `mid`: at most one decode step
  runs. -/
theorem GetDecodedPicture_spec (env : Env) (d : Decoder) (hno : notRefused env d) :
    ((∀ q ∈ d.pic_decoders_, notOutput q → env.PicNum_max ≤ q.pic_data.poc) →
        GetDecodedPicture env d = (none, d)) ∧
      ((∃ q ∈ d.pic_decoders_, notOutput q ∧ q.pic_data.poc < env.PicNum_max) →
        ∃ i pic mid,
          d.pic_decoders_[i]? = some pic ∧ notOutput pic ∧
          (∀ q ∈ d.pic_decoders_, notOutput q → pic.pic_data.poc ≤ q.pic_data.poc) ∧
          (∀ j q, j < i → d.pic_decoders_[j]? = some q → notOutput q →
            pic.pic_data.poc < q.pic_data.poc) ∧
          (GetDecodedPicture env d).1 = some (outputPicture d (markOutput pic)) ∧
          mid =
            { d with
              pic_decoders_ := d.pic_decoders_.set i (markOutput pic)
              num_pics_in_buffer_ := sub32 d.num_pics_in_buffer_ 1 } ∧
          (∀ j, j ≠ i → mid.pic_decoders_[j]? = d.pic_decoders_[j]?) ∧
          mid.pic_decoders_[i]? =
            some { pic with
              pic_data :=
                { pic.pic_data with output_status := OutputStatus.kHasBeenOutput } } ∧
          (GetDecodedPicture env d).2.num_pics_in_buffer_ = sub32 d.num_pics_in_buffer_ 1 ∧
          (0 < d.num_pics_in_buffer_ → d.num_pics_in_buffer_ < 2 ^ 32 →
            (GetDecodedPicture env d).2.num_pics_in_buffer_ + 1 = d.num_pics_in_buffer_) ∧
          ((d.nal_buffer_.length > toSizeT d.num_tail_pics_ ∧
              subSize (sub32 d.num_pics_in_buffer_ 1) d.nal_buffer_.length <
                d.pic_buffering_num_) →
            ∃ nal rest, d.nal_buffer_ = nal :: rest ∧
              (GetDecodedPicture env d).2 =
                { DecodeOneBufferedNal env mid nal with nal_buffer_ := rest } ∧
              (GetDecodedPicture env d).2.decode_log = d.decode_log ++ [nal]) ∧
          (¬ (d.nal_buffer_.length > toSizeT d.num_tail_pics_ ∧
              subSize (sub32 d.num_pics_in_buffer_ 1) d.nal_buffer_.length <
                d.pic_buffering_num_) →
            (GetDecodedPicture env d).2 = mid)) := by
  constructor
  · intro hall
    rcases findLowestPoc_spec d.pic_decoders_ 0 env.PicNum_max none with
      ⟨hv, _⟩ | ⟨k, p, hk, _, hp, hlt, _, _⟩
    · exact GetDecodedPicture_not_found env d hno hv
    · have := hall p (List.getElem?_mem hk) hp
      omega
  · intro hex
    rcases findLowestPoc_spec d.pic_decoders_ 0 env.PicNum_max none with
      ⟨_, hall⟩ | ⟨k, p, hk, hv, hp, _, hmin, hfirst⟩
    · obtain ⟨q, hq, hnq, hlt⟩ := hex
      have := hall q hq hnq
      omega
    · rw [Nat.zero_add] at hv
      have hres := GetDecodedPicture_found env d k p hno hv hk
      have hklt : k < d.pic_decoders_.length := by
        by_contra hc
        rw [List.getElem?_eq_none (by omega)] at hk
        cases hk
      refine ⟨k, p, outputSlot d k p, hk, hp, hmin, hfirst, by rw [hres], rfl, ?_, ?_, ?_, ?_,
        ?_, ?_⟩
      · intro j hj
        show (d.pic_decoders_.set k (markOutput p))[j]? = d.pic_decoders_[j]?
        rw [List.getElem?_set_ne (by omega)]
      · show (d.pic_decoders_.set k (markOutput p))[k]? = some (markOutput p)
        exact List.getElem?_set_self hklt
      · rw [hres]
        dsimp only
        split_ifs
        · rw [drainStep_num_pics]; rfl
        · rfl
      · intro h0 h32
        rw [hres]
        dsimp only
        split_ifs
        · rw [drainStep_num_pics]; exact sub32_one_add _ h0 h32
        · exact sub32_one_add _ h0 h32
      · intro hc
        have hc2 : refillCond (outputSlot d k p) := hc
        cases hb : d.nal_buffer_ with
        | nil =>
          have := hc.1
          rw [hb] at this
          simp at this
        | cons nal rest =>
          have hb2 : (outputSlot d k p).nal_buffer_ = nal :: rest := hb
          refine ⟨nal, rest, rfl, ?_, ?_⟩
          · rw [hres]
            dsimp only
            rw [if_pos hc2, drainStep_cons env _ nal rest hb2]
          · rw [hres]
            dsimp only
            rw [if_pos hc2, drainStep_cons env _ nal rest hb2]
            rfl
      · intro hc
        have hc2 : ¬ refillCond (outputSlot d k p) := hc
        rw [hres]
        dsimp only
        rw [if_neg hc2]

theorem GetDecodedPicture_spec_sample :
    notRefused sampleEnv samplePending ∧
      (∃ q ∈ samplePending.pic_decoders_,
        notOutput q ∧ q.pic_data.poc < sampleEnv.PicNum_max) ∧
      ∃ (i : Nat) (pic : PictureDecoder) (mid : Decoder),
        samplePending.pic_decoders_[i]? = some pic ∧
          (GetDecodedPicture sampleEnv samplePending).1 =
            some (outputPicture samplePending (markOutput pic)) ∧
          mid.num_pics_in_buffer_ = 2 ∧
          (GetDecodedPicture sampleEnv samplePending).2.num_pics_in_buffer_ = 2 := by
  refine ⟨by decide, by decide, ?_⟩
  obtain ⟨i, pic, mid, h1, _, _, _, h5, h6, _, _, h9, _⟩ :=
    (GetDecodedPicture_spec sampleEnv samplePending (by decide)).2 (by decide)
  refine ⟨i, pic, mid, h1, h5, ?_, ?_⟩
  · rw [h6]
    show sub32 samplePending.num_pics_in_buffer_ 1 = 2
    decide
  · rw [h9]; decide

/-! ## What a successful call of the output selector did -/

/-- What a successful `GetDecodedPicture` did: it selected a pending slot of
minimum POC, wrote `outputPicture` of it to `output_pic` and marked it as
output. -/
theorem GetDecodedPicture_eq_some (env : Env) (d : Decoder) (out : xvc_decoded_picture)
    (h : (GetDecodedPicture env d).1 = some out) :
    ∃ i pic, d.pic_decoders_[i]? = some pic ∧ notOutput pic ∧
      (∀ q ∈ d.pic_decoders_, notOutput q → pic.pic_data.poc ≤ q.pic_data.poc) ∧
      out = outputPicture d (markOutput pic) ∧
      (GetDecodedPicture env d).2 =
        (if refillCond (outputSlot d i pic) then drainStep env (outputSlot d i pic)
          else outputSlot d i pic) := by
  by_cases hr : d.enforce_sliding_window_ = true ∧ env.HasPictureReadyForOutput d = false
  · rw [GetDecodedPicture_refused env d hr] at h
    cases h
  · rcases findLowestPoc_spec d.pic_decoders_ 0 env.PicNum_max none with
      ⟨hv, _⟩ | ⟨k, p, hk, hv, hp, _, hmin, _⟩
    · rw [GetDecodedPicture_not_found env d hr hv] at h
      cases h
    · rw [Nat.zero_add] at hv
      have hres := GetDecodedPicture_found env d k p hr hv hk
      rw [hres] at h
      refine ⟨k, p, hk, hp, hmin, ?_, by rw [hres]⟩
      exact (Option.some.inj h).symm

/-! ## The drain loop of `DecodeNal` -/

/-- The drain loop decodes a prefix of the buffer, front first, and leaves the
rest; given as much fuel as the buffer is long, it stops only because its
condition is false. -/
theorem drainLoop_trace (env : Env) :
    ∀ (fuel : Nat) (d : Decoder),
      ∃ k, k ≤ fuel ∧ k ≤ d.nal_buffer_.length ∧
        (drainLoop env fuel d).nal_buffer_ = d.nal_buffer_.drop k ∧
        (drainLoop env fuel d).decode_log = d.decode_log ++ d.nal_buffer_.take k ∧
        (d.nal_buffer_.length ≤ fuel → ¬ drainCond (drainLoop env fuel d)) := by
  intro fuel
  induction fuel with
  | zero =>
    intro d
    refine ⟨0, le_refl _, Nat.zero_le _, by simp [drainLoop], by simp [drainLoop], ?_⟩
    intro hlen hc
    have := hc.1
    simp only [drainLoop] at this
    omega
  | succ n ih =>
    intro d
    by_cases hc : drainCond d
    · have hstep : drainLoop env (n + 1) d = drainLoop env n (drainStep env d) := by
        rw [drainLoop, if_pos hc]
      cases hb : d.nal_buffer_ with
      | nil =>
        have := hc.1
        rw [hb] at this
        simp at this
      | cons nal rest =>
        obtain ⟨k, hk1, hk2, hbuf, hlog, hstop⟩ := ih (drainStep env d)
        have hsb : (drainStep env d).nal_buffer_ = rest := by
          rw [drainStep_nal_buffer, hb]; rfl
        have hsl : (drainStep env d).decode_log = d.decode_log ++ [nal] := by
          rw [drainStep_decode_log, hb]; rfl
        rw [hsb] at hk2 hbuf hlog hstop
        rw [hsl] at hlog
        refine ⟨k + 1, by omega, by simp; omega, ?_, ?_, ?_⟩
        · rw [hstep, hbuf]; rfl
        · rw [hstep, hlog]; simp
        · intro hlen
          rw [hstep]
          apply hstop
          simp at hlen
          omega
    · have hstep : drainLoop env (n + 1) d = d := by
        rw [drainLoop, if_neg hc]
      refine ⟨0, Nat.zero_le _, Nat.zero_le _, by rw [hstep]; rfl, by rw [hstep]; simp, ?_⟩
      intro _
      rw [hstep]
      exact hc

/-- With at least as much fuel as the buffer is long, the amount of fuel does
not matter: the loop has stopped by itself. -/
theorem drainLoop_fuel (env : Env) :
    ∀ (f1 f2 : Nat) (d : Decoder), d.nal_buffer_.length ≤ f1 → d.nal_buffer_.length ≤ f2 →
      drainLoop env f1 d = drainLoop env f2 d := by
  have stop : ∀ (f : Nat) (d : Decoder), d.nal_buffer_.length = 0 → drainLoop env f d = d := by
    intro f d h0
    cases f with
    | zero => rfl
    | succ m =>
      have hc : ¬ drainCond d := fun hc => by have := hc.1; omega
      rw [drainLoop, if_neg hc]
  intro f1
  induction f1 with
  | zero =>
    intro f2 d h1 _
    rw [stop 0 d (by omega), stop f2 d (by omega)]
  | succ n ih =>
    intro f2 d h1 h2
    cases f2 with
    | zero => rw [stop (n + 1) d (by omega), stop 0 d (by omega)]
    | succ m =>
      by_cases hc : drainCond d
      · rw [drainLoop, if_pos hc, drainLoop, if_pos hc]
        have hlen : (drainStep env d).nal_buffer_.length = d.nal_buffer_.length - 1 := by
          rw [drainStep_nal_buffer]; simp
        exact ih m (drainStep env d) (by omega) (by omega)
      · rw [drainLoop, if_neg hc, drainLoop, if_neg hc]

theorem drainLoop_of_not_cond (env : Env) (fuel : Nat) (d : Decoder)
    (h : ¬ drainCond d) : drainLoop env fuel d = d := by
  cases fuel with
  | zero => rfl
  | succ n => rw [drainLoop, if_neg h]

/-! ## C7: what `DecodeNal` does with an accepted picture unit -/

/-- C8. For an accepted picture unit whose buffer flag is clear, the drain loop
of `DecodeNal` decodes `k` units, with `k` at most the number of units the
buffer held after the insertion; these are the first `k` units of that buffer,
decoded in buffer order, and the buffer on return is the rest.  On return the
buffer is empty or `num_pics_in_buffer_ - nal_buffer_.size() + 1` (in `size_t`
arithmetic) is at least `pic_buffering_num_`.  The loop has stopped by itself:
any amount of fuel from the buffer length on gives the same final state. -/
theorem DecodeNal_drain_loop (env : Env) (d : Decoder) (nal : Nal)
    (hd : acceptsPictures d) (hpic : isPictureNal env nal) (hacc : accepted env d nal)
    (hflag : nalBufferFlag env nal = 0) :
    (insertNal env d nal).nal_buffer_ =
        (if d.num_tail_pics_ > 0 then nal :: d.nal_buffer_ else d.nal_buffer_ ++ [nal]) ∧
      (∃ k, k ≤ (insertNal env d nal).nal_buffer_.length ∧
        (DecodeNal env d nal).2.decode_log =
          d.decode_log ++ (insertNal env d nal).nal_buffer_.take k ∧
        (DecodeNal env d nal).2.nal_buffer_ = (insertNal env d nal).nal_buffer_.drop k) ∧
      ((DecodeNal env d nal).2.nal_buffer_ = [] ∨
        (DecodeNal env d nal).2.pic_buffering_num_ ≤
          addSize (subSize (DecodeNal env d nal).2.num_pics_in_buffer_
            (DecodeNal env d nal).2.nal_buffer_.length) 1) ∧
      ∀ fuel, (insertNal env d nal).nal_buffer_.length ≤ fuel →
        drainLoop env fuel (insertNal env d nal) = (DecodeNal env d nal).2 := by
  have hres := DecodeNal_picture env d nal hd hpic
  have hnot : ¬ nalTid env nal > gatedMaxTid env d nal := hacc
  rw [if_neg hnot, if_neg (not_not.2 hflag)] at hres
  have hins : (insertNal env d nal).nal_buffer_ =
      (if d.num_tail_pics_ > 0 then nal :: d.nal_buffer_ else d.nal_buffer_ ++ [nal]) := by
    simp only [insertNal]
    by_cases ht : d.num_tail_pics_ > 0
    · rw [if_pos ⟨hflag, ht⟩, if_pos ht]
    · rw [if_neg (fun h => ht h.2), if_neg ht]
  obtain ⟨k, _, hk2, hbuf, hlog, hstop⟩ :=
    drainLoop_trace env (insertNal env d nal).nal_buffer_.length (insertNal env d nal)
  have hfinal : (DecodeNal env d nal).2 =
      drainLoop env (insertNal env d nal).nal_buffer_.length (insertNal env d nal) := by
    rw [hres]
  refine ⟨hins, ⟨k, hk2, ?_, ?_⟩, ?_, ?_⟩
  · rw [hfinal]; exact hlog
  · rw [hfinal]; exact hbuf
  · rw [hfinal]
    have hs := hstop (le_refl _)
    by_cases he : (drainLoop env (insertNal env d nal).nal_buffer_.length
        (insertNal env d nal)).nal_buffer_ = []
    · exact Or.inl he
    · right
      by_contra hlt
      apply hs
      refine ⟨?_, by omega⟩
      exact List.length_pos.2 he
  · intro fuel hfuel
    rw [hfinal]
    exact drainLoop_fuel env fuel _ (insertNal env d nal) hfuel (le_refl _)

theorem DecodeNal_drain_loop_witness :
    acceptsPictures sampleTail ∧ isPictureNal sampleEnv [2, 16, 9] ∧
      accepted sampleEnv sampleTail [2, 16, 9] ∧ nalBufferFlag sampleEnv [2, 16, 9] = 0 ∧
      (DecodeNal sampleEnv sampleTail [2, 16, 9]).2.nal_buffer_ = [] ∧
      (DecodeNal sampleEnv sampleTail [2, 16, 9]).2.decode_log =
        [[2, 16, 9], [0, 128, 3], [0, 0, 5]] ∧
      ((DecodeNal sampleEnv sampleTail [2, 16, 9]).2.nal_buffer_ = [] ∨
        (DecodeNal sampleEnv sampleTail [2, 16, 9]).2.pic_buffering_num_ ≤
          addSize (subSize (DecodeNal sampleEnv sampleTail [2, 16, 9]).2.num_pics_in_buffer_
            (DecodeNal sampleEnv sampleTail [2, 16, 9]).2.nal_buffer_.length) 1) :=
  ⟨by decide, by decide, by decide, by decide, by decide, by decide,
    (DecodeNal_drain_loop sampleEnv sampleTail [2, 16, 9]
      (by decide) (by decide) (by decide) (by decide)).2.2.1⟩

/-! ## C9: a header discards stale buffered units -/

/-- The discard at the top of `DecodeSegmentHeaderNal`, when the buffer holds
more units than `num_tail_pics_`. -/
theorem DecodeSegmentHeaderNal_discard (env : Env) (d : Decoder) (br : BitReader)
    (h : d.nal_buffer_.length > toSizeT d.num_tail_pics_) :
    (DecodeSegmentHeaderNal env d br).2.nal_buffer_ = [] ∧
      (DecodeSegmentHeaderNal env d br).2.num_pics_in_buffer_ =
        sub32 d.num_pics_in_buffer_ d.nal_buffer_.length ∧
      (DecodeSegmentHeaderNal env d br).2.num_tail_pics_ = 0 ∧
      (DecodeSegmentHeaderNal env d br).2.decode_log = d.decode_log := by
  unfold DecodeSegmentHeaderNal
  by_cases hr : (env.Read br (d.soc_ + 1)).1 = State.kSegmentHeaderDecoded <;>
    simp [h, hr]

/-- No discard when the buffer holds at most `num_tail_pics_` units. -/
theorem DecodeSegmentHeaderNal_keep (env : Env) (d : Decoder) (br : BitReader)
    (h : ¬ d.nal_buffer_.length > toSizeT d.num_tail_pics_) :
    (DecodeSegmentHeaderNal env d br).2.nal_buffer_ = d.nal_buffer_ ∧
      (DecodeSegmentHeaderNal env d br).2.num_pics_in_buffer_ = d.num_pics_in_buffer_ ∧
      (DecodeSegmentHeaderNal env d br).2.num_tail_pics_ = d.num_tail_pics_ ∧
      (DecodeSegmentHeaderNal env d br).2.decode_log = d.decode_log := by
  unfold DecodeSegmentHeaderNal
  by_cases hr : (env.Read br (d.soc_ + 1)).1 = State.kSegmentHeaderDecoded <;>
    simp [h, hr]

theorem toSizeT_of_nonneg (i : Int) (h0 : 0 ≤ i) (h : i < 2 ^ 64) : (toSizeT i : Int) = i := by
  unfold toSizeT
  omega

/-- C9. For every cursor handed to `DecodeSegmentHeaderNal` (every header unit)
and every session state, whatever `SegmentHeaderReader::Read` returns: if the
reorder buffer holds more units than `num_tail_pics_`, the call empties the
buffer, lowers the in-flight counter by the previous buffer length (as a
`uint32_t`; exactly so as a number when the counter was at least that length),
sets `num_tail_pics_` to 0 and decodes none of the discarded units; otherwise
the buffer, the in-flight counter and `num_tail_pics_` are unchanged.  The
comparison is the source's, against `static_cast<size_t>(num_tail_pics_)`,
which is the plain comparison whenever `num_tail_pics_` is not negative. -/
theorem DecodeSegmentHeaderNal_buffer_effect (env : Env) (d : Decoder) (br : BitReader) :
    (d.nal_buffer_.length > toSizeT d.num_tail_pics_ →
        (DecodeSegmentHeaderNal env d br).2.nal_buffer_ = [] ∧
          (DecodeSegmentHeaderNal env d br).2.num_pics_in_buffer_ =
            sub32 d.num_pics_in_buffer_ d.nal_buffer_.length ∧
          (d.nal_buffer_.length ≤ d.num_pics_in_buffer_ → d.num_pics_in_buffer_ < 2 ^ 32 →
            (DecodeSegmentHeaderNal env d br).2.num_pics_in_buffer_ + d.nal_buffer_.length =
              d.num_pics_in_buffer_) ∧
          (DecodeSegmentHeaderNal env d br).2.num_tail_pics_ = 0 ∧
          (DecodeSegmentHeaderNal env d br).2.decode_log = d.decode_log) ∧
      (¬ d.nal_buffer_.length > toSizeT d.num_tail_pics_ →
        (DecodeSegmentHeaderNal env d br).2.nal_buffer_ = d.nal_buffer_ ∧
          (DecodeSegmentHeaderNal env d br).2.num_pics_in_buffer_ = d.num_pics_in_buffer_ ∧
          (DecodeSegmentHeaderNal env d br).2.num_tail_pics_ = d.num_tail_pics_ ∧
          (DecodeSegmentHeaderNal env d br).2.decode_log = d.decode_log) ∧
      (0 ≤ d.num_tail_pics_ → d.num_tail_pics_ < 2 ^ 64 →
        (d.nal_buffer_.length > toSizeT d.num_tail_pics_ ↔
          (d.nal_buffer_.length : Int) > d.num_tail_pics_)) := by
  refine ⟨fun h => ?_, fun h => DecodeSegmentHeaderNal_keep env d br h, fun h0 h64 => ?_⟩
  · obtain ⟨h1, h2, h3, h4⟩ := DecodeSegmentHeaderNal_discard env d br h
    refine ⟨h1, h2, ?_, h3, h4⟩
    intro hle h32
    rw [h2]
    exact sub32_add_of_le _ _ hle h32
  · have := toSizeT_of_nonneg d.num_tail_pics_ h0 h64
    constructor
    · intro hgt; omega
    · intro hgt; omega

theorem DecodeSegmentHeaderNal_buffer_effect_witness :
    sampleStale.nal_buffer_.length > toSizeT sampleStale.num_tail_pics_ ∧
      (DecodeSegmentHeaderNal sampleEnv sampleStale ⟨sampleH5, 8⟩).2.nal_buffer_ = [] ∧
      (DecodeSegmentHeaderNal sampleEnv sampleStale ⟨sampleH5, 8⟩).2.num_pics_in_buffer_ = 2 ∧
      (DecodeSegmentHeaderNal sampleEnv sampleStale ⟨sampleH5, 8⟩).2.num_tail_pics_ = 0 :=
  ⟨by decide,
    ((DecodeSegmentHeaderNal_buffer_effect sampleEnv sampleStale ⟨sampleH5, 8⟩).1
      (by decide)).1,
    by decide,
    ((DecodeSegmentHeaderNal_buffer_effect sampleEnv sampleStale ⟨sampleH5, 8⟩).1
      (by decide)).2.2.2.1⟩

/-! ## C10: tail units followed by a header -/

/-- What `DecodeNal` does with an accepted picture unit whose buffer flag is
set. -/
theorem DecodeNal_tail_unit (env : Env) (d : Decoder) (nal : Nal)
    (hd : acceptsPictures d) (hpic : isPictureNal env nal) (hacc : accepted env d nal)
    (hflag : nalBufferFlag env nal ≠ 0) :
    acceptsPictures (DecodeNal env d nal).2 ∧
      (DecodeNal env d nal).2.nal_buffer_ = d.nal_buffer_ ++ [nal] ∧
      (DecodeNal env d nal).2.num_tail_pics_ = d.num_tail_pics_ + 1 ∧
      (DecodeNal env d nal).2.decode_log = d.decode_log := by
  have hres := DecodeNal_picture env d nal hd hpic
  have hnot : ¬ nalTid env nal > gatedMaxTid env d nal := hacc
  rw [if_neg hnot, if_pos hflag] at hres
  rw [hres]
  refine ⟨hd, ?_, rfl, rfl⟩
  show (insertNal env d nal).nal_buffer_ = d.nal_buffer_ ++ [nal]
  have hcond : ¬ (nalBufferFlag env nal = 0 ∧ d.num_tail_pics_ > 0) := fun h => hflag h.1
  simp only [insertNal]
  rw [if_neg hcond]

theorem DecodeNal_header (env : Env) (d : Decoder) (nal : Nal) (h : isHeaderNal env nal) :
    DecodeNal env d nal = DecodeSegmentHeaderNal env d (ReadBits env ⟨nal, 0⟩ 8).2 := by
  unfold DecodeNal
  rw [if_neg (by have := h.1; omega), if_pos h.2]

set_option maxRecDepth 8000 in
/-- C10, counterexample. From the fresh sample session, the open-GOP header
`sampleHopen` parses successfully and leaves the reorder buffer empty; two
picture units with the buffer flag set are then accepted, and a second header
unit follows.  After it both tail units are still in the reorder buffer and
`num_tail_pics_` is 2, not 0. -/
theorem tail_units_not_discarded_by_header :
    (DecodeNal sampleEnv sampleInit sampleHopen).1 = true ∧
      sampleAfterHopen.curr_segment_header_.open_gop = true ∧
      sampleAfterHopen.nal_buffer_ = [] ∧
      accepted sampleEnv sampleAfterHopen [0, 128, 3] ∧
      accepted sampleEnv (DecodeNal sampleEnv sampleAfterHopen [0, 128, 3]).2 [0, 128, 5] ∧
      (feed sampleEnv sampleAfterHopen [[0, 128, 3], [0, 128, 5], sampleH1]).nal_buffer_ =
        [[0, 128, 3], [0, 128, 5]] ∧
      (feed sampleEnv sampleAfterHopen [[0, 128, 3], [0, 128, 5], sampleH1]).num_tail_pics_ = 2 ∧
      ¬ ((feed sampleEnv sampleAfterHopen
          [[0, 128, 3], [0, 128, 5], sampleH1]).nal_buffer_ = [] ∧
        (feed sampleEnv sampleAfterHopen
          [[0, 128, 3], [0, 128, 5], sampleH1]).num_tail_pics_ = 0) := by
  decide

/-- C10, amended. Starting from a session that lets pictures through, with an
empty reorder buffer and no pending tail picture (the current header may be
open-GOP or not): after feeding 2 accepted picture units with the buffer flag
set and then a header unit, the 2 tail units are still in the reorder buffer,
in arrival order, `num_tail_pics_` is 2, and no decode step was run on either
of them. -/
theorem tail_units_kept_by_header (env : Env) (d : Decoder) (u1 u2 h2 : Nal)
    (hd : acceptsPictures d) (hbuf : d.nal_buffer_ = []) (htail : d.num_tail_pics_ = 0)
    (hu1 : isPictureNal env u1) (hf1 : nalBufferFlag env u1 ≠ 0) (ha1 : accepted env d u1)
    (hu2 : isPictureNal env u2) (hf2 : nalBufferFlag env u2 ≠ 0)
    (ha2 : accepted env (DecodeNal env d u1).2 u2) (hh : isHeaderNal env h2) :
    (feed env d [u1, u2, h2]).nal_buffer_ = [u1, u2] ∧
      (feed env d [u1, u2, h2]).num_tail_pics_ = 2 ∧
      (feed env d [u1, u2, h2]).decode_log = d.decode_log := by
  obtain ⟨a1, b1, t1, l1⟩ := DecodeNal_tail_unit env d u1 hd hu1 ha1 hf1
  obtain ⟨_, b2, t2, l2⟩ := DecodeNal_tail_unit env _ u2 a1 hu2 ha2 hf2
  rw [b1, hbuf] at b2
  rw [t1, htail] at t2
  rw [l1] at l2
  have hkeep : ¬ (DecodeNal env (DecodeNal env d u1).2 u2).2.nal_buffer_.length >
      toSizeT (DecodeNal env (DecodeNal env d u1).2 u2).2.num_tail_pics_ := by
    rw [b2, t2]
    have hsz : toSizeT (0 + 1 + 1) = 2 := by decide
    rw [hsz]
    simp
  obtain ⟨k1, _, k3, k4⟩ := DecodeSegmentHeaderNal_keep env
    (DecodeNal env (DecodeNal env d u1).2 u2).2 (ReadBits env ⟨h2, 0⟩ 8).2 hkeep
  have hfeed : feed env d [u1, u2, h2] =
      (DecodeNal env (DecodeNal env (DecodeNal env d u1).2 u2).2 h2).2 := rfl
  rw [hfeed, DecodeNal_header env _ h2 hh, k1, k3, k4, b2, t2, l2]
  exact ⟨rfl, rfl, rfl⟩

theorem tail_units_kept_by_header_witness :
    acceptsPictures sampleAfterHopen ∧ sampleAfterHopen.nal_buffer_ = [] ∧
      sampleAfterHopen.num_tail_pics_ = 0 ∧
      isPictureNal sampleEnv [0, 128, 3] ∧ nalBufferFlag sampleEnv [0, 128, 3] ≠ 0 ∧
      isPictureNal sampleEnv [0, 128, 5] ∧ nalBufferFlag sampleEnv [0, 128, 5] ≠ 0 ∧
      isHeaderNal sampleEnv sampleH1 ∧
      (feed sampleEnv sampleAfterHopen [[0, 128, 3], [0, 128, 5], sampleH1]).nal_buffer_ =
        [[0, 128, 3], [0, 128, 5]] ∧
      (feed sampleEnv sampleAfterHopen [[0, 128, 3], [0, 128, 5], sampleH1]).num_tail_pics_ = 2 ∧
      (feed sampleEnv sampleAfterHopen [[0, 128, 3], [0, 128, 5], sampleH1]).decode_log =
        sampleAfterHopen.decode_log :=
  ⟨by decide, by decide, by decide, by decide, by decide, by decide, by decide, by decide,
    tail_units_kept_by_header sampleEnv sampleAfterHopen [0, 128, 3] [0, 128, 5] sampleH1
      (by decide) (by decide) (by decide) (by decide) (by decide) (by decide) (by decide)
      (by decide) (by decide) (by decide)⟩

/-! ## C11: what a successfully parsed header sets -/

theorem DecodeNal_sliding_window_le (env : Env) (d : Decoder) (nal : Nal) :
    d.sliding_window_length_ ≤ (DecodeNal env d nal).2.sliding_window_length_ := by
  by_cases hh : isHeaderNal env nal
  · rw [DecodeNal_header env d nal hh]
    cases hok : (DecodeSegmentHeaderNal env d (ReadBits env ⟨nal, 0⟩ 8).2).1 with
    | true =>
      rw [(DecodeSegmentHeaderNal_ok_poolTarget env d _ hok).2.1]
      exact le_max_left _ _
    | false =>
      have := congrArg Prod.fst (DecodeSegmentHeaderNal_fail_poolTarget env d _ hok)
      exact le_of_eq this.symm
  · have := congrArg Prod.fst (DecodeNal_not_header_poolTarget env d nal hh)
    exact le_of_eq this.symm

theorem step_sliding_window_le (env : Env) (d : Decoder) (op : Op) :
    d.sliding_window_length_ ≤ (step env d op).sliding_window_length_ := by
  cases op with
  | decodeNal nal => exact DecodeNal_sliding_window_le env d nal
  | flush =>
    exact le_of_eq (congrArg Prod.fst (FlushBufferedTailPics_poolTarget env d)).symm
  | getDecodedPicture =>
    exact le_of_eq (congrArg Prod.fst (GetDecodedPicture_poolTarget env d)).symm

theorem run_sliding_window_le (env : Env) (ops : List Op) :
    ∀ d : Decoder, d.sliding_window_length_ ≤ (run env d ops).sliding_window_length_ := by
  induction ops with
  | nil => intro d; exact le_refl _
  | cons op rest ih =>
    intro d
    exact le_trans (step_sliding_window_le env d op) (ih (step env d op))

theorem DecodeSegmentHeaderNal_pic_decoders (env : Env) (d : Decoder) (br : BitReader) :
    (DecodeSegmentHeaderNal env d br).2.pic_decoders_ = d.pic_decoders_ := by
  unfold DecodeSegmentHeaderNal
  by_cases hb : d.nal_buffer_.length > toSizeT d.num_tail_pics_ <;>
    by_cases hr : (env.Read br (d.soc_ + 1)).1 = State.kSegmentHeaderDecoded <;>
    simp [hb, hr]

theorem DecodeSegmentHeaderNal_ok_sub_gop_length (env : Env) (d : Decoder) (br : BitReader)
    (hr : (env.Read br (d.soc_ + 1)).1 = State.kSegmentHeaderDecoded) :
    (DecodeSegmentHeaderNal env d br).2.sub_gop_length_ =
      (env.Read br (d.soc_ + 1)).2.max_sub_gop_length := by
  unfold DecodeSegmentHeaderNal
  by_cases hb : d.nal_buffer_.length > toSizeT d.num_tail_pics_ <;> simp [hb, hr]

/-- C11. When `SegmentHeaderReader::Read` reports `kSegmentHeaderDecoded` for a
header with sub-GOP length `g` and reference-picture count `r`,
`DecodeSegmentHeaderNal` returns `true` and leaves `sub_gop_length_ = g`,
`sliding_window_length_ = max old (g + 1)` and `pic_buffering_num_` equal to
the new `sliding_window_length_` plus `r`; the pool is exactly what it was.
Moreover no call (of `DecodeNal`, `FlushBufferedTailPics` or
`GetDecodedPicture`, in any state) and no sequence of calls lowers
`sliding_window_length_`. -/
theorem DecodeSegmentHeaderNal_success (env : Env) (d : Decoder) (br : BitReader)
    (hr : (env.Read br (d.soc_ + 1)).1 = State.kSegmentHeaderDecoded) :
    (DecodeSegmentHeaderNal env d br).1 = true ∧
      (DecodeSegmentHeaderNal env d br).2.sub_gop_length_ =
        (env.Read br (d.soc_ + 1)).2.max_sub_gop_length ∧
      (DecodeSegmentHeaderNal env d br).2.sliding_window_length_ =
        max d.sliding_window_length_ ((env.Read br (d.soc_ + 1)).2.max_sub_gop_length + 1) ∧
      (DecodeSegmentHeaderNal env d br).2.pic_buffering_num_ =
        (DecodeSegmentHeaderNal env d br).2.sliding_window_length_ +
          (env.Read br (d.soc_ + 1)).2.num_ref_pics ∧
      (DecodeSegmentHeaderNal env d br).2.pic_decoders_ = d.pic_decoders_ ∧
      (∀ (s : Decoder) (op : Op),
        s.sliding_window_length_ ≤ (step env s op).sliding_window_length_) ∧
      (∀ (s : Decoder) (ops : List Op),
        s.sliding_window_length_ ≤ (run env s ops).sliding_window_length_) := by
  have hok := (DecodeSegmentHeaderNal_ok_iff env d br).2 hr
  obtain ⟨_, a2, a3⟩ := DecodeSegmentHeaderNal_ok_poolTarget env d br hok
  exact ⟨hok, DecodeSegmentHeaderNal_ok_sub_gop_length env d br hr, a2, a3,
    DecodeSegmentHeaderNal_pic_decoders env d br,
    fun s op => step_sliding_window_le env s op,
    fun s ops => run_sliding_window_le env ops s⟩

theorem DecodeSegmentHeaderNal_success_witness :
    (sampleEnv.Read ⟨sampleH5, 8⟩ (sampleAfterH1.soc_ + 1)).1 = State.kSegmentHeaderDecoded ∧
      (DecodeSegmentHeaderNal sampleEnv sampleAfterH1 ⟨sampleH5, 8⟩).1 = true ∧
      (DecodeSegmentHeaderNal sampleEnv sampleAfterH1 ⟨sampleH5, 8⟩).2.sub_gop_length_ = 4 ∧
      (DecodeSegmentHeaderNal sampleEnv sampleAfterH1 ⟨sampleH5, 8⟩).2.sliding_window_length_ = 5 ∧
      (DecodeSegmentHeaderNal sampleEnv sampleAfterH1 ⟨sampleH5, 8⟩).2.pic_buffering_num_ = 10 :=
  ⟨by decide,
    (DecodeSegmentHeaderNal_success sampleEnv sampleAfterH1 ⟨sampleH5, 8⟩ (by decide)).1,
    by decide, by decide, by decide⟩

/-! ## C13: state and corrupted-picture counter across decode steps -/

theorem DecodeOneBufferedNal_corrupted_le (env : Env) (d : Decoder) (nal : Nal) :
    d.num_corrupted_pics_ ≤ (DecodeOneBufferedNal env d nal).num_corrupted_pics_ := by
  show d.num_corrupted_pics_ ≤
    (if (payloadStep env d nal).1 then d.num_corrupted_pics_ else d.num_corrupted_pics_ + 1)
  split_ifs <;> omega

theorem foldl_DecodeOneBufferedNal_corrupted_le (env : Env) (nals : List Nal) :
    ∀ d : Decoder,
      d.num_corrupted_pics_ ≤ (nals.foldl (DecodeOneBufferedNal env) d).num_corrupted_pics_ := by
  induction nals with
  | nil => intro d; exact le_refl _
  | cons n rest ih =>
    intro d
    exact le_trans (DecodeOneBufferedNal_corrupted_le env d n) (ih _)

theorem DecodeOneBufferedNal_mismatch_sticky (env : Env) (d : Decoder) (nal : Nal)
    (h : d.state_ = State.kChecksumMismatch) :
    (DecodeOneBufferedNal env d nal).state_ = State.kChecksumMismatch := by
  show (if (payloadStep env d nal).1 then
      (if d.state_ ≠ State.kChecksumMismatch then State.kPicDecoded else d.state_)
    else State.kChecksumMismatch) = State.kChecksumMismatch
  split_ifs with h1 h2
  · exact absurd h h2
  · exact h
  · rfl

theorem foldl_DecodeOneBufferedNal_mismatch_sticky (env : Env) (nals : List Nal) :
    ∀ d : Decoder, d.state_ = State.kChecksumMismatch →
      (nals.foldl (DecodeOneBufferedNal env) d).state_ = State.kChecksumMismatch := by
  induction nals with
  | nil => intro d h; exact h
  | cons n rest ih =>
    intro d h
    exact ih _ (DecodeOneBufferedNal_mismatch_sticky env d n h)

theorem drainStep_corrupted_le (env : Env) (d : Decoder) :
    d.num_corrupted_pics_ ≤ (drainStep env d).num_corrupted_pics_ := by
  cases h : d.nal_buffer_ with
  | nil => rw [drainStep_nil env d h]
  | cons nal rest =>
    rw [drainStep_cons env d nal rest h]
    exact DecodeOneBufferedNal_corrupted_le env d nal

theorem drainLoop_corrupted_le (env : Env) (fuel : Nat) (d : Decoder) :
    d.num_corrupted_pics_ ≤ (drainLoop env fuel d).num_corrupted_pics_ :=
  drainLoop_preserves env (fun x => d.num_corrupted_pics_ ≤ x.num_corrupted_pics_)
    (fun x _ hx => le_trans hx (drainStep_corrupted_le env x)) fuel d (le_refl _)

theorem DecodeSegmentHeaderNal_num_corrupted (env : Env) (d : Decoder) (br : BitReader) :
    (DecodeSegmentHeaderNal env d br).2.num_corrupted_pics_ = d.num_corrupted_pics_ := by
  unfold DecodeSegmentHeaderNal
  by_cases hb : d.nal_buffer_.length > toSizeT d.num_tail_pics_ <;>
    by_cases hr : (env.Read br (d.soc_ + 1)).1 = State.kSegmentHeaderDecoded <;>
    simp [hb, hr]

theorem DecodeNal_corrupted_le (env : Env) (d : Decoder) (nal : Nal) :
    d.num_corrupted_pics_ ≤ (DecodeNal env d nal).2.num_corrupted_pics_ := by
  unfold DecodeNal
  split_ifs
  · exact le_refl _
  · rw [DecodeSegmentHeaderNal_num_corrupted]
  · exact le_refl _
  · exact le_refl _
  · exact le_refl _
  · exact drainLoop_corrupted_le env _ (insertNal env d nal)
  · exact le_refl _

theorem DecodeAllBufferedNals_corrupted_le (env : Env) (d : Decoder) :
    d.num_corrupted_pics_ ≤ (DecodeAllBufferedNals env d).num_corrupted_pics_ :=
  foldl_DecodeOneBufferedNal_corrupted_le env d.nal_buffer_ d

theorem FlushBufferedTailPics_corrupted_le (env : Env) (d : Decoder) :
    d.num_corrupted_pics_ ≤ (FlushBufferedTailPics env d).num_corrupted_pics_ := by
  unfold FlushBufferedTailPics
  dsimp only
  split_ifs
  · exact le_refl _
  · exact le_refl _
  · refine le_trans ?_ (DecodeAllBufferedNals_corrupted_le env _)
    exact le_refl _
  · exact le_refl _

theorem GetDecodedPicture_corrupted_le (env : Env) (d : Decoder) :
    d.num_corrupted_pics_ ≤ (GetDecodedPicture env d).2.num_corrupted_pics_ := by
  by_cases h : d.enforce_sliding_window_ = true ∧ env.HasPictureReadyForOutput d = false
  · rw [GetDecodedPicture_refused env d h]
  · cases hf : findLowestPoc d.pic_decoders_ 0 env.PicNum_max none with
    | none => rw [GetDecodedPicture_not_found env d h hf]
    | some i =>
      cases hg : d.pic_decoders_[i]? with
      | none => rw [GetDecodedPicture_out_of_range env d i h hf hg]
      | some pic =>
        rw [GetDecodedPicture_found env d i pic h hf hg]
        dsimp only
        split_ifs
        · exact drainStep_corrupted_le env (outputSlot d i pic)
        · exact le_refl _

theorem run_corrupted_le (env : Env) (ops : List Op) :
    ∀ d : Decoder, d.num_corrupted_pics_ ≤ (run env d ops).num_corrupted_pics_ := by
  induction ops with
  | nil => intro d; exact le_refl _
  | cons op rest ih =>
    intro d
    have h1 : d.num_corrupted_pics_ ≤ (step env d op).num_corrupted_pics_ := by
      cases op with
      | decodeNal nal => exact DecodeNal_corrupted_le env d nal
      | flush => exact FlushBufferedTailPics_corrupted_le env d
      | getDecodedPicture => exact GetDecodedPicture_corrupted_le env d
    exact le_trans h1 (ih (step env d op))

/-- C13. For every decode step `DecodeOneBufferedNal`: if the payload decode
(`pic_dec->Decode`) fails, the state becomes `kChecksumMismatch` and
`num_corrupted_pics_` is one higher; if it succeeds, `num_corrupted_pics_` is
unchanged and the state becomes `kPicDecoded`, unless it was
`kChecksumMismatch`, which it then stays.  Hence a state `kChecksumMismatch`
survives any sequence of decode steps, and `num_corrupted_pics_` never
decreases, neither over decode steps nor over any sequence of calls. -/
theorem DecodeOneBufferedNal_state_and_corrupted (env : Env) (d : Decoder) (nal : Nal) :
    ((payloadStep env d nal).1 = false →
        (DecodeOneBufferedNal env d nal).state_ = State.kChecksumMismatch ∧
          (DecodeOneBufferedNal env d nal).num_corrupted_pics_ =
            d.num_corrupted_pics_ + 1) ∧
      ((payloadStep env d nal).1 = true →
        (DecodeOneBufferedNal env d nal).num_corrupted_pics_ = d.num_corrupted_pics_ ∧
          (d.state_ ≠ State.kChecksumMismatch →
            (DecodeOneBufferedNal env d nal).state_ = State.kPicDecoded) ∧
          (d.state_ = State.kChecksumMismatch →
            (DecodeOneBufferedNal env d nal).state_ = State.kChecksumMismatch)) ∧
      (∀ (s : Decoder) (nals : List Nal), s.state_ = State.kChecksumMismatch →
        (nals.foldl (DecodeOneBufferedNal env) s).state_ = State.kChecksumMismatch) ∧
      (∀ (s : Decoder) (nals : List Nal),
        s.num_corrupted_pics_ ≤
          (nals.foldl (DecodeOneBufferedNal env) s).num_corrupted_pics_) ∧
      (∀ (s : Decoder) (ops : List Op),
        s.num_corrupted_pics_ ≤ (run env s ops).num_corrupted_pics_) := by
  refine ⟨fun hf => ?_, fun ht => ?_,
    fun s nals hs => foldl_DecodeOneBufferedNal_mismatch_sticky env nals s hs,
    fun s nals => foldl_DecodeOneBufferedNal_corrupted_le env nals s,
    fun s ops => run_corrupted_le env ops s⟩
  · constructor
    · show (if (payloadStep env d nal).1 then
          (if d.state_ ≠ State.kChecksumMismatch then State.kPicDecoded else d.state_)
        else State.kChecksumMismatch) = State.kChecksumMismatch
      rw [hf]; rfl
    · show (if (payloadStep env d nal).1 then d.num_corrupted_pics_
        else d.num_corrupted_pics_ + 1) = d.num_corrupted_pics_ + 1
      rw [hf]; rfl
  · refine ⟨?_, fun hne => ?_, fun he => DecodeOneBufferedNal_mismatch_sticky env d nal he⟩
    · show (if (payloadStep env d nal).1 then d.num_corrupted_pics_
        else d.num_corrupted_pics_ + 1) = d.num_corrupted_pics_
      rw [ht]; rfl
    · show (if (payloadStep env d nal).1 then
          (if d.state_ ≠ State.kChecksumMismatch then State.kPicDecoded else d.state_)
        else State.kChecksumMismatch) = State.kPicDecoded
      rw [ht, if_pos rfl, if_pos hne]

theorem DecodeOneBufferedNal_state_and_corrupted_witness :
    (payloadStep sampleEnv sampleAfterH1 [0, 0, 5]).1 = true ∧
      sampleAfterH1.state_ ≠ State.kChecksumMismatch ∧
      (DecodeOneBufferedNal sampleEnv sampleAfterH1 [0, 0, 5]).num_corrupted_pics_ =
        sampleAfterH1.num_corrupted_pics_ ∧
      (DecodeOneBufferedNal sampleEnv sampleAfterH1 [0, 0, 5]).state_ = State.kPicDecoded :=
  ⟨by decide, by decide,
    ((DecodeOneBufferedNal_state_and_corrupted sampleEnv sampleAfterH1 [0, 0, 5]).2.1
      (by decide)).1,
    ((DecodeOneBufferedNal_state_and_corrupted sampleEnv sampleAfterH1 [0, 0, 5]).2.1
      (by decide)).2.1 (by decide)⟩

/-! ## C14: what `GetNewPictureDecoder` changes in the pool -/

theorem getD_of_getElem? (l : List PictureDecoder) (i : Nat) (pic dflt : PictureDecoder)
    (h : l[i]? = some pic) : l.getD i dflt = pic := by
  rw [List.getD_eq_getElem?_getD, h]
  rfl

theorem GetNewPictureDecoder_grow (env : Env) (pool : List PictureDecoder)
    (pbn chroma_format : Nat) (width height bitdepth : Int) (h : pool.length < pbn) :
    GetNewPictureDecoder env pool pbn chroma_format width height bitdepth =
      (pool ++ [env.NewPictureDecoder chroma_format width height bitdepth], pool.length) := by
  unfold GetNewPictureDecoder
  rw [if_pos h]

theorem GetNewPictureDecoder_replace (env : Env) (pool : List PictureDecoder)
    (pbn chroma_format : Nat) (width height bitdepth : Int) (pic : PictureDecoder)
    (h : ¬ pool.length < pbn)
    (hv : pool[findVictim pool 0 env.PicNum_max 0]? = some pic)
    (hdiff : width ≠ pic.pic_data.width ∨ height ≠ pic.pic_data.height ∨
      chroma_format ≠ pic.pic_data.chroma_format ∨ bitdepth ≠ pic.pic_data.bitdepth) :
    GetNewPictureDecoder env pool pbn chroma_format width height bitdepth =
      (pool.set (findVictim pool 0 env.PicNum_max 0)
        (env.NewPictureDecoder chroma_format width height bitdepth),
        findVictim pool 0 env.PicNum_max 0) := by
  unfold GetNewPictureDecoder
  rw [if_neg h]
  dsimp only
  rw [getD_of_getElem? pool _ pic _ hv, if_pos hdiff]

theorem GetNewPictureDecoder_reuse (env : Env) (pool : List PictureDecoder)
    (pbn chroma_format : Nat) (width height bitdepth : Int) (pic : PictureDecoder)
    (h : ¬ pool.length < pbn)
    (hv : pool[findVictim pool 0 env.PicNum_max 0]? = some pic)
    (hsame : ¬ (width ≠ pic.pic_data.width ∨ height ≠ pic.pic_data.height ∨
      chroma_format ≠ pic.pic_data.chroma_format ∨ bitdepth ≠ pic.pic_data.bitdepth)) :
    GetNewPictureDecoder env pool pbn chroma_format width height bitdepth =
      (pool, findVictim pool 0 env.PicNum_max 0) := by
  unfold GetNewPictureDecoder
  rw [if_neg h]
  dsimp only
  rw [getD_of_getElem? pool _ pic _ hv, if_neg hsame]

/-- The pool returned by `GetNewPictureDecoder` when the target is reached: the
old pool, possibly with the slot at the returned index overwritten. -/
theorem GetNewPictureDecoder_full_shape (env : Env) (pool : List PictureDecoder)
    (pbn chroma_format : Nat) (width height bitdepth : Int) (h : ¬ pool.length < pbn) :
    (GetNewPictureDecoder env pool pbn chroma_format width height bitdepth).1 = pool ∨
      (GetNewPictureDecoder env pool pbn chroma_format width height bitdepth).1 =
        pool.set (GetNewPictureDecoder env pool pbn chroma_format width height bitdepth).2
          (env.NewPictureDecoder chroma_format width height bitdepth) := by
  unfold GetNewPictureDecoder
  rw [if_neg h]
  dsimp only
  split_ifs
  · right; rfl
  · left; rfl

theorem GetNewPictureDecoder_length_le (env : Env) (pool : List PictureDecoder)
    (pbn chroma_format : Nat) (width height bitdepth : Int) :
    pool.length ≤
      (GetNewPictureDecoder env pool pbn chroma_format width height bitdepth).1.length := by
  by_cases h : pool.length < pbn
  · rw [GetNewPictureDecoder_grow env pool pbn chroma_format width height bitdepth h]
    simp
  · rcases GetNewPictureDecoder_full_shape env pool pbn chroma_format width height bitdepth h
      with e | e
    · rw [e]
    · rw [e]; simp

theorem DecodeOneBufferedNal_pool_length_le (env : Env) (d : Decoder) (nal : Nal) :
    d.pic_decoders_.length ≤ (DecodeOneBufferedNal env d nal).pic_decoders_.length := by
  show d.pic_decoders_.length ≤
    ((slotFor env d nal).1.set (slotFor env d nal).2 (payloadStep env d nal).2).length
  rw [List.length_set]
  exact GetNewPictureDecoder_length_le env _ _ _ _ _ _

/-- C14. For every request (chroma format, width, height, bit depth):

* if the pool holds fewer than `pic_buffering_num_` slots,
  `GetNewPictureDecoder` appends exactly one freshly constructed slot, returns
  it (its index is the old length), and every old slot is unchanged;
* otherwise the pool length is unchanged and every slot other than the one
  returned is unchanged; the returned slot (the victim, when the pool is not
  empty) is replaced by a freshly constructed one when its stored luma width,
  luma height, chroma format or bit depth differs from the request, and is
  left as it is (the whole pool is unchanged) when none differs.

In both cases the pool is not shorter afterwards, and no decode step shortens
it either. -/
theorem GetNewPictureDecoder_pool_effect (env : Env) (pool : List PictureDecoder)
    (pbn chroma_format : Nat) (width height bitdepth : Int) :
    (pool.length < pbn →
        (GetNewPictureDecoder env pool pbn chroma_format width height bitdepth).1 =
            pool ++ [env.NewPictureDecoder chroma_format width height bitdepth] ∧
          (GetNewPictureDecoder env pool pbn chroma_format width height bitdepth).2 =
            pool.length ∧
          (GetNewPictureDecoder env pool pbn chroma_format width height
              bitdepth).1[(GetNewPictureDecoder env pool pbn chroma_format width height
                bitdepth).2]? =
            some (env.NewPictureDecoder chroma_format width height bitdepth) ∧
          (∀ j, j < pool.length →
            (GetNewPictureDecoder env pool pbn chroma_format width height bitdepth).1[j]? =
              pool[j]?)) ∧
      (¬ pool.length < pbn →
        (GetNewPictureDecoder env pool pbn chroma_format width height bitdepth).1.length =
            pool.length ∧
          (∀ j, j ≠ (GetNewPictureDecoder env pool pbn chroma_format width height bitdepth).2 →
            (GetNewPictureDecoder env pool pbn chroma_format width height bitdepth).1[j]? =
              pool[j]?) ∧
          ∀ pic : PictureDecoder,
            pool[(GetNewPictureDecoder env pool pbn chroma_format width height bitdepth).2]? =
              some pic →
            ((width ≠ pic.pic_data.width ∨ height ≠ pic.pic_data.height ∨
                chroma_format ≠ pic.pic_data.chroma_format ∨
                bitdepth ≠ pic.pic_data.bitdepth) →
              (GetNewPictureDecoder env pool pbn chroma_format width height
                  bitdepth).1[(GetNewPictureDecoder env pool pbn chroma_format width height
                    bitdepth).2]? =
                some (env.NewPictureDecoder chroma_format width height bitdepth)) ∧
            (¬ (width ≠ pic.pic_data.width ∨ height ≠ pic.pic_data.height ∨
                chroma_format ≠ pic.pic_data.chroma_format ∨
                bitdepth ≠ pic.pic_data.bitdepth) →
              (GetNewPictureDecoder env pool pbn chroma_format width height bitdepth).1 =
                pool)) ∧
      pool.length ≤
        (GetNewPictureDecoder env pool pbn chroma_format width height bitdepth).1.length ∧
      (∀ (d : Decoder) (nal : Nal),
        d.pic_decoders_.length ≤ (DecodeOneBufferedNal env d nal).pic_decoders_.length) := by
  refine ⟨fun h => ?_, fun h => ?_,
    GetNewPictureDecoder_length_le env pool pbn chroma_format width height bitdepth,
    fun d nal => DecodeOneBufferedNal_pool_length_le env d nal⟩
  · rw [GetNewPictureDecoder_grow env pool pbn chroma_format width height bitdepth h]
    refine ⟨rfl, rfl, by simp, ?_⟩
    intro j hj
    show (pool ++ [env.NewPictureDecoder chroma_format width height bitdepth])[j]? = pool[j]?
    rw [List.getElem?_append_left hj]
  · have hidx := GetNewPictureDecoder_full_index env pool pbn chroma_format width height
      bitdepth h
    refine ⟨?_, ?_, ?_⟩
    · rcases GetNewPictureDecoder_full_shape env pool pbn chroma_format width height bitdepth h
        with e | e
      · rw [e]
      · rw [e]; simp
    · intro j hj
      rcases GetNewPictureDecoder_full_shape env pool pbn chroma_format width height bitdepth h
        with e | e
      · rw [e]
      · rw [e, List.getElem?_set_ne (Ne.symm hj)]
    · intro pic hpic
      rw [hidx] at hpic
      have hlt : findVictim pool 0 env.PicNum_max 0 < pool.length := by
        by_contra hc
        rw [List.getElem?_eq_none (by omega)] at hpic
        cases hpic
      constructor
      · intro hdiff
        rw [GetNewPictureDecoder_replace env pool pbn chroma_format width height bitdepth pic
          h hpic hdiff]
        exact List.getElem?_set_self hlt
      · intro hsame
        rw [GetNewPictureDecoder_reuse env pool pbn chroma_format width height bitdepth pic
          h hpic hsame]

theorem GetNewPictureDecoder_pool_effect_witness :
    ¬ [sampleSlot OutputStatus.kHasBeenOutput 0 3,
          sampleSlot OutputStatus.kHasBeenOutput 1 5].length < 2 ∧
      (GetNewPictureDecoder sampleEnv
        [sampleSlot OutputStatus.kHasBeenOutput 0 3,
          sampleSlot OutputStatus.kHasBeenOutput 1 5] 2 1 32 16 8).1.length =
        [sampleSlot OutputStatus.kHasBeenOutput 0 3,
          sampleSlot OutputStatus.kHasBeenOutput 1 5].length ∧
      (GetNewPictureDecoder sampleEnv
        [sampleSlot OutputStatus.kHasBeenOutput 0 3,
          sampleSlot OutputStatus.kHasBeenOutput 1 5] 2 1 32 16 8).1 =
        [sampleSlot OutputStatus.kHasBeenOutput 0 3, samplePic 1 32 16 8] :=
  ⟨by decide,
    ((GetNewPictureDecoder_pool_effect sampleEnv
      [sampleSlot OutputStatus.kHasBeenOutput 0 3,
        sampleSlot OutputStatus.kHasBeenOutput 1 5] 2 1 32 16 8).2.1 (by decide)).1,
    by decide⟩

/-! ## C15 and C16: the flush path -/

/-- The fields that no decode step writes, and the decode log, after a run of
decode steps. -/
theorem foldl_DecodeOneBufferedNal_frame (env : Env) (nals : List Nal) :
    ∀ d : Decoder,
      (nals.foldl (DecodeOneBufferedNal env) d).enforce_sliding_window_ =
          d.enforce_sliding_window_ ∧
        (nals.foldl (DecodeOneBufferedNal env) d).soc_ = d.soc_ ∧
        (nals.foldl (DecodeOneBufferedNal env) d).curr_segment_header_ =
          d.curr_segment_header_ ∧
        (nals.foldl (DecodeOneBufferedNal env) d).prev_segment_header_ =
          d.prev_segment_header_ ∧
        (nals.foldl (DecodeOneBufferedNal env) d).num_pics_in_buffer_ =
          d.num_pics_in_buffer_ ∧
        (nals.foldl (DecodeOneBufferedNal env) d).decode_log = d.decode_log ++ nals := by
  induction nals with
  | nil => intro d; simp
  | cons n rest ih =>
    intro d
    obtain ⟨h1, h2, h3, h4, h5, h6⟩ := ih (DecodeOneBufferedNal env d n)
    rw [List.foldl_cons]
    refine ⟨h1, h2, h3, h4, h5, ?_⟩
    rw [h6, DecodeOneBufferedNal_decode_log]
    simp

theorem FlushBufferedTailPics_deferred (env : Env) (d : Decoder)
    (h : d.nal_buffer_.length > toSizeT d.num_tail_pics_) :
    FlushBufferedTailPics env d = d := by
  unfold FlushBufferedTailPics
  rw [if_pos h]

theorem FlushBufferedTailPics_empty (env : Env) (d : Decoder)
    (h : ¬ d.nal_buffer_.length > toSizeT d.num_tail_pics_) (he : d.nal_buffer_ = []) :
    FlushBufferedTailPics env d =
      { d with
        enforce_sliding_window_ := false
        soc_ := d.soc_ + 1
        prev_segment_header_ := d.curr_segment_header_ } := by
  unfold FlushBufferedTailPics
  rw [if_neg h]
  dsimp only
  rw [if_neg (by rw [he]; simp)]

theorem FlushBufferedTailPics_open (env : Env) (d : Decoder)
    (h : ¬ d.nal_buffer_.length > toSizeT d.num_tail_pics_) (hne : d.nal_buffer_ ≠ [])
    (hopen : d.curr_segment_header_.open_gop = true) :
    FlushBufferedTailPics env d =
      { d with
        enforce_sliding_window_ := false
        soc_ := d.soc_ + 1
        prev_segment_header_ := d.curr_segment_header_
        num_pics_in_buffer_ := sub32 d.num_pics_in_buffer_ d.nal_buffer_.length
        nal_buffer_ := [] } := by
  unfold FlushBufferedTailPics
  rw [if_neg h]
  dsimp only
  rw [if_pos (List.length_pos.2 hne), if_pos hopen]

theorem FlushBufferedTailPics_closed (env : Env) (d : Decoder)
    (h : ¬ d.nal_buffer_.length > toSizeT d.num_tail_pics_) (hne : d.nal_buffer_ ≠ [])
    (hclosed : d.curr_segment_header_.open_gop = false) :
    FlushBufferedTailPics env d =
      DecodeAllBufferedNals env
        { d with
          enforce_sliding_window_ := false
          soc_ := d.soc_ + 1
          prev_segment_header_ := d.curr_segment_header_
          doc_ := d.doc_ + 1
          sub_gop_start_poc_ := d.sub_gop_end_poc_
          sub_gop_end_poc_ := d.sub_gop_end_poc_ + d.sub_gop_length_ } := by
  unfold FlushBufferedTailPics
  rw [if_neg h]
  dsimp only
  rw [if_pos (List.length_pos.2 hne), if_neg (by rw [hclosed]; simp)]

/-- C15. In a state whose current segment is open-GOP and whose reorder buffer
is non-empty but holds no more units than `num_tail_pics_` (the source's test
against `static_cast<size_t>(num_tail_pics_)`, so the flush is not deferred),
`FlushBufferedTailPics` empties the reorder buffer without running any decode
step, lowers the in-flight counter by the previous buffer length (as a
`uint32_t`; exactly so as a number when the counter was at least that length)
and leaves `doc_` unchanged. -/
theorem FlushBufferedTailPics_open_gop_discards (env : Env) (d : Decoder)
    (hopen : d.curr_segment_header_.open_gop = true) (hne : d.nal_buffer_ ≠ [])
    (hnd : ¬ d.nal_buffer_.length > toSizeT d.num_tail_pics_) :
    (FlushBufferedTailPics env d).nal_buffer_ = [] ∧
      (FlushBufferedTailPics env d).decode_log = d.decode_log ∧
      (FlushBufferedTailPics env d).num_pics_in_buffer_ =
        sub32 d.num_pics_in_buffer_ d.nal_buffer_.length ∧
      (d.nal_buffer_.length ≤ d.num_pics_in_buffer_ → d.num_pics_in_buffer_ < 2 ^ 32 →
        (FlushBufferedTailPics env d).num_pics_in_buffer_ + d.nal_buffer_.length =
          d.num_pics_in_buffer_) ∧
      (FlushBufferedTailPics env d).doc_ = d.doc_ := by
  rw [FlushBufferedTailPics_open env d hnd hne hopen]
  exact ⟨rfl, rfl, rfl, fun hle h32 => sub32_add_of_le _ _ hle h32, rfl⟩

/-- C16. If the reorder buffer holds more units than `num_tail_pics_` (the
source's test), `FlushBufferedTailPics` changes nothing.  Otherwise, on return
enforcement is off, `soc_` is one higher and the previous header is the
current one (which is itself unchanged); and when the current segment is
closed-GOP and the buffer is non-empty, the call first raises `doc_` by one,
sets `sub_gop_start_poc_` to the old `sub_gop_end_poc_` and raises
`sub_gop_end_poc_` by `sub_gop_length_`, and then runs
`DecodeAllBufferedNals`: every buffered unit is decoded exactly once, in buffer
order, the buffer is left empty and the in-flight counter is unchanged. -/
theorem FlushBufferedTailPics_effect (env : Env) (d : Decoder) :
    (d.nal_buffer_.length > toSizeT d.num_tail_pics_ → FlushBufferedTailPics env d = d) ∧
      (¬ d.nal_buffer_.length > toSizeT d.num_tail_pics_ →
        (FlushBufferedTailPics env d).enforce_sliding_window_ = false ∧
          (FlushBufferedTailPics env d).soc_ = d.soc_ + 1 ∧
          (FlushBufferedTailPics env d).prev_segment_header_ = d.curr_segment_header_ ∧
          (FlushBufferedTailPics env d).curr_segment_header_ = d.curr_segment_header_ ∧
          (d.curr_segment_header_.open_gop = false → d.nal_buffer_ ≠ [] →
            FlushBufferedTailPics env d =
                DecodeAllBufferedNals env
                  { d with
                    enforce_sliding_window_ := false
                    soc_ := d.soc_ + 1
                    prev_segment_header_ := d.curr_segment_header_
                    doc_ := d.doc_ + 1
                    sub_gop_start_poc_ := d.sub_gop_end_poc_
                    sub_gop_end_poc_ := d.sub_gop_end_poc_ + d.sub_gop_length_ } ∧
              (FlushBufferedTailPics env d).decode_log = d.decode_log ++ d.nal_buffer_ ∧
              (FlushBufferedTailPics env d).nal_buffer_ = [] ∧
              (FlushBufferedTailPics env d).num_pics_in_buffer_ = d.num_pics_in_buffer_)) := by
  refine ⟨fun h => FlushBufferedTailPics_deferred env d h, fun h => ?_⟩
  have closed_case : d.curr_segment_header_.open_gop = false → d.nal_buffer_ ≠ [] →
      (FlushBufferedTailPics env d).enforce_sliding_window_ = false ∧
        (FlushBufferedTailPics env d).soc_ = d.soc_ + 1 ∧
        (FlushBufferedTailPics env d).prev_segment_header_ = d.curr_segment_header_ ∧
        (FlushBufferedTailPics env d).curr_segment_header_ = d.curr_segment_header_ ∧
        (FlushBufferedTailPics env d).decode_log = d.decode_log ++ d.nal_buffer_ ∧
        (FlushBufferedTailPics env d).nal_buffer_ = [] ∧
        (FlushBufferedTailPics env d).num_pics_in_buffer_ = d.num_pics_in_buffer_ := by
    intro hc hne
    rw [FlushBufferedTailPics_closed env d h hne hc]
    obtain ⟨h1, h2, h3, h4, h5, h6⟩ := foldl_DecodeOneBufferedNal_frame env d.nal_buffer_
      { d with
        enforce_sliding_window_ := false
        soc_ := d.soc_ + 1
        prev_segment_header_ := d.curr_segment_header_
        doc_ := d.doc_ + 1
        sub_gop_start_poc_ := d.sub_gop_end_poc_
        sub_gop_end_poc_ := d.sub_gop_end_poc_ + d.sub_gop_length_ }
    exact ⟨h1, h2, h4, h3, h6, rfl, h5⟩
  by_cases he : d.nal_buffer_ = []
  · rw [FlushBufferedTailPics_empty env d h he]
    exact ⟨rfl, rfl, rfl, rfl, fun _ hne => absurd he hne⟩
  · cases ho : d.curr_segment_header_.open_gop with
    | true =>
      rw [FlushBufferedTailPics_open env d h he ho]
      exact ⟨rfl, rfl, rfl, rfl, fun hc => by cases hc⟩
    | false =>
      obtain ⟨c1, c2, c3, c4, c5, c6, c7⟩ := closed_case ho he
      exact ⟨c1, c2, c3, c4, fun _ _ =>
        ⟨FlushBufferedTailPics_closed env d h he ho, c5, c6, c7⟩⟩

theorem FlushBufferedTailPics_open_gop_discards_witness :
    sampleOpenTails.curr_segment_header_.open_gop = true ∧ sampleOpenTails.nal_buffer_ ≠ [] ∧
      ¬ sampleOpenTails.nal_buffer_.length > toSizeT sampleOpenTails.num_tail_pics_ ∧
      (FlushBufferedTailPics sampleEnv sampleOpenTails).nal_buffer_ = [] ∧
      (FlushBufferedTailPics sampleEnv sampleOpenTails).decode_log =
        sampleOpenTails.decode_log ∧
      (FlushBufferedTailPics sampleEnv sampleOpenTails).num_pics_in_buffer_ = 0 :=
  ⟨by decide, by decide, by decide,
    (FlushBufferedTailPics_open_gop_discards sampleEnv sampleOpenTails
      (by decide) (by decide) (by decide)).1,
    (FlushBufferedTailPics_open_gop_discards sampleEnv sampleOpenTails
      (by decide) (by decide) (by decide)).2.1,
    by decide⟩

theorem FlushBufferedTailPics_effect_witness :
    ¬ sampleClosedTails.nal_buffer_.length > toSizeT sampleClosedTails.num_tail_pics_ ∧
      sampleClosedTails.curr_segment_header_.open_gop = false ∧
      sampleClosedTails.nal_buffer_ ≠ [] ∧
      (FlushBufferedTailPics sampleEnv sampleClosedTails).decode_log =
        sampleClosedTails.decode_log ++ sampleClosedTails.nal_buffer_ ∧
      (FlushBufferedTailPics sampleEnv sampleClosedTails).nal_buffer_ = [] ∧
      (FlushBufferedTailPics sampleEnv sampleClosedTails).doc_ = sampleClosedTails.doc_ + 3 :=
  ⟨by decide, by decide, by decide,
    (((FlushBufferedTailPics_effect sampleEnv sampleClosedTails).2 (by decide)).2.2.2.2
      (by decide) (by decide)).2.1,
    (((FlushBufferedTailPics_effect sampleEnv sampleClosedTails).2 (by decide)).2.2.2.2
      (by decide) (by decide)).2.2.1,
    by decide⟩

/-! ## C18: the output defaults -/

theorem foldl_DecodeOneBufferedNal_outputDefaults (env : Env) (nals : List Nal) :
    ∀ d : Decoder,
      outputDefaults (nals.foldl (DecodeOneBufferedNal env) d) = outputDefaults d := by
  induction nals with
  | nil => intro d; rfl
  | cons n rest ih => intro d; rw [List.foldl_cons, ih]; rfl

theorem DecodeAllBufferedNals_outputDefaults (env : Env) (d : Decoder) :
    outputDefaults (DecodeAllBufferedNals env d) = outputDefaults d :=
  foldl_DecodeOneBufferedNal_outputDefaults env d.nal_buffer_ d

theorem drainStep_outputDefaults (env : Env) (d : Decoder) :
    outputDefaults (drainStep env d) = outputDefaults d := by
  cases h : d.nal_buffer_ with
  | nil => rw [drainStep_nil env d h]
  | cons nal rest => rw [drainStep_cons env d nal rest h]; rfl

theorem drainLoop_outputDefaults (env : Env) (fuel : Nat) (d : Decoder) :
    outputDefaults (drainLoop env fuel d) = outputDefaults d :=
  drainLoop_preserves env (fun x => outputDefaults x = outputDefaults d)
    (fun x _ hx => (drainStep_outputDefaults env x).trans hx) fuel d rfl

theorem FlushBufferedTailPics_outputDefaults (env : Env) (d : Decoder) :
    outputDefaults (FlushBufferedTailPics env d) = outputDefaults d := by
  unfold FlushBufferedTailPics
  dsimp only
  split_ifs
  · rfl
  · rfl
  · rw [DecodeAllBufferedNals_outputDefaults]; rfl
  · rfl

theorem GetDecodedPicture_outputDefaults (env : Env) (d : Decoder) :
    outputDefaults (GetDecodedPicture env d).2 = outputDefaults d := by
  by_cases h : d.enforce_sliding_window_ = true ∧ env.HasPictureReadyForOutput d = false
  · rw [GetDecodedPicture_refused env d h]
  · cases hf : findLowestPoc d.pic_decoders_ 0 env.PicNum_max none with
    | none => rw [GetDecodedPicture_not_found env d h hf]
    | some i =>
      cases hg : d.pic_decoders_[i]? with
      | none => rw [GetDecodedPicture_out_of_range env d i h hf hg]
      | some pic =>
        rw [GetDecodedPicture_found env d i pic h hf hg]
        dsimp only
        split_ifs
        · rw [drainStep_outputDefaults]; rfl
        · rfl

theorem DecodeNal_not_header_outputDefaults (env : Env) (d : Decoder) (nal : Nal)
    (h : ¬ isHeaderNal env nal) :
    outputDefaults (DecodeNal env d nal).2 = outputDefaults d := by
  unfold DecodeNal
  split_ifs with h1 h2
  · rfl
  · exact absurd ⟨by omega, h2⟩ h
  · rfl
  · rfl
  · rfl
  · rw [drainLoop_outputDefaults]; rfl
  · rfl

/-- The five output defaults after `DecodeSegmentHeaderNal`, field by field: a
failed parse leaves them alone, a successful one fills in the unset ones. -/
theorem DecodeSegmentHeaderNal_outputDefaults (env : Env) (d : Decoder) (br : BitReader) :
    outputDefaults (DecodeSegmentHeaderNal env d br).2 =
      if (env.Read br (d.soc_ + 1)).1 = State.kSegmentHeaderDecoded then
        (if d.output_width_ = 0 then (env.Read br (d.soc_ + 1)).2.pic_width
          else d.output_width_,
          if d.output_height_ = 0 then (env.Read br (d.soc_ + 1)).2.pic_height
          else d.output_height_,
          if d.output_bitdepth_ = 0 then (env.Read br (d.soc_ + 1)).2.internal_bitdepth
          else d.output_bitdepth_,
          if d.output_chroma_format_ = env.kUndefinedChromaFormat then
            (env.Read br (d.soc_ + 1)).2.chroma_format
          else d.output_chroma_format_,
          if d.output_color_matrix_ = env.kUndefinedColorMatrix then
            (env.Read br (d.soc_ + 1)).2.color_matrix
          else d.output_color_matrix_)
      else outputDefaults d := by
  unfold DecodeSegmentHeaderNal
  by_cases hb : d.nal_buffer_.length > toSizeT d.num_tail_pics_ <;>
    by_cases hr : (env.Read br (d.soc_ + 1)).1 = State.kSegmentHeaderDecoded <;>
    simp [hb, hr, outputDefaults]

theorem DecodeSegmentHeaderNal_defaultsSet (env : Env) (d : Decoder) (br : BitReader)
    (h : defaultsSet env d) :
    outputDefaults (DecodeSegmentHeaderNal env d br).2 = outputDefaults d := by
  obtain ⟨h1, h2, h3, h4, h5⟩ := h
  rw [DecodeSegmentHeaderNal_outputDefaults]
  split_ifs
  · rfl
  · rfl

theorem defaultsSet_congr (env : Env) (a b : Decoder)
    (h : outputDefaults a = outputDefaults b) (hb : defaultsSet env b) : defaultsSet env a := by
  unfold outputDefaults at h
  simp only [Prod.mk.injEq] at h
  obtain ⟨e1, e2, e3, e4, e5⟩ := h
  unfold defaultsSet at hb ⊢
  rw [e1, e2, e3, e4, e5]
  exact hb

theorem step_defaultsSet (env : Env) (d : Decoder) (op : Op) (h : defaultsSet env d) :
    outputDefaults (step env d op) = outputDefaults d := by
  cases op with
  | decodeNal nal =>
    by_cases hh : isHeaderNal env nal
    · show outputDefaults (DecodeNal env d nal).2 = outputDefaults d
      rw [DecodeNal_header env d nal hh]
      exact DecodeSegmentHeaderNal_defaultsSet env d _ h
    · exact DecodeNal_not_header_outputDefaults env d nal hh
  | flush => exact FlushBufferedTailPics_outputDefaults env d
  | getDecodedPicture => exact GetDecodedPicture_outputDefaults env d

theorem run_defaultsSet (env : Env) (ops : List Op) :
    ∀ d : Decoder, defaultsSet env d → outputDefaults (run env d ops) = outputDefaults d := by
  induction ops with
  | nil => intro d _; rfl
  | cons op rest ih =>
    intro d h
    have h1 := step_defaultsSet env d op h
    have h2 := ih (step env d op) (defaultsSet_congr env _ d h1 h)
    exact h2.trans h1

/-- C18. For every header handed to `DecodeSegmentHeaderNal`, whatever the parse
result: each output default that is set before the call (width, height, bit
depth not 0; chroma format, colour matrix not "undefined") is unchanged by it.
When the parse succeeds, each unset default takes the header's value; when it
fails, all five are unchanged.  Hence, once all five are set (as they are
after a successful header whose five values are non-zero or defined), they
stay constant over every later header and every other call. -/
theorem DecodeSegmentHeaderNal_output_defaults_sticky (env : Env) (d : Decoder)
    (br : BitReader) :
    ((d.output_width_ ≠ 0 →
          (DecodeSegmentHeaderNal env d br).2.output_width_ = d.output_width_) ∧
        (d.output_height_ ≠ 0 →
          (DecodeSegmentHeaderNal env d br).2.output_height_ = d.output_height_) ∧
        (d.output_bitdepth_ ≠ 0 →
          (DecodeSegmentHeaderNal env d br).2.output_bitdepth_ = d.output_bitdepth_) ∧
        (d.output_chroma_format_ ≠ env.kUndefinedChromaFormat →
          (DecodeSegmentHeaderNal env d br).2.output_chroma_format_ =
            d.output_chroma_format_) ∧
        (d.output_color_matrix_ ≠ env.kUndefinedColorMatrix →
          (DecodeSegmentHeaderNal env d br).2.output_color_matrix_ =
            d.output_color_matrix_)) ∧
      ((env.Read br (d.soc_ + 1)).1 = State.kSegmentHeaderDecoded →
        (d.output_width_ = 0 →
          (DecodeSegmentHeaderNal env d br).2.output_width_ =
            (env.Read br (d.soc_ + 1)).2.pic_width) ∧
        (d.output_height_ = 0 →
          (DecodeSegmentHeaderNal env d br).2.output_height_ =
            (env.Read br (d.soc_ + 1)).2.pic_height) ∧
        (d.output_bitdepth_ = 0 →
          (DecodeSegmentHeaderNal env d br).2.output_bitdepth_ =
            (env.Read br (d.soc_ + 1)).2.internal_bitdepth) ∧
        (d.output_chroma_format_ = env.kUndefinedChromaFormat →
          (DecodeSegmentHeaderNal env d br).2.output_chroma_format_ =
            (env.Read br (d.soc_ + 1)).2.chroma_format) ∧
        (d.output_color_matrix_ = env.kUndefinedColorMatrix →
          (DecodeSegmentHeaderNal env d br).2.output_color_matrix_ =
            (env.Read br (d.soc_ + 1)).2.color_matrix) ∧
        (((env.Read br (d.soc_ + 1)).2.pic_width ≠ 0 ∧
            (env.Read br (d.soc_ + 1)).2.pic_height ≠ 0 ∧
            (env.Read br (d.soc_ + 1)).2.internal_bitdepth ≠ 0 ∧
            (env.Read br (d.soc_ + 1)).2.chroma_format ≠ env.kUndefinedChromaFormat ∧
            (env.Read br (d.soc_ + 1)).2.color_matrix ≠ env.kUndefinedColorMatrix) →
          defaultsSet env (DecodeSegmentHeaderNal env d br).2)) ∧
      ((env.Read br (d.soc_ + 1)).1 ≠ State.kSegmentHeaderDecoded →
        outputDefaults (DecodeSegmentHeaderNal env d br).2 = outputDefaults d) ∧
      (∀ (s : Decoder) (ops : List Op), defaultsSet env s →
        outputDefaults (run env s ops) = outputDefaults s) := by
  have key := DecodeSegmentHeaderNal_outputDefaults env d br
  unfold outputDefaults at key
  refine ⟨?_, fun hok => ?_, fun hfail => ?_, fun s ops hs => run_defaultsSet env ops s hs⟩
  · by_cases hok : (env.Read br (d.soc_ + 1)).1 = State.kSegmentHeaderDecoded
    · rw [if_pos hok] at key
      simp only [Prod.mk.injEq] at key
      obtain ⟨k1, k2, k3, k4, k5⟩ := key
      refine ⟨fun h => ?_, fun h => ?_, fun h => ?_, fun h => ?_, fun h => ?_⟩
      · rw [k1, if_neg h]
      · rw [k2, if_neg h]
      · rw [k3, if_neg h]
      · rw [k4, if_neg h]
      · rw [k5, if_neg h]
    · rw [if_neg hok] at key
      simp only [Prod.mk.injEq] at key
      obtain ⟨k1, k2, k3, k4, k5⟩ := key
      exact ⟨fun _ => k1, fun _ => k2, fun _ => k3, fun _ => k4, fun _ => k5⟩
  · rw [if_pos hok] at key
    simp only [Prod.mk.injEq] at key
    obtain ⟨k1, k2, k3, k4, k5⟩ := key
    refine ⟨fun h => ?_, fun h => ?_, fun h => ?_, fun h => ?_, fun h => ?_, ?_⟩
    · rw [k1, if_pos h]
    · rw [k2, if_pos h]
    · rw [k3, if_pos h]
    · rw [k4, if_pos h]
    · rw [k5, if_pos h]
    · rintro ⟨v1, v2, v3, v4, v5⟩
      unfold defaultsSet
      rw [k1, k2, k3, k4, k5]
      refine ⟨?_, ?_, ?_, ?_, ?_⟩
      · split_ifs with h
        · exact v1
        · exact h
      · split_ifs with h
        · exact v2
        · exact h
      · split_ifs with h
        · exact v3
        · exact h
      · split_ifs with h
        · exact v4
        · exact h
      · split_ifs with h
        · exact v5
        · exact h
  · show outputDefaults (DecodeSegmentHeaderNal env d br).2 = outputDefaults d
    rw [DecodeSegmentHeaderNal_outputDefaults, if_neg hfail]

theorem DecodeSegmentHeaderNal_output_defaults_sticky_witness :
    defaultsSet sampleEnv sampleAfterH1 ∧
      outputDefaults (run sampleEnv sampleAfterH1
        [Op.decodeNal [0, 0, 9], Op.decodeNal sampleH5, Op.getDecodedPicture, Op.flush,
          Op.decodeNal sampleHopen]) = outputDefaults sampleAfterH1 :=
  ⟨by decide,
    (DecodeSegmentHeaderNal_output_defaults_sticky sampleEnv sampleAfterH1
      ⟨sampleH5, 8⟩).2.2.2 sampleAfterH1
      [Op.decodeNal [0, 0, 9], Op.decodeNal sampleH5, Op.getDecodedPicture, Op.flush,
        Op.decodeNal sampleHopen] (by decide)⟩

/-! ## C12: a header that fails to parse -/

/-- The state and the fields a failed parse leaves alone. -/
theorem DecodeSegmentHeaderNal_fail (env : Env) (d : Decoder) (br : BitReader)
    (hfail : (env.Read br (d.soc_ + 1)).1 ≠ State.kSegmentHeaderDecoded) :
    (DecodeSegmentHeaderNal env d br).1 = false ∧
      (DecodeSegmentHeaderNal env d br).2.state_ = (env.Read br (d.soc_ + 1)).1 ∧
      (DecodeSegmentHeaderNal env d br).2.sub_gop_length_ = d.sub_gop_length_ ∧
      (DecodeSegmentHeaderNal env d br).2.max_tid_ = d.max_tid_ := by
  unfold DecodeSegmentHeaderNal
  by_cases hb : d.nal_buffer_.length > toSizeT d.num_tail_pics_ <;> simp [hb, hfail]

theorem DecodeSegmentHeaderNal_state (env : Env) (d : Decoder) (br : BitReader) :
    (DecodeSegmentHeaderNal env d br).2.state_ = (env.Read br (d.soc_ + 1)).1 := by
  unfold DecodeSegmentHeaderNal
  by_cases hb : d.nal_buffer_.length > toSizeT d.num_tail_pics_ <;>
    by_cases hr : (env.Read br (d.soc_ + 1)).1 = State.kSegmentHeaderDecoded <;>
    simp [hb, hr]

theorem DecodeSegmentHeaderNal_buffer_le_tail (env : Env) (d : Decoder) (br : BitReader) :
    ¬ (DecodeSegmentHeaderNal env d br).2.nal_buffer_.length >
      toSizeT (DecodeSegmentHeaderNal env d br).2.num_tail_pics_ := by
  by_cases hb : d.nal_buffer_.length > toSizeT d.num_tail_pics_
  · obtain ⟨h1, _, h3, _⟩ := DecodeSegmentHeaderNal_discard env d br hb
    rw [h1, h3]
    simp
  · obtain ⟨h1, _, h3, _⟩ := DecodeSegmentHeaderNal_keep env d br hb
    rw [h1, h3]
    exact hb

theorem DecodeNal_not_header_rejected (env : Env) (d : Decoder) (nal : Nal)
    (hn : ¬ isHeaderNal env nal)
    (hs : d.state_ = State.kNoSegmentHeader ∨ d.state_ = State.kDecoderVersionTooLow ∨
      d.state_ = State.kBitstreamBitdepthTooHigh) :
    DecodeNal env d nal = (false, d) := by
  unfold DecodeNal
  by_cases hr : nalRfe env nal > 0
  · rw [if_pos hr]
  · have ht : ¬ nalUnitType env nal = env.kSegmentHeader :=
      fun ht => hn ⟨by omega, ht⟩
    rw [if_neg hr, if_neg ht, if_pos hs]

theorem GetDecodedPicture_gated (env : Env) (d : Decoder) (h : gated d) :
    gated (GetDecodedPicture env d).2 := by
  by_cases hr : d.enforce_sliding_window_ = true ∧ env.HasPictureReadyForOutput d = false
  · rw [GetDecodedPicture_refused env d hr]; exact h
  · cases hf : findLowestPoc d.pic_decoders_ 0 env.PicNum_max none with
    | none => rw [GetDecodedPicture_not_found env d hr hf]; exact h
    | some i =>
      cases hg : d.pic_decoders_[i]? with
      | none => rw [GetDecodedPicture_out_of_range env d i hr hf hg]; exact h
      | some pic =>
        rw [GetDecodedPicture_found env d i pic hr hf hg]
        have hc : ¬ refillCond (outputSlot d i pic) := fun hc => h.2 hc.1
        dsimp only
        rw [if_neg hc]
        exact h

theorem DecodeNal_gated (env : Env) (d : Decoder) (nal : Nal) (hg : headerOutcomesGate env)
    (h : gated d) (hfail : isHeaderNal env nal → (DecodeNal env d nal).1 = false) :
    gated (DecodeNal env d nal).2 := by
  by_cases hh : isHeaderNal env nal
  · have hf := hfail hh
    rw [DecodeNal_header env d nal hh] at hf ⊢
    have hne : (env.Read (ReadBits env ⟨nal, 0⟩ 8).2 (d.soc_ + 1)).1 ≠
        State.kSegmentHeaderDecoded := by
      intro hok
      rw [(DecodeSegmentHeaderNal_ok_iff env d _).2 hok] at hf
      exact Bool.noConfusion hf
    refine ⟨?_, DecodeSegmentHeaderNal_buffer_le_tail env d _⟩
    rw [DecodeSegmentHeaderNal_state]
    rcases hg (ReadBits env ⟨nal, 0⟩ 8).2 (d.soc_ + 1) with e | e
    · exact absurd e hne
    · exact e
  · rw [DecodeNal_not_header_rejected env d nal hh h.1]
    exact h

theorem FlushBufferedTailPics_gated (env : Env) (d : Decoder) (h : gated d)
    (hno : ¬ (¬ d.nal_buffer_.length > toSizeT d.num_tail_pics_ ∧ d.nal_buffer_ ≠ [] ∧
      d.curr_segment_header_.open_gop = false)) :
    gated (FlushBufferedTailPics env d) := by
  have hd := h.2
  by_cases he : d.nal_buffer_ = []
  · rw [FlushBufferedTailPics_empty env d hd he]
    exact h
  · cases ho : d.curr_segment_header_.open_gop with
    | true =>
      rw [FlushBufferedTailPics_open env d hd he ho]
      refine ⟨h.1, ?_⟩
      show ¬ ([] : List Nal).length > toSizeT d.num_tail_pics_
      simp
    | false => exact absurd ⟨hd, he, ho⟩ hno

/-- In a gated session, as long as no flush decodes buffered units and no header
unit parses successfully, every non-header unit is rejected. -/
theorem unitsRejected_of_gated (env : Env) (hg : headerOutcomesGate env) (ops : List Op) :
    ∀ d : Decoder, gated d → noFlushDecode env d ops → headersFail env d ops →
      unitsRejected env d ops := by
  induction ops with
  | nil => intro d _ _ _; trivial
  | cons op rest ih =>
    intro d hd hnf hhf
    cases op with
    | decodeNal nal =>
      obtain ⟨h1, h2⟩ := hhf
      exact ⟨fun hn => DecodeNal_not_header_rejected env d nal hn hd.1,
        ih _ (DecodeNal_gated env d nal hg hd h1) hnf h2⟩
    | flush =>
      exact ih _ (FlushBufferedTailPics_gated env d hd hnf.1) hnf.2 hhf
    | getDecodedPicture =>
      exact ih _ (GetDecodedPicture_gated env d hd) hnf hhf

theorem DecodeSegmentHeaderNal_fail_curr_header (env : Env) (d : Decoder) (br : BitReader)
    (hfail : (env.Read br (d.soc_ + 1)).1 ≠ State.kSegmentHeaderDecoded) :
    (DecodeSegmentHeaderNal env d br).2.curr_segment_header_ = (env.Read br (d.soc_ + 1)).2 := by
  unfold DecodeSegmentHeaderNal
  by_cases hb : d.nal_buffer_.length > toSizeT d.num_tail_pics_ <;> simp [hb, hfail]

theorem foldl_DecodeOneBufferedNal_acceptsPictures (env : Env) (nals : List Nal) :
    ∀ d : Decoder, (nals ≠ [] ∨ acceptsPictures d) →
      acceptsPictures (nals.foldl (DecodeOneBufferedNal env) d) := by
  induction nals with
  | nil =>
    intro d h
    rcases h with h | h
    · exact absurd rfl h
    · exact h
  | cons n rest ih =>
    intro d _
    rw [List.foldl_cons]
    exact ih _ (Or.inr (DecodeOneBufferedNal_acceptsPictures env d n))

/-- C12, the code at the failing input. A session holds buffered tail units that
a header will keep (the buffer is non-empty and holds no more units than
`num_tail_pics_`).  A header unit arrives whose parse reports
`kDecoderVersionTooLow` or `kBitstreamBitdepthTooHigh` and leaves the `open_gop`
flag of the new header object `false`.  `DecodeSegmentHeaderNal` returns `false`
and the session rejects non-header units.  A call of `FlushBufferedTailPics`
then takes its closed-GOP branch: it decodes every buffered unit, in this
state, and the decode step overwrites `state_`.  From then on picture units are
let through although no header unit has parsed successfully: `DecodeNal`
returns `true` for every picture unit, and counts and inserts the ones that
pass the temporal-layer gate. -/
theorem flush_lifts_version_gate (env : Env) (d : Decoder) (br : BitReader)
    (hres : (env.Read br (d.soc_ + 1)).1 = State.kDecoderVersionTooLow ∨
      (env.Read br (d.soc_ + 1)).1 = State.kBitstreamBitdepthTooHigh)
    (hclosed : (env.Read br (d.soc_ + 1)).2.open_gop = false)
    (hne : d.nal_buffer_ ≠ [])
    (hkeep : ¬ d.nal_buffer_.length > toSizeT d.num_tail_pics_) :
    (DecodeSegmentHeaderNal env d br).1 = false ∧
      (DecodeSegmentHeaderNal env d br).2.state_ = (env.Read br (d.soc_ + 1)).1 ∧
      (∀ nal, ¬ isHeaderNal env nal →
        DecodeNal env (DecodeSegmentHeaderNal env d br).2 nal =
          (false, (DecodeSegmentHeaderNal env d br).2)) ∧
      (FlushBufferedTailPics env (DecodeSegmentHeaderNal env d br).2).decode_log =
        d.decode_log ++ d.nal_buffer_ ∧
      acceptsPictures (FlushBufferedTailPics env (DecodeSegmentHeaderNal env d br).2) ∧
      ∀ nal, isPictureNal env nal →
        (DecodeNal env
          (FlushBufferedTailPics env (DecodeSegmentHeaderNal env d br).2) nal).1 = true ∧
        (accepted env (FlushBufferedTailPics env (DecodeSegmentHeaderNal env d br).2) nal →
          (DecodeNal env
            (FlushBufferedTailPics env
              (DecodeSegmentHeaderNal env d br).2) nal).2.num_pics_in_buffer_ =
            inc32 (FlushBufferedTailPics env
              (DecodeSegmentHeaderNal env d br).2).num_pics_in_buffer_) := by
  have hfail : (env.Read br (d.soc_ + 1)).1 ≠ State.kSegmentHeaderDecoded := by
    rcases hres with h | h <;> rw [h] <;> exact fun hc => State.noConfusion hc
  obtain ⟨f1, f2, _, _⟩ := DecodeSegmentHeaderNal_fail env d br hfail
  obtain ⟨k1, _, k3, k4⟩ := DecodeSegmentHeaderNal_keep env d br hkeep
  have hcurr := DecodeSegmentHeaderNal_fail_curr_header env d br hfail
  have hne1 : (DecodeSegmentHeaderNal env d br).2.nal_buffer_ ≠ [] := by rw [k1]; exact hne
  have hkeep1 : ¬ (DecodeSegmentHeaderNal env d br).2.nal_buffer_.length >
      toSizeT (DecodeSegmentHeaderNal env d br).2.num_tail_pics_ := by
    rw [k1, k3]; exact hkeep
  have hclosed1 : (DecodeSegmentHeaderNal env d br).2.curr_segment_header_.open_gop = false := by
    rw [hcurr]; exact hclosed
  have hflush := FlushBufferedTailPics_closed env _ hkeep1 hne1 hclosed1
  have hgate : (DecodeSegmentHeaderNal env d br).2.state_ = State.kNoSegmentHeader ∨
      (DecodeSegmentHeaderNal env d br).2.state_ = State.kDecoderVersionTooLow ∨
      (DecodeSegmentHeaderNal env d br).2.state_ = State.kBitstreamBitdepthTooHigh := by
    rw [f2]; exact Or.inr hres
  have hacc : acceptsPictures
      (FlushBufferedTailPics env (DecodeSegmentHeaderNal env d br).2) := by
    rw [hflush]
    exact foldl_DecodeOneBufferedNal_acceptsPictures env _ _ (Or.inl hne1)
  refine ⟨f1, f2, fun nal hn => DecodeNal_not_header_rejected env _ nal hn hgate, ?_, hacc, ?_⟩
  · rw [hflush]
    obtain ⟨_, _, _, _, _, h6⟩ := foldl_DecodeOneBufferedNal_frame env
      (DecodeSegmentHeaderNal env d br).2.nal_buffer_
      { (DecodeSegmentHeaderNal env d br).2 with
        enforce_sliding_window_ := false
        soc_ := (DecodeSegmentHeaderNal env d br).2.soc_ + 1
        prev_segment_header_ := (DecodeSegmentHeaderNal env d br).2.curr_segment_header_
        doc_ := (DecodeSegmentHeaderNal env d br).2.doc_ + 1
        sub_gop_start_poc_ := (DecodeSegmentHeaderNal env d br).2.sub_gop_end_poc_
        sub_gop_end_poc_ := (DecodeSegmentHeaderNal env d br).2.sub_gop_end_poc_ +
          (DecodeSegmentHeaderNal env d br).2.sub_gop_length_ }
    show (List.foldl (DecodeOneBufferedNal env) _
      (DecodeSegmentHeaderNal env d br).2.nal_buffer_).decode_log = _
    rw [h6]
    show (DecodeSegmentHeaderNal env d br).2.decode_log ++
      (DecodeSegmentHeaderNal env d br).2.nal_buffer_ = _
    rw [k4, k1]
  · intro nal hpic
    have hp := DecodeNal_picture env _ nal hacc hpic
    constructor
    · rw [hp]; split_ifs <;> rfl
    · intro ha
      have hnot : ¬ nalTid env nal >
          gatedMaxTid env (FlushBufferedTailPics env (DecodeSegmentHeaderNal env d br).2) nal :=
        ha
      rw [if_neg hnot] at hp
      rw [hp]
      split_ifs
      · rfl
      · show (drainLoop env _ (insertNal env _ nal)).num_pics_in_buffer_ = _
        rw [drainLoop_num_pics]; rfl

set_option maxRecDepth 8000 in
theorem flush_lifts_version_gate_witness :
    (sampleEnv.Read ⟨sampleHlow, 8⟩
          ((feed sampleEnv sampleInit [sampleH1, [0, 128, 3]]).soc_ + 1)).1 =
        State.kDecoderVersionTooLow ∧
      (feed sampleEnv sampleInit [sampleH1, [0, 128, 3]]).nal_buffer_ = [[0, 128, 3]] ∧
      (FlushBufferedTailPics sampleEnv
          (DecodeSegmentHeaderNal sampleEnv (feed sampleEnv sampleInit [sampleH1, [0, 128, 3]])
            ⟨sampleHlow, 8⟩).2).decode_log = [[0, 128, 3]] ∧
      (DecodeNal sampleEnv
          (FlushBufferedTailPics sampleEnv
            (DecodeSegmentHeaderNal sampleEnv
              (feed sampleEnv sampleInit [sampleH1, [0, 128, 3]]) ⟨sampleHlow, 8⟩).2)
          [0, 0, 5]).1 = true :=
  ⟨by decide, by decide,
    (flush_lifts_version_gate sampleEnv (feed sampleEnv sampleInit [sampleH1, [0, 128, 3]])
      ⟨sampleHlow, 8⟩ (Or.inl (by decide)) (by decide) (by decide) (by decide)).2.2.2.1,
    ((flush_lifts_version_gate sampleEnv (feed sampleEnv sampleInit [sampleH1, [0, 128, 3]])
      ⟨sampleHlow, 8⟩ (Or.inl (by decide)) (by decide) (by decide)
      (by decide)).2.2.2.2.2 [0, 0, 5] (by decide)).1⟩

/-- What a failed header parse leaves, and how far the gate holds.  When
`SegmentHeaderReader::Read` reports any state other than
`kSegmentHeaderDecoded`, `DecodeSegmentHeaderNal` returns `false`, the session
state is that parse result, and `sub_gop_length_`, `sliding_window_length_`,
`pic_buffering_num_`, the five output defaults and `max_tid_` are what they
were before the call.  If the result is `kDecoderVersionTooLow` or
`kBitstreamBitdepthTooHigh` (and parses yield header outcomes only), then over
every following sequence of `DecodeNal`, `GetDecodedPicture` and
`FlushBufferedTailPics` calls in which no header unit parses successfully and
no flush decodes buffered units, every non-header unit is rejected. -/
theorem failed_header_gates_units (env : Env) (d : Decoder) (br : BitReader)
    (hfail : (env.Read br (d.soc_ + 1)).1 ≠ State.kSegmentHeaderDecoded) :
    (DecodeSegmentHeaderNal env d br).1 = false ∧
      (DecodeSegmentHeaderNal env d br).2.state_ = (env.Read br (d.soc_ + 1)).1 ∧
      (DecodeSegmentHeaderNal env d br).2.sub_gop_length_ = d.sub_gop_length_ ∧
      (DecodeSegmentHeaderNal env d br).2.sliding_window_length_ = d.sliding_window_length_ ∧
      (DecodeSegmentHeaderNal env d br).2.pic_buffering_num_ = d.pic_buffering_num_ ∧
      outputDefaults (DecodeSegmentHeaderNal env d br).2 = outputDefaults d ∧
      (DecodeSegmentHeaderNal env d br).2.max_tid_ = d.max_tid_ ∧
      (((env.Read br (d.soc_ + 1)).1 = State.kDecoderVersionTooLow ∨
          (env.Read br (d.soc_ + 1)).1 = State.kBitstreamBitdepthTooHigh) →
        headerOutcomesGate env →
        ∀ ops : List Op, noFlushDecode env (DecodeSegmentHeaderNal env d br).2 ops →
          headersFail env (DecodeSegmentHeaderNal env d br).2 ops →
          unitsRejected env (DecodeSegmentHeaderNal env d br).2 ops) := by
  obtain ⟨f1, f2, f3, f4⟩ := DecodeSegmentHeaderNal_fail env d br hfail
  have hpt := DecodeSegmentHeaderNal_fail_poolTarget env d br f1
  have hod : outputDefaults (DecodeSegmentHeaderNal env d br).2 = outputDefaults d := by
    rw [DecodeSegmentHeaderNal_outputDefaults, if_neg hfail]
  refine ⟨f1, f2, f3, congrArg Prod.fst hpt, congrArg Prod.snd hpt, hod, f4, ?_⟩
  intro hres hg ops hnf hhf
  apply unitsRejected_of_gated env hg ops _ _ hnf hhf
  refine ⟨?_, DecodeSegmentHeaderNal_buffer_le_tail env d br⟩
  rw [f2]
  exact Or.inr hres

theorem sampleEnv_headerOutcomesGate : headerOutcomesGate sampleEnv := by
  intro br soc
  show sampleParse br.data = _ ∨ sampleParse br.data = _ ∨ sampleParse br.data = _ ∨
    sampleParse br.data = _
  unfold sampleParse
  split_ifs <;> simp

/-! ## C17: tail units, then other units, then a flush -/

theorem sampleEnv_docIsHanded : docIsHanded sampleEnv := by
  intro d nal
  rfl

theorem DecodeOneBufferedNal_doc (env : Env) (hdoc : docIsHanded env) (d : Decoder)
    (nal : Nal) : (DecodeOneBufferedNal env d nal).doc_ = d.doc_ + 1 := by
  show (payloadStep env d nal).2.pic_data.doc + 1 = d.doc_ + 1
  rw [hdoc d nal]

theorem foldl_DecodeOneBufferedNal_doc (env : Env) (hdoc : docIsHanded env)
    (nals : List Nal) :
    ∀ d : Decoder, (nals.foldl (DecodeOneBufferedNal env) d).doc_ = d.doc_ + nals.length := by
  induction nals with
  | nil => intro d; rfl
  | cons n rest ih =>
    intro d
    rw [List.foldl_cons, ih, DecodeOneBufferedNal_doc env hdoc]
    simp only [List.length_cons]
    omega

theorem drainStep_doc_log (env : Env) (hdoc : docIsHanded env) (d : Decoder) :
    (drainStep env d).doc_ + d.decode_log.length =
      d.doc_ + (drainStep env d).decode_log.length := by
  cases h : d.nal_buffer_ with
  | nil => rw [drainStep_nil env d h]
  | cons nal rest =>
    rw [drainStep_cons env d nal rest h]
    show (DecodeOneBufferedNal env d nal).doc_ + d.decode_log.length =
      d.doc_ + (DecodeOneBufferedNal env d nal).decode_log.length
    rw [DecodeOneBufferedNal_doc env hdoc, DecodeOneBufferedNal_decode_log]
    simp only [List.length_append, List.length_singleton]
    omega

theorem drainLoop_doc_log (env : Env) (hdoc : docIsHanded env) (fuel : Nat) (d : Decoder) :
    (drainLoop env fuel d).doc_ + d.decode_log.length =
      d.doc_ + (drainLoop env fuel d).decode_log.length :=
  drainLoop_preserves env
    (fun x => x.doc_ + d.decode_log.length = d.doc_ + x.decode_log.length)
    (fun x _ hx => by
      have := drainStep_doc_log env hdoc x
      show (drainStep env x).doc_ + d.decode_log.length =
        d.doc_ + (drainStep env x).decode_log.length
      have hx2 : x.doc_ + d.decode_log.length = d.doc_ + x.decode_log.length := hx
      omega) fuel d rfl

theorem drainStep_curr_header (env : Env) (d : Decoder) :
    (drainStep env d).curr_segment_header_ = d.curr_segment_header_ := by
  cases h : d.nal_buffer_ with
  | nil => rw [drainStep_nil env d h]
  | cons nal rest => rw [drainStep_cons env d nal rest h]; rfl

theorem drainLoop_curr_header (env : Env) (fuel : Nat) (d : Decoder) :
    (drainLoop env fuel d).curr_segment_header_ = d.curr_segment_header_ :=
  drainLoop_preserves env (fun x => x.curr_segment_header_ = d.curr_segment_header_)
    (fun x _ hx => (drainStep_curr_header env x).trans hx) fuel d rfl

/-- One accepted picture unit: the units decoded by the call, together with the
buffer it leaves, are the old buffer and the unit; `doc_` grows by the number
of units decoded. -/
theorem DecodeNal_accepted_accounting (env : Env) (hdoc : docIsHanded env) (d : Decoder)
    (nal : Nal) (hd : acceptsPictures d) (hpic : isPictureNal env nal)
    (hacc : accepted env d nal) :
    acceptsPictures (DecodeNal env d nal).2 ∧
      (DecodeNal env d nal).2.curr_segment_header_ = d.curr_segment_header_ ∧
      ∃ dec : List Nal,
        (DecodeNal env d nal).2.decode_log = d.decode_log ++ dec ∧
          List.Perm (dec ++ (DecodeNal env d nal).2.nal_buffer_) (d.nal_buffer_ ++ [nal]) ∧
          (DecodeNal env d nal).2.doc_ = d.doc_ + dec.length := by
  have hres := DecodeNal_picture env d nal hd hpic
  have hnot : ¬ nalTid env nal > gatedMaxTid env d nal := hacc
  rw [if_neg hnot] at hres
  by_cases hf : nalBufferFlag env nal ≠ 0
  · rw [if_pos hf] at hres
    rw [hres]
    refine ⟨hd, rfl, [], by rw [List.append_nil]; rfl, ?_, rfl⟩
    have hcond : ¬ (nalBufferFlag env nal = 0 ∧ d.num_tail_pics_ > 0) := fun h => hf h.1
    show List.Perm ([] ++ (insertNal env d nal).nal_buffer_) (d.nal_buffer_ ++ [nal])
    simp only [insertNal, List.nil_append]
    rw [if_neg hcond]
  · rw [if_neg hf] at hres
    rw [hres]
    obtain ⟨k, _, _, hbuf, hlog, _⟩ :=
      drainLoop_trace env (insertNal env d nal).nal_buffer_.length (insertNal env d nal)
    have hdl := drainLoop_doc_log env hdoc (insertNal env d nal).nal_buffer_.length
      (insertNal env d nal)
    have hins : List.Perm (insertNal env d nal).nal_buffer_ (d.nal_buffer_ ++ [nal]) := by
      simp only [insertNal]
      split_ifs
      · exact (List.perm_append_singleton nal d.nal_buffer_).symm
      · exact List.Perm.refl _
    refine ⟨drainLoop_acceptsPictures env _ _ hd, ?_, ?_⟩
    · rw [drainLoop_curr_header]; rfl
    · refine ⟨(insertNal env d nal).nal_buffer_.take k, hlog, ?_, ?_⟩
      · show List.Perm (_ ++ (drainLoop env _ (insertNal env d nal)).nal_buffer_) _
        rw [hbuf, List.take_append_drop]
        exact hins
      · show (drainLoop env _ (insertNal env d nal)).doc_ = d.doc_ + _
        rw [hlog] at hdl
        have e1 : (insertNal env d nal).decode_log = d.decode_log := rfl
        have e2 : (insertNal env d nal).doc_ = d.doc_ := rfl
        rw [e1, e2] at hdl
        simp only [List.length_append] at hdl
        omega

/-- A run of accepted picture units: the units decoded along the way, together
with the buffer at the end, are a rearrangement of the old buffer and the
units fed; `doc_` grows by the number of units decoded. -/
theorem feed_accepted_accounting (env : Env) (hdoc : docIsHanded env) (nals : List Nal) :
    ∀ d : Decoder, acceptsPictures d → acceptedRun env d nals →
      acceptsPictures (feed env d nals) ∧
        (feed env d nals).curr_segment_header_ = d.curr_segment_header_ ∧
        ∃ dec : List Nal,
          (feed env d nals).decode_log = d.decode_log ++ dec ∧
            List.Perm (dec ++ (feed env d nals).nal_buffer_) (d.nal_buffer_ ++ nals) ∧
            (feed env d nals).doc_ = d.doc_ + dec.length := by
  induction nals with
  | nil =>
    intro d hd _
    exact ⟨hd, rfl, [], by simp [feed], by simp [feed], rfl⟩
  | cons n rest ih =>
    intro d hd hrun
    obtain ⟨hp, ha, hrest⟩ := hrun
    obtain ⟨a1, a2, dec1, l1, p1, d1⟩ := DecodeNal_accepted_accounting env hdoc d n hd hp ha
    obtain ⟨b1, b2, dec2, l2, p2, d2⟩ := ih (DecodeNal env d n).2 a1 hrest
    have hfeed : feed env d (n :: rest) = feed env (DecodeNal env d n).2 rest := rfl
    rw [hfeed]
    refine ⟨b1, b2.trans a2, dec1 ++ dec2, ?_, ?_, ?_⟩
    · rw [l2, l1, List.append_assoc]
    · have s1 : List.Perm (dec1 ++ dec2 ++ (feed env (DecodeNal env d n).2 rest).nal_buffer_)
          (dec1 ++ ((DecodeNal env d n).2.nal_buffer_ ++ rest)) := by
        rw [List.append_assoc]
        exact List.Perm.append_left dec1 p2
      have s2 : List.Perm (dec1 ++ ((DecodeNal env d n).2.nal_buffer_ ++ rest))
          (d.nal_buffer_ ++ [n] ++ rest) := by
        rw [← List.append_assoc]
        exact List.Perm.append_right rest p1
      have s3 : d.nal_buffer_ ++ [n] ++ rest = d.nal_buffer_ ++ n :: rest := by simp
      rw [← s3]
      exact s1.trans s2
    · rw [d2, d1, List.length_append]
      omega

/-- What `DecodeNal` leaves after an accepted picture unit whose buffer flag is
set, field by field. -/
theorem DecodeNal_tail_unit_fields (env : Env) (d : Decoder) (nal : Nal)
    (hd : acceptsPictures d) (hpic : isPictureNal env nal) (hacc : accepted env d nal)
    (hflag : nalBufferFlag env nal ≠ 0) :
    acceptsPictures (DecodeNal env d nal).2 ∧
      (DecodeNal env d nal).2.nal_buffer_ = d.nal_buffer_ ++ [nal] ∧
      (DecodeNal env d nal).2.num_tail_pics_ = d.num_tail_pics_ + 1 ∧
      (DecodeNal env d nal).2.decode_log = d.decode_log ∧
      (DecodeNal env d nal).2.doc_ = d.doc_ ∧
      (DecodeNal env d nal).2.curr_segment_header_ = d.curr_segment_header_ ∧
      (DecodeNal env d nal).2.num_pics_in_buffer_ = inc32 d.num_pics_in_buffer_ := by
  have hres := DecodeNal_picture env d nal hd hpic
  have hnot : ¬ nalTid env nal > gatedMaxTid env d nal := hacc
  rw [if_neg hnot, if_pos hflag] at hres
  rw [hres]
  refine ⟨hd, ?_, rfl, rfl, rfl, rfl, rfl⟩
  show (insertNal env d nal).nal_buffer_ = d.nal_buffer_ ++ [nal]
  have hcond : ¬ (nalBufferFlag env nal = 0 ∧ d.num_tail_pics_ > 0) := fun h => hflag h.1
  simp only [insertNal]
  rw [if_neg hcond]

/-- A run of accepted tail units is appended to the buffer; nothing is
decoded. -/
theorem feed_tail_units (env : Env) (tails : List Nal) :
    ∀ d : Decoder, acceptsPictures d → (∀ n ∈ tails, nalBufferFlag env n ≠ 0) →
      acceptedRun env d tails →
      (feed env d tails).nal_buffer_ = d.nal_buffer_ ++ tails ∧
        (feed env d tails).num_tail_pics_ = d.num_tail_pics_ + tails.length ∧
        (feed env d tails).decode_log = d.decode_log ∧
        (feed env d tails).doc_ = d.doc_ ∧
        (feed env d tails).curr_segment_header_ = d.curr_segment_header_ := by
  induction tails with
  | nil => intro d _ _ _; simp [feed]
  | cons n rest ih =>
    intro d hd hfl hrun
    obtain ⟨hp, ha, hrest⟩ := hrun
    obtain ⟨a1, a2, a3, a4, a5, a6, _⟩ :=
      DecodeNal_tail_unit_fields env d n hd hp ha (hfl n (List.mem_cons_self _ _))
    obtain ⟨b1, b2, b3, b4, b5⟩ :=
      ih (DecodeNal env d n).2 a1 (fun m hm => hfl m (List.mem_cons_of_mem _ hm)) hrest
    have hfeed : feed env d (n :: rest) = feed env (DecodeNal env d n).2 rest := rfl
    rw [hfeed, b1, b2, b3, b4, b5, a2, a3, a4, a5, a6]
    refine ⟨by simp, ?_, rfl, rfl, rfl⟩
    simp only [List.length_cons, Nat.cast_add, Nat.cast_one]
    omega

set_option maxRecDepth 8000 in
/-- C17, counterexample. With `N = 1` and `M = 1` after the closed-GOP header
`sampleH1` (empty buffer, target pool size 7): the tail unit is buffered, the
unit with the flag clear is put in front of it and the drain loop decodes both
on the spot.  The flush finds the buffer empty and steps over nothing, so
`doc_` ends 2 higher, not 3, although each picture's DOC is the counter value
handed to its header decode. -/
theorem flush_after_full_drain_adds_no_doc :
    docIsHanded sampleEnv ∧
      (acceptsPictures sampleAfterH1 ∧
        sampleAfterH1.curr_segment_header_.open_gop = false ∧
        sampleAfterH1.nal_buffer_ = [] ∧
        nalBufferFlag sampleEnv [0, 128, 3] ≠ 0 ∧ nalBufferFlag sampleEnv [0, 0, 5] = 0 ∧
        acceptedRun sampleEnv sampleAfterH1 ([[0, 128, 3]] ++ [[0, 0, 5]]) ∧
        (FlushBufferedTailPics sampleEnv
          (feed sampleEnv sampleAfterH1 ([[0, 128, 3]] ++ [[0, 0, 5]]))).nal_buffer_ = [] ∧
        (FlushBufferedTailPics sampleEnv
          (feed sampleEnv sampleAfterH1 ([[0, 128, 3]] ++ [[0, 0, 5]]))).decode_log =
          sampleAfterH1.decode_log ++ [[0, 0, 5], [0, 128, 3]] ∧
        (FlushBufferedTailPics sampleEnv
          (feed sampleEnv sampleAfterH1 ([[0, 128, 3]] ++ [[0, 0, 5]]))).doc_ =
          sampleAfterH1.doc_ + 2 ∧
        ¬ (FlushBufferedTailPics sampleEnv
          (feed sampleEnv sampleAfterH1 ([[0, 128, 3]] ++ [[0, 0, 5]]))).doc_ =
          sampleAfterH1.doc_ + (1 + 1 + 1)) :=
  ⟨sampleEnv_docIsHanded, by decide⟩

/-- C17, amended. Start just after a successfully decoded closed-GOP header,
with an empty reorder buffer, and take each decoded picture's DOC to be the
counter value handed to its header decode.  Feed `N` accepted picture units
with the buffer flag set (`tails`), then `M` further accepted picture units
(`others`), then call `FlushBufferedTailPics`.

* If at the flush the buffer holds more units than `num_tail_pics_`, the flush
  is deferred: it changes nothing and the buffered units stay undecoded.
* Otherwise all `N + M` units have been decoded, each once (the decode log has
  grown by a rearrangement of them), the buffer is empty, and `doc_` is
  `N + M + 1` higher if a unit was still buffered at the flush, and `N + M`
  higher if all had been decoded on arrival.
* For `M = 0` and `N ≥ 1` (no tail picture pending at the start) the flush is
  never deferred: the `N` units are decoded in arrival order and `doc_` is
  `N + 1` higher. -/
theorem tails_then_units_then_flush (env : Env) (hdoc : docIsHanded env) (d : Decoder)
    (tails others : List Nal) (hd : acceptsPictures d)
    (hclosed : d.curr_segment_header_.open_gop = false) (hbuf : d.nal_buffer_ = [])
    (htails : ∀ n ∈ tails, nalBufferFlag env n ≠ 0)
    (hrun : acceptedRun env d (tails ++ others)) :
    ((feed env d (tails ++ others)).nal_buffer_.length >
          toSizeT (feed env d (tails ++ others)).num_tail_pics_ →
        FlushBufferedTailPics env (feed env d (tails ++ others)) =
          feed env d (tails ++ others)) ∧
      (¬ (feed env d (tails ++ others)).nal_buffer_.length >
          toSizeT (feed env d (tails ++ others)).num_tail_pics_ →
        ∃ dec : List Nal,
          (FlushBufferedTailPics env (feed env d (tails ++ others))).decode_log =
              d.decode_log ++ dec ∧
            List.Perm dec (tails ++ others) ∧
            (FlushBufferedTailPics env (feed env d (tails ++ others))).nal_buffer_ = [] ∧
            ((feed env d (tails ++ others)).nal_buffer_ ≠ [] →
              (FlushBufferedTailPics env (feed env d (tails ++ others))).doc_ =
                d.doc_ + (tails.length + others.length) + 1) ∧
            ((feed env d (tails ++ others)).nal_buffer_ = [] →
              (FlushBufferedTailPics env (feed env d (tails ++ others))).doc_ =
                d.doc_ + (tails.length + others.length))) ∧
      (others = [] → tails ≠ [] → d.num_tail_pics_ = 0 → tails.length < 2 ^ 64 →
        (FlushBufferedTailPics env (feed env d (tails ++ others))).decode_log =
            d.decode_log ++ tails ∧
          (FlushBufferedTailPics env (feed env d (tails ++ others))).nal_buffer_ = [] ∧
          (FlushBufferedTailPics env (feed env d (tails ++ others))).doc_ =
            d.doc_ + tails.length + 1) := by
  refine ⟨fun h => FlushBufferedTailPics_deferred env _ h, fun hnd => ?_, ?_⟩
  · obtain ⟨_, hcurr, dec0, hlog, hperm, hdocs⟩ :=
      feed_accepted_accounting env hdoc (tails ++ others) d hd hrun
    rw [hbuf, List.nil_append] at hperm
    have hlen := hperm.length_eq
    simp only [List.length_append] at hlen
    by_cases he : (feed env d (tails ++ others)).nal_buffer_ = []
    · rw [FlushBufferedTailPics_empty env _ hnd he]
      refine ⟨dec0, hlog, ?_, he, fun hne => absurd he hne, fun _ => ?_⟩
      · rw [he, List.append_nil] at hperm
        exact hperm
      · show (feed env d (tails ++ others)).doc_ = _
        rw [he] at hlen
        simp only [List.length_nil] at hlen
        rw [hdocs]
        omega
    · have hc : (feed env d (tails ++ others)).curr_segment_header_.open_gop = false := by
        rw [hcurr]; exact hclosed
      rw [FlushBufferedTailPics_closed env _ hnd he hc]
      obtain ⟨_, _, _, _, _, f6⟩ := foldl_DecodeOneBufferedNal_frame env
        (feed env d (tails ++ others)).nal_buffer_
        { feed env d (tails ++ others) with
          enforce_sliding_window_ := false
          soc_ := (feed env d (tails ++ others)).soc_ + 1
          prev_segment_header_ := (feed env d (tails ++ others)).curr_segment_header_
          doc_ := (feed env d (tails ++ others)).doc_ + 1
          sub_gop_start_poc_ := (feed env d (tails ++ others)).sub_gop_end_poc_
          sub_gop_end_poc_ := (feed env d (tails ++ others)).sub_gop_end_poc_ +
            (feed env d (tails ++ others)).sub_gop_length_ }
      have fdoc := foldl_DecodeOneBufferedNal_doc env hdoc
        (feed env d (tails ++ others)).nal_buffer_
        { feed env d (tails ++ others) with
          enforce_sliding_window_ := false
          soc_ := (feed env d (tails ++ others)).soc_ + 1
          prev_segment_header_ := (feed env d (tails ++ others)).curr_segment_header_
          doc_ := (feed env d (tails ++ others)).doc_ + 1
          sub_gop_start_poc_ := (feed env d (tails ++ others)).sub_gop_end_poc_
          sub_gop_end_poc_ := (feed env d (tails ++ others)).sub_gop_end_poc_ +
            (feed env d (tails ++ others)).sub_gop_length_ }
      refine ⟨dec0 ++ (feed env d (tails ++ others)).nal_buffer_, ?_, hperm, rfl,
        fun _ => ?_, fun h => absurd h he⟩
      · refine f6.trans ?_
        show (feed env d (tails ++ others)).decode_log ++ _ = _
        rw [hlog, List.append_assoc]
      · refine fdoc.trans ?_
        show (feed env d (tails ++ others)).doc_ + 1 + _ = _
        rw [hdocs]
        omega
  · intro ho hne h0 h64
    subst ho
    rw [List.append_nil] at hrun ⊢
    obtain ⟨t1, t2, t3, t4, t5⟩ := feed_tail_units env tails d hd htails hrun
    rw [hbuf, List.nil_append] at t1
    rw [h0, Int.zero_add] at t2
    have hcast : (toSizeT (tails.length : Int) : Int) = (tails.length : Int) :=
      toSizeT_of_nonneg _ (by omega) (by omega)
    have hnd : ¬ (feed env d tails).nal_buffer_.length >
        toSizeT (feed env d tails).num_tail_pics_ := by
      rw [t1, t2]
      omega
    have he : (feed env d tails).nal_buffer_ ≠ [] := by rw [t1]; exact hne
    have hc : (feed env d tails).curr_segment_header_.open_gop = false := by
      rw [t5]; exact hclosed
    rw [FlushBufferedTailPics_closed env _ hnd he hc]
    obtain ⟨_, _, _, _, _, f6⟩ := foldl_DecodeOneBufferedNal_frame env
      (feed env d tails).nal_buffer_
      { feed env d tails with
        enforce_sliding_window_ := false
        soc_ := (feed env d tails).soc_ + 1
        prev_segment_header_ := (feed env d tails).curr_segment_header_
        doc_ := (feed env d tails).doc_ + 1
        sub_gop_start_poc_ := (feed env d tails).sub_gop_end_poc_
        sub_gop_end_poc_ := (feed env d tails).sub_gop_end_poc_ +
          (feed env d tails).sub_gop_length_ }
    have fdoc := foldl_DecodeOneBufferedNal_doc env hdoc
      (feed env d tails).nal_buffer_
      { feed env d tails with
        enforce_sliding_window_ := false
        soc_ := (feed env d tails).soc_ + 1
        prev_segment_header_ := (feed env d tails).curr_segment_header_
        doc_ := (feed env d tails).doc_ + 1
        sub_gop_start_poc_ := (feed env d tails).sub_gop_end_poc_
        sub_gop_end_poc_ := (feed env d tails).sub_gop_end_poc_ +
          (feed env d tails).sub_gop_length_ }
    refine ⟨?_, rfl, ?_⟩
    · refine f6.trans ?_
      show (feed env d tails).decode_log ++ (feed env d tails).nal_buffer_ = _
      rw [t3, t1]
    · refine fdoc.trans ?_
      show (feed env d tails).doc_ + 1 + (feed env d tails).nal_buffer_.length = _
      rw [t4, t1]
      omega

theorem tails_then_units_then_flush_witness :
    acceptsPictures sampleAfterH1 ∧ sampleAfterH1.curr_segment_header_.open_gop = false ∧
      sampleAfterH1.nal_buffer_ = [] ∧
      (∀ n ∈ [[0, 128, 3], [0, 128, 5]], nalBufferFlag sampleEnv n ≠ 0) ∧
      acceptedRun sampleEnv sampleAfterH1 ([[0, 128, 3], [0, 128, 5]] ++ []) ∧
      (FlushBufferedTailPics sampleEnv
        (feed sampleEnv sampleAfterH1 ([[0, 128, 3], [0, 128, 5]] ++ []))).decode_log =
        sampleAfterH1.decode_log ++ [[0, 128, 3], [0, 128, 5]] ∧
      (FlushBufferedTailPics sampleEnv
        (feed sampleEnv sampleAfterH1 ([[0, 128, 3], [0, 128, 5]] ++ []))).doc_ =
        sampleAfterH1.doc_ + [[0, 128, 3], [0, 128, 5]].length + 1 :=
  ⟨by decide, by decide, by decide, by decide, by decide,
    ((tails_then_units_then_flush sampleEnv sampleEnv_docIsHanded sampleAfterH1
      [[0, 128, 3], [0, 128, 5]] [] (by decide) (by decide) (by decide) (by decide)
      (by decide)).2.2 rfl (by decide) (by decide) (by decide)).1,
    ((tails_then_units_then_flush sampleEnv sampleEnv_docIsHanded sampleAfterH1
      [[0, 128, 3], [0, 128, 5]] [] (by decide) (by decide) (by decide) (by decide)
      (by decide)).2.2 rfl (by decide) (by decide) (by decide)).2.2⟩

/-! ## C19: the in-flight counter covers buffer and pending pictures -/

theorem pendingCount_cons (a : PictureDecoder) (l : List PictureDecoder) :
    pendingCount (a :: l) = pendingCount l + if notOutput a then 1 else 0 := by
  unfold pendingCount
  rw [List.countP_cons]
  by_cases h : notOutput a <;> simp [h]

theorem pendingCount_set_le (l : List PictureDecoder) :
    ∀ (i : Nat) (p : PictureDecoder), pendingCount (l.set i p) ≤ pendingCount l + 1 := by
  induction l with
  | nil => intro i p; simp [pendingCount]
  | cons a rest ih =>
    intro i p
    cases i with
    | zero =>
      rw [List.set_cons_zero, pendingCount_cons, pendingCount_cons]
      split_ifs <;> omega
    | succ j =>
      rw [List.set_cons_succ, pendingCount_cons, pendingCount_cons]
      have := ih j p
      omega

theorem pendingCount_append_singleton (l : List PictureDecoder) (p : PictureDecoder) :
    pendingCount (l ++ [p]) ≤ pendingCount l + 1 := by
  induction l with
  | nil =>
    rw [List.nil_append, pendingCount_cons]
    split_ifs <;> simp [pendingCount]
  | cons a rest ih =>
    rw [List.cons_append, pendingCount_cons, pendingCount_cons]
    omega

theorem pendingCount_set_markOutput (l : List PictureDecoder) :
    ∀ (i : Nat) (p : PictureDecoder), l[i]? = some p → notOutput p →
      pendingCount (l.set i (markOutput p)) + 1 = pendingCount l := by
  induction l with
  | nil => intro i p h; simp at h
  | cons a rest ih =>
    intro i p h hp
    cases i with
    | zero =>
      have ha : a = p := by simpa using h
      subst ha
      rw [List.set_cons_zero, pendingCount_cons, pendingCount_cons, if_pos hp]
      have hm : ¬ notOutput (markOutput a) := fun hm => OutputStatus.noConfusion hm
      rw [if_neg hm]
    | succ j =>
      have hj : rest[j]? = some p := by simpa using h
      rw [List.set_cons_succ, pendingCount_cons, pendingCount_cons]
      have := ih j p hj hp
      omega

theorem set_length_append_singleton (l : List PictureDecoder) (a b : PictureDecoder) :
    (l ++ [a]).set l.length b = l ++ [b] := by
  induction l with
  | nil => rfl
  | cons x rest ih =>
    show x :: (rest ++ [a]).set rest.length b = x :: (rest ++ [b])
    rw [ih]

/-- A decode step raises the number of pending slots by at most one: it writes
one slot only. -/
theorem DecodeOneBufferedNal_pendingCount (env : Env) (d : Decoder) (nal : Nal) :
    pendingCount (DecodeOneBufferedNal env d nal).pic_decoders_ ≤
      pendingCount d.pic_decoders_ + 1 := by
  show pendingCount ((slotFor env d nal).1.set (slotFor env d nal).2
    (payloadStep env d nal).2) ≤ pendingCount d.pic_decoders_ + 1
  unfold slotFor
  by_cases h : d.pic_decoders_.length < d.pic_buffering_num_
  · rw [GetNewPictureDecoder_grow env _ _ _ _ _ _ h]
    dsimp only
    rw [set_length_append_singleton]
    exact pendingCount_append_singleton _ _
  · rcases GetNewPictureDecoder_full_shape env d.pic_decoders_ d.pic_buffering_num_
        (governingHeader env d nal).chroma_format (governingHeader env d nal).pic_width
        (governingHeader env d nal).pic_height (governingHeader env d nal).internal_bitdepth h
      with e | e
    · rw [e]
      exact pendingCount_set_le _ _ _
    · rw [e, List.set_set]
      exact pendingCount_set_le _ _ _

theorem foldl_DecodeOneBufferedNal_pendingCount (env : Env) (nals : List Nal) :
    ∀ d : Decoder,
      pendingCount (nals.foldl (DecodeOneBufferedNal env) d).pic_decoders_ ≤
        pendingCount d.pic_decoders_ + nals.length := by
  induction nals with
  | nil => intro d; exact le_refl _
  | cons n rest ih =>
    intro d
    have h1 := ih (DecodeOneBufferedNal env d n)
    have h2 := DecodeOneBufferedNal_pendingCount env d n
    rw [List.foldl_cons]
    simp only [List.length_cons]
    omega

theorem drainStep_inFlightInv (env : Env) (d : Decoder) (h : inFlightInv d) :
    inFlightInv (drainStep env d) := by
  cases hb : d.nal_buffer_ with
  | nil => rw [drainStep_nil env d hb]; exact h
  | cons nal rest =>
    rw [drainStep_cons env d nal rest hb]
    unfold inFlightInv at h ⊢
    rw [hb] at h
    have hp := DecodeOneBufferedNal_pendingCount env d nal
    show pendingCount (DecodeOneBufferedNal env d nal).pic_decoders_ + rest.length ≤
      d.num_pics_in_buffer_
    simp only [List.length_cons] at h
    omega

theorem drainLoop_inFlightInv (env : Env) (fuel : Nat) (d : Decoder) (h : inFlightInv d) :
    inFlightInv (drainLoop env fuel d) :=
  drainLoop_preserves env inFlightInv (fun x _ hx => drainStep_inFlightInv env x hx) fuel d h

theorem DecodeSegmentHeaderNal_inFlightInv (env : Env) (d : Decoder) (br : BitReader)
    (h : inFlightInv d) (h32 : d.num_pics_in_buffer_ < 2 ^ 32) :
    inFlightInv (DecodeSegmentHeaderNal env d br).2 := by
  unfold inFlightInv at h ⊢
  rw [DecodeSegmentHeaderNal_pic_decoders]
  by_cases hb : d.nal_buffer_.length > toSizeT d.num_tail_pics_
  · obtain ⟨h1, h2, _, _⟩ := DecodeSegmentHeaderNal_discard env d br hb
    rw [h1, h2]
    unfold sub32
    simp only [List.length_nil]
    omega
  · obtain ⟨h1, h2, _, _⟩ := DecodeSegmentHeaderNal_keep env d br hb
    rw [h1, h2]
    exact h

theorem insertNal_inFlightInv (env : Env) (d : Decoder) (nal : Nal) (h : inFlightInv d)
    (h32 : d.num_pics_in_buffer_ + 1 < 2 ^ 32) :
    inFlightInv (insertNal env d nal) := by
  unfold inFlightInv at h ⊢
  show pendingCount d.pic_decoders_ + (insertNal env d nal).nal_buffer_.length ≤
    inc32 d.num_pics_in_buffer_
  unfold inc32
  rw [Nat.mod_eq_of_lt h32]
  have hlen : (insertNal env d nal).nal_buffer_.length = d.nal_buffer_.length + 1 := by
    simp only [insertNal]
    split_ifs <;> simp
  rw [hlen]
  omega

theorem DecodeNal_inFlightInv (env : Env) (d : Decoder) (nal : Nal)
    (h : inFlightInv d) (h32 : d.num_pics_in_buffer_ + 1 < 2 ^ 32) :
    inFlightInv (DecodeNal env d nal).2 := by
  unfold DecodeNal
  split_ifs
  · exact h
  · exact DecodeSegmentHeaderNal_inFlightInv env d _ h (by omega)
  · exact h
  · exact h
  · exact insertNal_inFlightInv env d nal h h32
  · exact drainLoop_inFlightInv env _ _ (insertNal_inFlightInv env d nal h h32)
  · exact h

theorem FlushBufferedTailPics_inFlightInv (env : Env) (d : Decoder)
    (h : inFlightInv d) (h32 : d.num_pics_in_buffer_ < 2 ^ 32) :
    inFlightInv (FlushBufferedTailPics env d) := by
  by_cases hd : d.nal_buffer_.length > toSizeT d.num_tail_pics_
  · rw [FlushBufferedTailPics_deferred env d hd]; exact h
  · by_cases he : d.nal_buffer_ = []
    · rw [FlushBufferedTailPics_empty env d hd he]; exact h
    · unfold inFlightInv at h
      cases ho : d.curr_segment_header_.open_gop with
      | true =>
        rw [FlushBufferedTailPics_open env d hd he ho]
        show pendingCount d.pic_decoders_ + 0 ≤ sub32 d.num_pics_in_buffer_ d.nal_buffer_.length
        unfold sub32
        omega
      | false =>
        rw [FlushBufferedTailPics_closed env d hd he ho]
        have hp := foldl_DecodeOneBufferedNal_pendingCount env d.nal_buffer_
          { d with
            enforce_sliding_window_ := false
            soc_ := d.soc_ + 1
            prev_segment_header_ := d.curr_segment_header_
            doc_ := d.doc_ + 1
            sub_gop_start_poc_ := d.sub_gop_end_poc_
            sub_gop_end_poc_ := d.sub_gop_end_poc_ + d.sub_gop_length_ }
        obtain ⟨_, _, _, _, hn, _⟩ := foldl_DecodeOneBufferedNal_frame env d.nal_buffer_
          { d with
            enforce_sliding_window_ := false
            soc_ := d.soc_ + 1
            prev_segment_header_ := d.curr_segment_header_
            doc_ := d.doc_ + 1
            sub_gop_start_poc_ := d.sub_gop_end_poc_
            sub_gop_end_poc_ := d.sub_gop_end_poc_ + d.sub_gop_length_ }
        unfold inFlightInv
        show pendingCount (List.foldl (DecodeOneBufferedNal env) _ d.nal_buffer_).pic_decoders_ +
          0 ≤ (List.foldl (DecodeOneBufferedNal env) _ d.nal_buffer_).num_pics_in_buffer_
        rw [hn]
        have hp2 : pendingCount (List.foldl (DecodeOneBufferedNal env) _
            d.nal_buffer_).pic_decoders_ ≤
            pendingCount d.pic_decoders_ + d.nal_buffer_.length := hp
        show _ + 0 ≤ d.num_pics_in_buffer_
        omega

theorem GetDecodedPicture_none (env : Env) (d : Decoder)
    (h : (GetDecodedPicture env d).1 = none) : (GetDecodedPicture env d).2 = d := by
  by_cases hr : d.enforce_sliding_window_ = true ∧ env.HasPictureReadyForOutput d = false
  · rw [GetDecodedPicture_refused env d hr]
  · cases hf : findLowestPoc d.pic_decoders_ 0 env.PicNum_max none with
    | none => rw [GetDecodedPicture_not_found env d hr hf]
    | some i =>
      cases hg : d.pic_decoders_[i]? with
      | none => rw [GetDecodedPicture_out_of_range env d i hr hf hg]
      | some pic =>
        rw [GetDecodedPicture_found env d i pic hr hf hg] at h
        cases h

theorem pendingCount_pos (l : List PictureDecoder) (h : ∃ q ∈ l, notOutput q) :
    0 < pendingCount l := by
  induction l with
  | nil => obtain ⟨q, hq, _⟩ := h; cases hq
  | cons a rest ih =>
    rw [pendingCount_cons]
    obtain ⟨q, hq, hn⟩ := h
    rcases List.mem_cons.1 hq with rfl | hq
    · rw [if_pos hn]; omega
    · have := ih ⟨q, hq, hn⟩
      omega

theorem GetDecodedPicture_inFlightInv (env : Env) (d : Decoder)
    (h : inFlightInv d) (h32 : d.num_pics_in_buffer_ < 2 ^ 32) :
    inFlightInv (GetDecodedPicture env d).2 := by
  cases hres : (GetDecodedPicture env d).1 with
  | none => rw [GetDecodedPicture_none env d hres]; exact h
  | some out =>
    obtain ⟨i, pic, hi, hn, _, _, hst⟩ := GetDecodedPicture_eq_some env d out hres
    have hmid : inFlightInv (outputSlot d i pic) := by
      unfold inFlightInv at h ⊢
      have hc := pendingCount_set_markOutput d.pic_decoders_ i pic hi hn
      show pendingCount (d.pic_decoders_.set i (markOutput pic)) + d.nal_buffer_.length ≤
        sub32 d.num_pics_in_buffer_ 1
      unfold sub32
      omega
    rw [hst]
    split_ifs
    · exact drainStep_inFlightInv env _ hmid
    · exact hmid

theorem isInitial_inFlightInv (d : Decoder) (h : isInitial d) : inFlightInv d := by
  obtain ⟨_, h2, h3, h4, _⟩ := h
  unfold inFlightInv
  rw [h2, h3, h4]
  simp [pendingCount]

/-- Under the invariant, only a `DecodeNal` call can raise the in-flight counter,
and by at most one. -/
theorem step_num_pics_le (env : Env) (d : Decoder) (op : Op)
    (h : inFlightInv d) (h32 : d.num_pics_in_buffer_ < 2 ^ 32) :
    (step env d op).num_pics_in_buffer_ + fedCount [] ≤ d.num_pics_in_buffer_ + fedCount [op] := by
  unfold inFlightInv at h
  cases op with
  | decodeNal nal =>
    show (DecodeNal env d nal).2.num_pics_in_buffer_ + 0 ≤ d.num_pics_in_buffer_ + (0 + 1)
    have hinc : inc32 d.num_pics_in_buffer_ ≤ d.num_pics_in_buffer_ + 1 := by
      unfold inc32; exact Nat.mod_le _ _
    unfold DecodeNal
    split_ifs
    · exact Nat.le_succ _
    · by_cases hb : d.nal_buffer_.length > toSizeT d.num_tail_pics_
      · rw [(DecodeSegmentHeaderNal_discard env d _ hb).2.1]
        unfold sub32
        omega
      · rw [(DecodeSegmentHeaderNal_keep env d _ hb).2.1]
        exact Nat.le_succ _
    · exact Nat.le_succ _
    · exact Nat.le_succ _
    · exact hinc
    · show (drainLoop env _ (insertNal env d nal)).num_pics_in_buffer_ + 0 ≤ _
      rw [drainLoop_num_pics]
      exact hinc
    · exact Nat.le_succ _
  | flush =>
    show (FlushBufferedTailPics env d).num_pics_in_buffer_ + 0 ≤ d.num_pics_in_buffer_ + 0
    by_cases hd : d.nal_buffer_.length > toSizeT d.num_tail_pics_
    · rw [FlushBufferedTailPics_deferred env d hd]
    · by_cases he : d.nal_buffer_ = []
      · rw [FlushBufferedTailPics_empty env d hd he]
      · cases ho : d.curr_segment_header_.open_gop with
        | true =>
          rw [FlushBufferedTailPics_open env d hd he ho]
          show sub32 d.num_pics_in_buffer_ d.nal_buffer_.length + 0 ≤ d.num_pics_in_buffer_ + 0
          unfold sub32
          omega
        | false =>
          rw [FlushBufferedTailPics_closed env d hd he ho]
          obtain ⟨_, _, _, _, hn, _⟩ := foldl_DecodeOneBufferedNal_frame env d.nal_buffer_
            { d with
              enforce_sliding_window_ := false
              soc_ := d.soc_ + 1
              prev_segment_header_ := d.curr_segment_header_
              doc_ := d.doc_ + 1
              sub_gop_start_poc_ := d.sub_gop_end_poc_
              sub_gop_end_poc_ := d.sub_gop_end_poc_ + d.sub_gop_length_ }
          show (List.foldl (DecodeOneBufferedNal env) _ d.nal_buffer_).num_pics_in_buffer_ + 0 ≤ _
          rw [hn]
  | getDecodedPicture =>
    show (GetDecodedPicture env d).2.num_pics_in_buffer_ + 0 ≤ d.num_pics_in_buffer_ + 0
    cases hres : (GetDecodedPicture env d).1 with
    | none => rw [GetDecodedPicture_none env d hres]
    | some out =>
      obtain ⟨i, pic, hi, hn, _, _, hst⟩ := GetDecodedPicture_eq_some env d out hres
      have hpos := pendingCount_pos d.pic_decoders_ ⟨pic, List.getElem?_mem hi, hn⟩
      have hmid : sub32 d.num_pics_in_buffer_ 1 + 0 ≤ d.num_pics_in_buffer_ + 0 := by
        unfold sub32; omega
      rw [hst]
      split_ifs
      · rw [drainStep_num_pics]; exact hmid
      · exact hmid

theorem fedCount_cons (op : Op) (rest : List Op) :
    fedCount (op :: rest) = fedCount [op] + fedCount rest := by
  cases op <;> simp [fedCount]
  omega

theorem step_inFlightInv (env : Env) (d : Decoder) (op : Op)
    (h : inFlightInv d) (h32 : d.num_pics_in_buffer_ + fedCount [op] < 2 ^ 32) :
    inFlightInv (step env d op) := by
  cases op with
  | decodeNal nal => exact DecodeNal_inFlightInv env d nal h h32
  | flush => exact FlushBufferedTailPics_inFlightInv env d h h32
  | getDecodedPicture => exact GetDecodedPicture_inFlightInv env d h h32

/-- From a state that satisfies the invariant with its counter at most `n`, a
run whose `DecodeNal` calls do not take the count to `2 ^ 32` keeps the
invariant, and the counter stays at most `n` plus the number of `DecodeNal`
calls made. -/
theorem run_inFlightInv (env : Env) (ops : List Op) :
    ∀ (d : Decoder) (n : Nat), inFlightInv d → d.num_pics_in_buffer_ ≤ n →
      n + fedCount ops < 2 ^ 32 →
      inFlightInv (run env d ops) ∧ (run env d ops).num_pics_in_buffer_ ≤ n + fedCount ops := by
  induction ops with
  | nil => intro d n h hn _; exact ⟨h, hn⟩
  | cons op rest ih =>
    intro d n h hn hlen
    rw [fedCount_cons] at hlen ⊢
    have hstep := step_num_pics_le env d op h (by omega)
    have hfn : fedCount ([] : List Op) = 0 := rfl
    rw [hfn] at hstep
    obtain ⟨h1, h2⟩ := ih (step env d op) (n + fedCount [op])
      (step_inFlightInv env d op h (by omega)) (by omega) (by omega)
    exact ⟨h1, by have : run env d (op :: rest) = run env (step env d op) rest := rfl
                  rw [this]; omega⟩

theorem FlushBufferedTailPics_isInitial (env : Env) (d : Decoder) (h : isInitial d) :
    isInitial (FlushBufferedTailPics env d) := by
  obtain ⟨h1, h2, h3, h4, h5⟩ := h
  have hd : ¬ d.nal_buffer_.length > toSizeT d.num_tail_pics_ := by
    rw [h2]; simp
  rw [FlushBufferedTailPics_empty env d hd h2]
  exact ⟨h1, h2, h3, h4, h5⟩

theorem GetDecodedPicture_isInitial (env : Env) (d : Decoder) (h : isInitial d) :
    (GetDecodedPicture env d).2 = d := by
  apply GetDecodedPicture_none
  cases hres : (GetDecodedPicture env d).1 with
  | none => rfl
  | some out =>
    obtain ⟨i, pic, hi, _⟩ := GetDecodedPicture_eq_some env d out hres
    rw [h.2.2.1] at hi
    simp at hi

/-- The first `DecodeNal` call of a session leaves the in-flight counter at 0:
a header counts nothing, and anything else is rejected. -/
theorem DecodeNal_isInitial (env : Env) (d : Decoder) (nal : Nal) (h : isInitial d) :
    inFlightInv (DecodeNal env d nal).2 ∧ (DecodeNal env d nal).2.num_pics_in_buffer_ = 0 := by
  have h4 := h.2.2.2.1
  refine ⟨DecodeNal_inFlightInv env d nal (isInitial_inFlightInv d h) (by rw [h4]; norm_num), ?_⟩
  by_cases hh : isHeaderNal env nal
  · rw [DecodeNal_header env d nal hh]
    have hd : ¬ d.nal_buffer_.length > toSizeT d.num_tail_pics_ := by
      rw [h.2.1]; simp
    rw [(DecodeSegmentHeaderNal_keep env d _ hd).2.1]
    exact h4
  · rw [DecodeNal_not_header_rejected env d nal hh (Or.inl h.1)]
    exact h4

/-- From an initial state, a run with at most `2 ^ 32` calls of `DecodeNal` keeps
the invariant; the counter is below the number of `DecodeNal` calls made. -/
theorem run_isInitial_inFlightInv (env : Env) (ops : List Op) :
    ∀ d : Decoder, isInitial d → fedCount ops ≤ 2 ^ 32 →
      inFlightInv (run env d ops) ∧ (run env d ops).num_pics_in_buffer_ ≤ fedCount ops - 1 := by
  induction ops with
  | nil =>
    intro d h _
    refine ⟨isInitial_inFlightInv d h, ?_⟩
    show d.num_pics_in_buffer_ ≤ _
    rw [h.2.2.2.1]
    exact Nat.zero_le _
  | cons op rest ih =>
    intro d h hlen
    cases op with
    | decodeNal nal =>
      obtain ⟨h1, h2⟩ := DecodeNal_isInitial env d nal h
      have hf : fedCount (Op.decodeNal nal :: rest) = fedCount rest + 1 := rfl
      rw [hf] at hlen ⊢
      obtain ⟨r1, r2⟩ := run_inFlightInv env rest (DecodeNal env d nal).2 0 h1
        (by rw [h2]) (by omega)
      exact ⟨r1, by have : run env d (Op.decodeNal nal :: rest) =
                      run env (DecodeNal env d nal).2 rest := rfl
                    rw [this]; omega⟩
    | flush =>
      exact ih _ (FlushBufferedTailPics_isInitial env d h) hlen
    | getDecodedPicture =>
      have hrun : run env d (Op.getDecodedPicture :: rest) =
          run env (GetDecodedPicture env d).2 rest := rfl
      rw [hrun, GetDecodedPicture_isInitial env d h]
      exact ih d h hlen

/-- C19, amended. In every state reached from an initial session state by a
sequence of `DecodeNal`, `FlushBufferedTailPics` and `GetDecodedPicture` calls
of which at most `2 ^ 32` are `DecodeNal` calls (a decode step writes only the
slot it was given, as the embedding has it): `num_pics_in_buffer_` is at least
the reorder-buffer length, and `num_pics_in_buffer_` minus the buffer length is
at least the number of pool slots with status `kHasNotBeenOutput`.  So none of
the unsigned subtractions wraps below zero:
`num_pics_in_buffer_ - nal_buffer_.size()` is exact both in `size_t` and in
`uint32_t`; when a slot is pending, the decrement of `GetDecodedPicture` is
exact and the counter stays at least the buffer length; and in the drain loop
of a following `DecodeNal` call (when that call is still among the first
`2 ^ 32`) the counter is at least the buffer length throughout.  The counter
itself is below the number of `DecodeNal` calls made. -/
theorem in_flight_counter_never_wraps (env : Env) (d : Decoder) (ops : List Op)
    (hinit : isInitial d) (hb : fedCount ops ≤ 2 ^ 32) :
    (run env d ops).nal_buffer_.length ≤ (run env d ops).num_pics_in_buffer_ ∧
      pendingCount (run env d ops).pic_decoders_ ≤
        (run env d ops).num_pics_in_buffer_ - (run env d ops).nal_buffer_.length ∧
      subSize (run env d ops).num_pics_in_buffer_ (run env d ops).nal_buffer_.length +
          (run env d ops).nal_buffer_.length = (run env d ops).num_pics_in_buffer_ ∧
      sub32 (run env d ops).num_pics_in_buffer_ (run env d ops).nal_buffer_.length +
          (run env d ops).nal_buffer_.length = (run env d ops).num_pics_in_buffer_ ∧
      ((∃ q ∈ (run env d ops).pic_decoders_, notOutput q) →
        sub32 (run env d ops).num_pics_in_buffer_ 1 + 1 =
            (run env d ops).num_pics_in_buffer_ ∧
          (run env d ops).nal_buffer_.length ≤
            sub32 (run env d ops).num_pics_in_buffer_ 1) ∧
      (fedCount ops < 2 ^ 32 → ∀ (nal : Nal) (fuel : Nat),
        (drainLoop env fuel (insertNal env (run env d ops) nal)).nal_buffer_.length ≤
          (drainLoop env fuel (insertNal env (run env d ops) nal)).num_pics_in_buffer_) ∧
      (run env d ops).num_pics_in_buffer_ ≤ fedCount ops - 1 := by
  obtain ⟨hinv, hle⟩ := run_isInitial_inFlightInv env ops d hinit hb
  have hinv2 : pendingCount (run env d ops).pic_decoders_ +
      (run env d ops).nal_buffer_.length ≤ (run env d ops).num_pics_in_buffer_ := hinv
  refine ⟨by omega, by omega, by unfold subSize; omega, by unfold sub32; omega, ?_, ?_, hle⟩
  · intro hex
    have hpos := pendingCount_pos _ hex
    constructor
    · unfold sub32; omega
    · unfold sub32; omega
  · intro hnext nal fuel
    have hl : inFlightInv (drainLoop env fuel (insertNal env (run env d ops) nal)) :=
      drainLoop_inFlightInv env fuel _ (insertNal_inFlightInv env _ nal hinv (by omega))
    unfold inFlightInv at hl
    omega

set_option maxRecDepth 8000 in
theorem in_flight_counter_never_wraps_witness :
    isInitial sampleInit ∧
      fedCount [Op.decodeNal sampleHg1, Op.decodeNal [0, 0, 4], Op.decodeNal [0, 0, 8],
        Op.decodeNal [0, 0, 2], Op.getDecodedPicture, Op.flush] ≤ 2 ^ 32 ∧
      (run sampleEnv sampleInit
        [Op.decodeNal sampleHg1, Op.decodeNal [0, 0, 4], Op.decodeNal [0, 0, 8],
          Op.decodeNal [0, 0, 2], Op.getDecodedPicture, Op.flush]).nal_buffer_.length ≤
        (run sampleEnv sampleInit
          [Op.decodeNal sampleHg1, Op.decodeNal [0, 0, 4], Op.decodeNal [0, 0, 8],
            Op.decodeNal [0, 0, 2], Op.getDecodedPicture, Op.flush]).num_pics_in_buffer_ ∧
      pendingCount (run sampleEnv sampleInit
        [Op.decodeNal sampleHg1, Op.decodeNal [0, 0, 4], Op.decodeNal [0, 0, 8],
          Op.decodeNal [0, 0, 2], Op.getDecodedPicture, Op.flush]).pic_decoders_ = 2 :=
  ⟨by decide, by decide,
    (in_flight_counter_never_wraps sampleEnv sampleInit
      [Op.decodeNal sampleHg1, Op.decodeNal [0, 0, 4], Op.decodeNal [0, 0, 8],
        Op.decodeNal [0, 0, 2], Op.getDecodedPicture, Op.flush] (by decide)
      (by decide)).1,
    by decide⟩

/-! ## C20: the tail counter and the flagged units in the buffer -/

set_option maxRecDepth 8000 in
/-- C20, evaluation at the failing input. From the initial sample session: an
open-GOP header, then one accepted picture unit with the buffer flag set, then
`FlushBufferedTailPics`.  Before the flush `num_tail_pics_` is the number of
flagged units in the buffer (1).  The flush takes its open-GOP branch, which
clears the buffer and lowers the in-flight counter but does not touch
`num_tail_pics_`: afterwards the buffer is empty, holds 0 flagged units, and
`num_tail_pics_` is still 1, above the buffer length. -/
theorem flush_open_gop_keeps_tail_count :
    isInitial sampleInit ∧
      (DecodeNal sampleEnv sampleInit sampleHopen).1 = true ∧
      (run sampleEnv sampleInit
        [Op.decodeNal sampleHopen, Op.decodeNal [0, 128, 3]]).num_tail_pics_ =
        (flaggedCount sampleEnv (run sampleEnv sampleInit
          [Op.decodeNal sampleHopen, Op.decodeNal [0, 128, 3]]).nal_buffer_ : Nat) ∧
      (run sampleEnv sampleInit
        [Op.decodeNal sampleHopen, Op.decodeNal [0, 128, 3], Op.flush]).nal_buffer_ = [] ∧
      flaggedCount sampleEnv (run sampleEnv sampleInit
        [Op.decodeNal sampleHopen, Op.decodeNal [0, 128, 3], Op.flush]).nal_buffer_ = 0 ∧
      (run sampleEnv sampleInit
        [Op.decodeNal sampleHopen, Op.decodeNal [0, 128, 3], Op.flush]).num_tail_pics_ = 1 ∧
      ¬ (run sampleEnv sampleInit
          [Op.decodeNal sampleHopen, Op.decodeNal [0, 128, 3], Op.flush]).num_tail_pics_ ≤
        ((run sampleEnv sampleInit
          [Op.decodeNal sampleHopen, Op.decodeNal [0, 128, 3],
            Op.flush]).nal_buffer_.length : Nat) := by
  decide

theorem flaggedCount_cons (env : Env) (nal : Nal) (l : List Nal) :
    flaggedCount env (nal :: l) =
      flaggedCount env l + if nalBufferFlag env nal ≠ 0 then 1 else 0 := by
  unfold flaggedCount
  rw [List.countP_cons]
  by_cases h : nalBufferFlag env nal ≠ 0 <;> simp [h]

theorem flaggedCount_append_singleton (env : Env) (l : List Nal) (nal : Nal) :
    flaggedCount env (l ++ [nal]) =
      flaggedCount env l + if nalBufferFlag env nal ≠ 0 then 1 else 0 := by
  induction l with
  | nil => rw [List.nil_append, flaggedCount_cons]
  | cons a rest ih =>
    rw [List.cons_append, flaggedCount_cons, flaggedCount_cons, ih]
    omega

theorem drainStep_tailInv (env : Env) (d : Decoder) (h : tailInv env d) :
    tailInv env (drainStep env d) := by
  cases hb : d.nal_buffer_ with
  | nil => rw [drainStep_nil env d hb]; exact h
  | cons nal rest =>
    rw [drainStep_cons env d nal rest hb]
    unfold tailInv at h ⊢
    rw [hb, flaggedCount_cons] at h
    show tailAfter env d nal = (flaggedCount env rest : Nat)
    unfold tailAfter
    split_ifs with hf
    · rw [if_pos hf] at h
      omega
    · rw [if_neg hf] at h
      omega

theorem drainLoop_tailInv (env : Env) (fuel : Nat) (d : Decoder) (h : tailInv env d) :
    tailInv env (drainLoop env fuel d) :=
  drainLoop_preserves env (tailInv env) (fun x _ hx => drainStep_tailInv env x hx) fuel d h

theorem foldl_DecodeOneBufferedNal_tail (env : Env) (nals : List Nal) :
    ∀ d : Decoder,
      (nals.foldl (DecodeOneBufferedNal env) d).num_tail_pics_ =
        d.num_tail_pics_ - (flaggedCount env nals : Nat) := by
  induction nals with
  | nil => intro d; simp [flaggedCount]
  | cons n rest ih =>
    intro d
    rw [List.foldl_cons, ih, flaggedCount_cons, DecodeOneBufferedNal_num_tail_pics]
    unfold tailAfter
    split_ifs <;> push_cast <;> omega

theorem DecodeSegmentHeaderNal_tailInv (env : Env) (d : Decoder) (br : BitReader)
    (h : tailInv env d) : tailInv env (DecodeSegmentHeaderNal env d br).2 := by
  unfold tailInv at h ⊢
  by_cases hb : d.nal_buffer_.length > toSizeT d.num_tail_pics_
  · obtain ⟨h1, _, h3, _⟩ := DecodeSegmentHeaderNal_discard env d br hb
    rw [h1, h3]
    rfl
  · obtain ⟨h1, _, h3, _⟩ := DecodeSegmentHeaderNal_keep env d br hb
    rw [h1, h3]
    exact h

theorem DecodeNal_tailInv (env : Env) (d : Decoder) (nal : Nal) (h : tailInv env d) :
    tailInv env (DecodeNal env d nal).2 := by
  have hins : nalBufferFlag env nal = 0 → tailInv env (insertNal env d nal) := by
    intro hf
    unfold tailInv at h ⊢
    show d.num_tail_pics_ = (flaggedCount env (insertNal env d nal).nal_buffer_ : Nat)
    simp only [insertNal]
    split_ifs
    · rw [flaggedCount_cons, if_neg (not_not.2 hf)]
      exact h
    · rw [flaggedCount_append_singleton, if_neg (not_not.2 hf)]
      exact h
  unfold DecodeNal
  split_ifs with _ _ _ _ _ hf
  · exact h
  · exact DecodeSegmentHeaderNal_tailInv env d _ h
  · exact h
  · exact h
  · unfold tailInv at h ⊢
    show d.num_tail_pics_ + 1 = (flaggedCount env (insertNal env d nal).nal_buffer_ : Nat)
    have hcond : ¬ (nalBufferFlag env nal = 0 ∧ d.num_tail_pics_ > 0) := fun hc => hf hc.1
    simp only [insertNal]
    rw [if_neg hcond, flaggedCount_append_singleton, if_pos hf]
    push_cast
    omega
  · exact drainLoop_tailInv env _ _ (hins (not_not.1 hf))
  · exact h

theorem FlushBufferedTailPics_tailInv (env : Env) (d : Decoder) (h : tailInv env d)
    (hno : ¬ (¬ d.nal_buffer_.length > toSizeT d.num_tail_pics_ ∧ d.nal_buffer_ ≠ [] ∧
      d.curr_segment_header_.open_gop = true)) :
    tailInv env (FlushBufferedTailPics env d) := by
  by_cases hd : d.nal_buffer_.length > toSizeT d.num_tail_pics_
  · rw [FlushBufferedTailPics_deferred env d hd]; exact h
  · by_cases he : d.nal_buffer_ = []
    · rw [FlushBufferedTailPics_empty env d hd he]; exact h
    · cases ho : d.curr_segment_header_.open_gop with
      | true => exact absurd ⟨hd, he, ho⟩ hno
      | false =>
        rw [FlushBufferedTailPics_closed env d hd he ho]
        have ht := foldl_DecodeOneBufferedNal_tail env d.nal_buffer_
          { d with
            enforce_sliding_window_ := false
            soc_ := d.soc_ + 1
            prev_segment_header_ := d.curr_segment_header_
            doc_ := d.doc_ + 1
            sub_gop_start_poc_ := d.sub_gop_end_poc_
            sub_gop_end_poc_ := d.sub_gop_end_poc_ + d.sub_gop_length_ }
        unfold tailInv at h ⊢
        show (List.foldl (DecodeOneBufferedNal env) _ d.nal_buffer_).num_tail_pics_ =
          (flaggedCount env [] : Nat)
        rw [ht]
        show d.num_tail_pics_ - (flaggedCount env d.nal_buffer_ : Nat) =
          (flaggedCount env [] : Nat)
        rw [h]
        simp [flaggedCount]

theorem GetDecodedPicture_tailInv (env : Env) (d : Decoder) (h : tailInv env d) :
    tailInv env (GetDecodedPicture env d).2 := by
  cases hres : (GetDecodedPicture env d).1 with
  | none => rw [GetDecodedPicture_none env d hres]; exact h
  | some out =>
    obtain ⟨i, pic, _, _, _, _, hst⟩ := GetDecodedPicture_eq_some env d out hres
    have hmid : tailInv env (outputSlot d i pic) := h
    rw [hst]
    split_ifs
    · exact drainStep_tailInv env _ hmid
    · exact hmid

/-- Apart from the open-GOP branch of the flush, every call keeps
`num_tail_pics_` equal to the number of flagged units in the buffer: in every
state reached from an initial state by calls among which no flush takes that
branch, the two agree, so the counter is neither negative nor above the buffer
length. -/
theorem tail_count_agrees_without_open_gop_flush (env : Env) (ops : List Op) :
    ∀ d : Decoder, tailInv env d → noOpenGopDiscard env d ops →
      tailInv env (run env d ops) ∧ 0 ≤ (run env d ops).num_tail_pics_ ∧
        (run env d ops).num_tail_pics_ ≤ ((run env d ops).nal_buffer_.length : Nat) := by
  induction ops with
  | nil =>
    intro d h _
    refine ⟨h, ?_, ?_⟩
    · unfold tailInv at h
      show 0 ≤ d.num_tail_pics_
      omega
    · unfold tailInv at h
      show d.num_tail_pics_ ≤ (d.nal_buffer_.length : Nat)
      have hle : flaggedCount env d.nal_buffer_ ≤ d.nal_buffer_.length := by
        unfold flaggedCount
        exact List.countP_le_length _
      omega
  | cons op rest ih =>
    intro d h hno
    cases op with
    | decodeNal nal => exact ih _ (DecodeNal_tailInv env d nal h) hno
    | flush => exact ih _ (FlushBufferedTailPics_tailInv env d h hno.1) hno.2
    | getDecodedPicture => exact ih _ (GetDecodedPicture_tailInv env d h) hno

theorem isInitial_tailInv (env : Env) (d : Decoder) (h : isInitial d) : tailInv env d := by
  obtain ⟨_, h2, _, _, h5⟩ := h
  unfold tailInv
  rw [h2, h5]
  rfl

/-- The same, from an initial session state. -/
theorem tail_count_agrees_from_initial (env : Env) (d : Decoder) (ops : List Op)
    (hinit : isInitial d) (hno : noOpenGopDiscard env d ops) :
    (run env d ops).num_tail_pics_ = (flaggedCount env (run env d ops).nal_buffer_ : Nat) ∧
      0 ≤ (run env d ops).num_tail_pics_ ∧
      (run env d ops).num_tail_pics_ ≤ ((run env d ops).nal_buffer_.length : Nat) :=
  tail_count_agrees_without_open_gop_flush env ops d (isInitial_tailInv env d hinit) hno

/-! ## C6: order of the POCs reported by consecutive calls -/

/-- When the reorder buffer holds no more units than `num_tail_pics_`, no run of
`GetDecodedPicture` calls decodes a unit. -/
theorem run_gets_quiet_of_buffer_le_tail (env : Env) (n : Nat) :
    ∀ d : Decoder, ¬ d.nal_buffer_.length > toSizeT d.num_tail_pics_ →
      (run env d (List.replicate n Op.getDecodedPicture)).decode_log = d.decode_log := by
  induction n with
  | zero => intro d _; rfl
  | succ n ih =>
    intro d hd
    have hrun : run env d (List.replicate (n + 1) Op.getDecodedPicture) =
        run env (GetDecodedPicture env d).2 (List.replicate n Op.getDecodedPicture) := rfl
    rw [hrun]
    cases hres : (GetDecodedPicture env d).1 with
    | none =>
      rw [GetDecodedPicture_none env d hres]
      exact ih d hd
    | some out =>
      obtain ⟨i, pic, _, _, _, _, hst⟩ := GetDecodedPicture_eq_some env d out hres
      have hc : ¬ refillCond (outputSlot d i pic) := fun hc => hd hc.1
      rw [if_neg hc] at hst
      rw [hst]
      exact ih (outputSlot d i pic) hd

theorem accepted_of_tid_zero (env : Env) (d : Decoder) (nal : Nal)
    (htid : nalTid env nal = 0) (hdes : 0 ≤ desiredMaxTid env d) : accepted env d nal := by
  unfold accepted gatedMaxTid
  rw [if_pos (Or.inr htid), htid]
  omega

/-- A flush with exactly one buffered unit, a tail unit of a closed-GOP segment:
the unit is decoded. -/
theorem FlushBufferedTailPics_single (env : Env) (d : Decoder) (nal : Nal)
    (hb : d.nal_buffer_ = [nal]) (ht : d.num_tail_pics_ = 1)
    (hc : d.curr_segment_header_.open_gop = false) :
    FlushBufferedTailPics env d =
      { DecodeOneBufferedNal env
          { d with
            enforce_sliding_window_ := false
            soc_ := d.soc_ + 1
            prev_segment_header_ := d.curr_segment_header_
            doc_ := d.doc_ + 1
            sub_gop_start_poc_ := d.sub_gop_end_poc_
            sub_gop_end_poc_ := d.sub_gop_end_poc_ + d.sub_gop_length_ } nal with
        nal_buffer_ := [] } := by
  have hk : ¬ d.nal_buffer_.length > toSizeT d.num_tail_pics_ := by
    rw [hb, ht]
    show ¬ (1 : Nat) > toSizeT 1
    decide
  rw [FlushBufferedTailPics_closed env d hk (by rw [hb]; simp) hc]
  unfold DecodeAllBufferedNals
  dsimp only
  rw [hb]
  rfl

/-- One round (a tail unit with temporal id 0, then a flush) in a closed-GOP
segment with an empty reorder buffer: the session is ready for the next round
and the in-flight counter has gone up by one, as a `uint32_t`. -/
theorem tailRound_step (env : Env) (nal : Nal) (hpic : isPictureNal env nal)
    (hflag : nalBufferFlag env nal ≠ 0) (htid : nalTid env nal = 0) (d : Decoder)
    (hd : acceptsPictures d) (hb : d.nal_buffer_ = []) (ht : d.num_tail_pics_ = 0)
    (hc : d.curr_segment_header_.open_gop = false) (hdes : 0 ≤ desiredMaxTid env d) :
    acceptsPictures (FlushBufferedTailPics env (DecodeNal env d nal).2) ∧
      (FlushBufferedTailPics env (DecodeNal env d nal).2).nal_buffer_ = [] ∧
      (FlushBufferedTailPics env (DecodeNal env d nal).2).num_tail_pics_ = 0 ∧
      (FlushBufferedTailPics env (DecodeNal env d nal).2).curr_segment_header_.open_gop =
        false ∧
      0 ≤ desiredMaxTid env (FlushBufferedTailPics env (DecodeNal env d nal).2) ∧
      (FlushBufferedTailPics env (DecodeNal env d nal).2).num_pics_in_buffer_ =
        inc32 d.num_pics_in_buffer_ := by
  have hacc := accepted_of_tid_zero env d nal htid hdes
  have hres := DecodeNal_picture env d nal hd hpic
  have hnot : ¬ nalTid env nal > gatedMaxTid env d nal := hacc
  rw [if_neg hnot, if_pos hflag] at hres
  obtain ⟨_, f2, f3, _, _, f6, f7⟩ := DecodeNal_tail_unit_fields env d nal hd hpic hacc hflag
  rw [hb] at f2
  rw [ht] at f3
  have hticks : (DecodeNal env d nal).2.decoder_ticks_ = d.decoder_ticks_ := by rw [hres]; rfl
  have hflush := FlushBufferedTailPics_single env (DecodeNal env d nal).2 nal f2 f3
    (by rw [f6]; exact hc)
  rw [hflush]
  refine ⟨DecodeOneBufferedNal_acceptsPictures env _ nal, rfl, ?_, ?_, ?_, ?_⟩
  · show tailAfter env _ nal = 0
    unfold tailAfter
    rw [if_pos hflag]
    show (DecodeNal env d nal).2.num_tail_pics_ - 1 = 0
    rw [f3]; rfl
  · show (DecodeNal env d nal).2.curr_segment_header_.open_gop = false
    rw [f6]; exact hc
  · show 0 ≤ env.GetFramerateMaxTid (DecodeNal env d nal).2.decoder_ticks_
      (DecodeNal env d nal).2.curr_segment_header_.bitstream_ticks
      (DecodeNal env d nal).2.curr_segment_header_.max_sub_gop_length
    rw [hticks, f6]
    exact hdes
  · show (DecodeNal env d nal).2.num_pics_in_buffer_ = _
    exact f7

/-- After `n` such rounds the in-flight counter has gone up by `n` modulo
`2 ^ 32`: nothing in a round lowers it. -/
theorem tailRounds_counter (env : Env) (nal : Nal) (hpic : isPictureNal env nal)
    (hflag : nalBufferFlag env nal ≠ 0) (htid : nalTid env nal = 0) (n : Nat) :
    ∀ d : Decoder, acceptsPictures d → d.nal_buffer_ = [] → d.num_tail_pics_ = 0 →
      d.curr_segment_header_.open_gop = false → 0 ≤ desiredMaxTid env d →
      d.num_pics_in_buffer_ < 2 ^ 32 →
      acceptsPictures (run env d (tailRounds nal n)) ∧
        (run env d (tailRounds nal n)).nal_buffer_ = [] ∧
        (run env d (tailRounds nal n)).num_tail_pics_ = 0 ∧
        0 ≤ desiredMaxTid env (run env d (tailRounds nal n)) ∧
        (run env d (tailRounds nal n)).num_pics_in_buffer_ =
          (d.num_pics_in_buffer_ + n) % 2 ^ 32 := by
  induction n with
  | zero =>
    intro d hd hb ht _ hdes h32
    exact ⟨hd, hb, ht, hdes, (Nat.mod_eq_of_lt h32).symm⟩
  | succ n ih =>
    intro d hd hb ht hc hdes h32
    obtain ⟨s1, s2, s3, s4, s5, s6⟩ := tailRound_step env nal hpic hflag htid d hd hb ht hc hdes
    have hrun : run env d (tailRounds nal (n + 1)) =
        run env (FlushBufferedTailPics env (DecodeNal env d nal).2) (tailRounds nal n) := by
      show List.foldl (step env) d (Op.decodeNal nal :: Op.flush :: tailRounds nal n) = _
      rw [List.foldl_cons, List.foldl_cons]
      rfl
    have h32b : (FlushBufferedTailPics env (DecodeNal env d nal).2).num_pics_in_buffer_ <
        2 ^ 32 := by
      rw [s6]; unfold inc32; exact Nat.mod_lt _ (by norm_num)
    obtain ⟨r1, r2, r3, r4, r5⟩ := ih _ s1 s2 s3 s4 s5 h32b
    rw [hrun]
    refine ⟨r1, r2, r3, r4, ?_⟩
    rw [r5, s6]
    unfold inc32
    omega

/-- The session reached by `sampleOverflowRun`: it lets pictures through, its
reorder buffer is empty, and its in-flight counter stands at `2 ^ 32 - 1`. -/
theorem sampleOverflowRun_state :
    acceptsPictures (run sampleEnv sampleInit sampleOverflowRun) ∧
      (run sampleEnv sampleInit sampleOverflowRun).nal_buffer_ = [] ∧
      (run sampleEnv sampleInit sampleOverflowRun).num_tail_pics_ = 0 ∧
      0 ≤ desiredMaxTid sampleEnv (run sampleEnv sampleInit sampleOverflowRun) ∧
      (run sampleEnv sampleInit sampleOverflowRun).num_pics_in_buffer_ = 2 ^ 32 - 1 := by
  have hrun : run sampleEnv sampleInit sampleOverflowRun =
      run sampleEnv sampleAfterH1 (tailRounds [0, 128, 3] (2 ^ 32 - 1)) := by
    show List.foldl (step sampleEnv) sampleInit
      (Op.decodeNal sampleH1 :: tailRounds [0, 128, 3] (2 ^ 32 - 1)) = _
    rw [List.foldl_cons]
    rfl
  obtain ⟨r1, r2, r3, r4, r5⟩ :=
    tailRounds_counter sampleEnv [0, 128, 3] (by decide) (by decide) (by decide) (2 ^ 32 - 1)
      sampleAfterH1 (by decide) (by decide) (by decide) (by decide) (by decide) (by decide)
  rw [hrun]
  refine ⟨r1, r2, r3, r4, ?_⟩
  rw [r5]
  decide

theorem run_append_decodeNal (env : Env) (d : Decoder) (ops : List Op) (nal : Nal) :
    run env d (ops ++ [Op.decodeNal nal]) = (DecodeNal env (run env d ops) nal).2 := by
  unfold run
  rw [List.foldl_append]
  rfl

theorem fedCount_tailRounds (nal : Nal) (n : Nat) : fedCount (tailRounds nal n) = n := by
  induction n with
  | zero => rfl
  | succ n ih =>
    show fedCount (tailRounds nal n) + 1 = n + 1
    rw [ih]

theorem fedCount_append_decodeNal (ops : List Op) (nal : Nal) :
    fedCount (ops ++ [Op.decodeNal nal]) = fedCount ops + 1 := by
  induction ops with
  | nil => rfl
  | cons op rest ih =>
    cases op with
    | decodeNal n2 =>
      show fedCount (rest ++ [Op.decodeNal nal]) + 1 = fedCount rest + 1 + 1
      rw [ih]
    | flush => exact ih
    | getDecodedPicture => exact ih

theorem fedCount_sampleOverflowRun : fedCount sampleOverflowRun = 1 + (2 ^ 32 - 1) := by
  unfold sampleOverflowRun
  rw [fedCount_cons, fedCount_tailRounds]
  rfl

/-- C19, counterexample. From the initial sample session, after
`sampleOverflowRun` and one more tail unit (`2 ^ 32 + 1` calls of `DecodeNal`
in all, the header included), the in-flight counter has wrapped to `0` while the reorder buffer
holds one unit: the counter is below the buffer length, and
`num_pics_in_buffer_ - nal_buffer_.size()` wraps below zero (it is `2 ^ 64 - 1`
in `size_t` arithmetic). -/
theorem in_flight_counter_overflows :
    isInitial sampleInit ∧
      fedCount (sampleOverflowRun ++ [Op.decodeNal [0, 128, 3]]) = 2 ^ 32 + 1 ∧
      (run sampleEnv sampleInit
        (sampleOverflowRun ++ [Op.decodeNal [0, 128, 3]])).num_pics_in_buffer_ = 0 ∧
      (run sampleEnv sampleInit
        (sampleOverflowRun ++ [Op.decodeNal [0, 128, 3]])).nal_buffer_ = [[0, 128, 3]] ∧
      ¬ (run sampleEnv sampleInit
          (sampleOverflowRun ++ [Op.decodeNal [0, 128, 3]])).nal_buffer_.length ≤
        (run sampleEnv sampleInit
          (sampleOverflowRun ++ [Op.decodeNal [0, 128, 3]])).num_pics_in_buffer_ ∧
      subSize
          (run sampleEnv sampleInit
            (sampleOverflowRun ++ [Op.decodeNal [0, 128, 3]])).num_pics_in_buffer_
          (run sampleEnv sampleInit
            (sampleOverflowRun ++ [Op.decodeNal [0, 128, 3]])).nal_buffer_.length =
        2 ^ 64 - 1 := by
  obtain ⟨r1, r2, _, r4, r5⟩ := sampleOverflowRun_state
  have hacc := accepted_of_tid_zero sampleEnv (run sampleEnv sampleInit sampleOverflowRun)
    [0, 128, 3] (by decide) r4
  obtain ⟨_, f2, _, _, _, _, f7⟩ := DecodeNal_tail_unit_fields sampleEnv
    (run sampleEnv sampleInit sampleOverflowRun) [0, 128, 3] r1 (by decide) hacc (by decide)
  have hrun : run sampleEnv sampleInit (sampleOverflowRun ++ [Op.decodeNal [0, 128, 3]]) =
      (DecodeNal sampleEnv (run sampleEnv sampleInit sampleOverflowRun) [0, 128, 3]).2 :=
    run_append_decodeNal sampleEnv sampleInit sampleOverflowRun [0, 128, 3]
  have hc : (run sampleEnv sampleInit
      (sampleOverflowRun ++ [Op.decodeNal [0, 128, 3]])).num_pics_in_buffer_ = 0 := by
    rw [hrun, f7, r5]
    decide
  have hb : (run sampleEnv sampleInit
      (sampleOverflowRun ++ [Op.decodeNal [0, 128, 3]])).nal_buffer_ = [[0, 128, 3]] := by
    rw [hrun, f2, r2]
    rfl
  have hfed : fedCount (sampleOverflowRun ++ [Op.decodeNal [0, 128, 3]]) = 2 ^ 32 + 1 := by
    rw [fedCount_append_decodeNal, fedCount_sampleOverflowRun]
    norm_num
  refine ⟨by decide, hfed, hc, hb, ?_, ?_⟩
  · rw [hc, hb]
    decide
  · rw [hc, hb]
    decide

end xvc
